import Mathlib

/-!
# DeskInspect server: the thesis version engine

A shallow embedding of `src/controllers/thesisController.js` together with the
schema of `src/models/thesis.js` and `src/models/User.js`, and of the thesis
update performed by `src/routes/reportRoutes.js` when a report is sent.

The document store is explicit state: the thesis collection, the user
collection and the notification collection are lists in insertion order.
Every handler is a function from the store and the request to the new store
and the HTTP response.  What the handler cannot decide itself (the clock, the
identifier generated for a new document, whether the notification collection
accepts a write, the case mapping of the JavaScript engine) is supplied by an
`Env` value.

How the store calls of the handlers are read:

* `findById` with a text that is no identifier throws a cast error, which the
  `catch` block of the handler turns into the 500 response (in `uploadThesis`
  the user lookup has its own `try`, which turns it into "not found");
* `populate("supervisorId")` puts the user document with that `_id` in place of
  the reference, and `null` when there is none, so that the later
  `supervisorId._id` throws and the handler answers 500;
* `save` runs the `required` validators of the schema (and the `trim` setter of
  `studentName` when the document is built); a failed validation throws, and so
  does the insertion of a document whose `_id` is already stored;
* request fields are optional strings; the field `originalThesis.studentId` and
  the like are strings by the schema.
-/

namespace DeskInspect

/-! ## JavaScript strings -/

/-- White space in the sense of `String.prototype.trim`, used by the schema option `trim`. -/
def isJsWhitespace (c : Char) : Bool :=
  [0x09, 0x0A, 0x0B, 0x0C, 0x0D, 0x20, 0xA0, 0x1680, 0x2028, 0x2029, 0x202F, 0x205F,
    0x3000, 0xFEFF].contains c.toNat || (0x2000 ≤ c.toNat && c.toNat ≤ 0x200A)

/-- The method `trim` of a string: white space removed at both ends. -/
def jsTrim (s : String) : String :=
  String.mk ((s.data.dropWhile isJsWhitespace).reverse.dropWhile isJsWhitespace).reverse

/-- The method `toLowerCase` on ASCII text: the letters A to Z are mapped and every other
character is kept.  It stands for the method where the text compared is ASCII (the digits
of an identifier, the role "faculty", the event types of the schema); the comparison of
student identifiers takes the mapping of the engine from `Env.lowerCase`. -/
def toLowerCase (s : String) : String :=
  String.mk (s.data.map Char.toLower)

/-- The method `includes`: `needle` occurs in `hay` as a contiguous substring. -/
def includes (hay needle : String) : Bool :=
  hay.data.tails.any (fun t => needle.data.isPrefixOf t)

/-- Truthiness of an optional request field: present and not the empty string. -/
def truthy : Option String → Bool
  | some s => decide (s ≠ "")
  | none => false

/-- The expression `a || b` for an optional string `a` and a string `b`. -/
def orElse (a : Option String) (b : String) : String :=
  match a with
  | some s => if s ≠ "" then s else b
  | none => b

/-! ## Object identifiers -/

/-- A lower-case hexadecimal digit. -/
def isHexLower (c : Char) : Bool :=
  (48 ≤ c.toNat && c.toNat ≤ 57) || (97 ≤ c.toNat && c.toNat ≤ 102)

/-- The canonical text of an object identifier: 24 lower-case hexadecimal digits. -/
def isCanonicalHex (s : String) : Bool :=
  decide (s.data.length = 24) && s.data.all isHexLower

/-- An object identifier, represented by its canonical text (what `toString()` returns). -/
structure ObjectId where
  hex : String
  canonical : isCanonicalHex hex = true
deriving DecidableEq

/-- Casting a request string to an object identifier: 24 hexadecimal digits in either
case are accepted, anything else is a cast error (`none`). -/
def castObjectId (s : String) : Option ObjectId :=
  if h : isCanonicalHex (toLowerCase s) = true then some ⟨toLowerCase s, h⟩ else none

/-! ## Records -/

/-- The values of the `status` enumeration of the thesis schema. -/
inductive Status where
  | notSubmitted
  | submitted
  | underReview
  | resubmit
  | approved
  | rejected
  | resubmissionRequested
  | resubmitted
deriving DecidableEq, Repr

/-- The text of a status as stored. -/
def Status.text : Status → String
  | .notSubmitted => "Not Submitted"
  | .submitted => "Submitted"
  | .underReview => "Under Review"
  | .resubmit => "Resubmit"
  | .approved => "Approved"
  | .rejected => "Rejected"
  | .resubmissionRequested => "Resubmission Requested"
  | .resubmitted => "Resubmitted"

/-- One element of `submissionHistory`. -/
structure HistoryEntry where
  version : Nat
  submittedAt : Nat
  fileUrl : String
  score : Option Int
  feedback : Option String
  status : Status
deriving DecidableEq

/-- A document of the thesis collection (`thesisSchema`, with `timestamps`). -/
structure Thesis where
  id : ObjectId
  studentName : String
  studentId : String
  fileUrl : String
  department : String
  supervisorId : ObjectId
  status : Status
  isResubmission : Bool
  version : Nat
  parentThesisId : Option ObjectId
  originalSubmissionId : Option ObjectId
  resubmissionRequested : Bool
  resubmissionRequestedAt : Option Nat
  resubmissionRequestedBy : Option ObjectId
  resubmissionReason : Option String
  submissionHistory : List HistoryEntry
  createdAt : Nat
  updatedAt : Nat
deriving DecidableEq

/-- A document of the user collection (`userSchema`; the fields the thesis engine reads). -/
structure User where
  id : ObjectId
  fullName : Option String
  studentId : Option String
  department : Option String
  email : Option String
  role : Option String
deriving DecidableEq

/-- Modelled from the spec: the notification schema (`models/Notification.js`) is not
among the sources.  This is the `metadata` object of the two notifications the thesis
handlers build. -/
inductive NotificationMeta where
  | request (supervisorName : Option String) (originalStatus : Status)
  | received (studentName : String) (version : Nat) (previousVersion : Nat)
deriving DecidableEq

/-- Modelled from the spec: the notification schema (`models/Notification.js`) is not
among the sources.  The fields are those the data model of the spec lists and the thesis
handlers pass to the constructor; whether the collection accepts the document is decided
by `Env.notificationSaves`. -/
structure Notification where
  email : Option String
  userId : String
  type : String
  title : String
  message : String
  relatedThesisId : ObjectId
  actionUrl : String
  actionLabel : String
  priority : String
  scheduledAt : Nat
  read : Bool
  delivered : Bool
  metadata : NotificationMeta
deriving DecidableEq

/-- The document store. -/
structure State where
  theses : List Thesis
  users : List User
  notifications : List Notification
deriving DecidableEq

/-- What the environment supplies to one handler invocation. -/
structure Env where
  now : Nat
  newThesisId : ObjectId
  notificationSaves : Bool
  /-- The method `String.prototype.toLowerCase` of the engine, whose case table is the
  engine's; the default is the mapping on ASCII text, which is the method on such text. -/
  lowerCase : String → String := toLowerCase

/-- The JSON response of a handler. -/
structure Response where
  status : Nat
  success : Bool
  message : String
  thesis : Option Thesis
deriving DecidableEq

/-! ## Store primitives -/

/-- The query `Thesis.findById`. -/
def findThesisById (l : List Thesis) (i : ObjectId) : Option Thesis :=
  l.find? (fun t => decide (t.id = i))

/-- The query `User.findById`. -/
def findUserById (l : List User) (i : ObjectId) : Option User :=
  l.find? (fun u => decide (u.id = i))

/-- Writing back a loaded thesis document: the stored document with its `_id` is replaced. -/
def replaceThesis : List Thesis → Thesis → List Thesis
  | [], _ => []
  | t :: r, t' => if t.id = t'.id then t' :: r else t :: replaceThesis r t'

/-- The `required` validators of the thesis schema, run on every `save`. -/
def validThesis (t : Thesis) : Bool :=
  decide (t.studentName ≠ "") && decide (t.studentId ≠ "") && decide (t.fileUrl ≠ "") &&
    decide (t.department ≠ "")

/-- The response of an early `return res.status(code).json(...)` with `success: false`. -/
def failure (code : Nat) (msg : String) : Response :=
  { status := code, success := false, message := msg, thesis := none }

/-- The response of the `catch` block of a handler. -/
def serverError : Response := failure 500 "Server error"

/-! ## uploadThesis -/

/-- The body of `POST /upload`. -/
structure UploadRequest where
  studentName : Option String
  studentId : Option String
  department : Option String
  fileUrl : Option String
  supervisorId : Option String

/-- The supervisor lookup of `uploadThesis`: by `_id`, a cast error counting as not found,
else the first user whose `email` or `fullName` is the given text. -/
def resolveSupervisor (users : List User) (supervisorId : String) : Option User :=
  match (castObjectId supervisorId).bind (findUserById users) with
  | some u => some u
  | none => users.find? (fun u => decide (u.email = some supervisorId) ||
      decide (u.fullName = some supervisorId))

/-- The test `String(supervisor.role || "").toLowerCase() === "faculty"`. -/
def isFaculty (u : User) : Bool :=
  decide (toLowerCase (u.role.getD "") = "faculty")

/-- The query `Thesis.findOne` on `studentId`; an absent `studentId` is sent as `null`
and matches no document, every stored thesis having a `studentId`. -/
def findThesisByStudent (l : List Thesis) (studentId : Option String) : Option Thesis :=
  match studentId with
  | some s => l.find? (fun t => decide (t.studentId = s))
  | none => none

/-- The document built by `new Thesis(...)` in `uploadThesis`, when `supervisorId` casts. -/
def initialThesis (env : Env) (req : UploadRequest) (sup : ObjectId) : Thesis :=
  { id := env.newThesisId
    studentName := jsTrim (req.studentName.getD "")
    studentId := req.studentId.getD ""
    fileUrl := req.fileUrl.getD ""
    department := req.department.getD ""
    supervisorId := sup
    status := Status.underReview
    isResubmission := false
    version := 1
    parentThesisId := none
    originalSubmissionId := none
    resubmissionRequested := false
    resubmissionRequestedAt := none
    resubmissionRequestedBy := none
    resubmissionReason := none
    submissionHistory := []
    createdAt := env.now
    updatedAt := env.now }

/-- The handler `uploadThesis`.  The branches follow the source in order: the two
`400` guards, the supervisor lookup and role test, the duplicate test on `studentId`, then
`thesis.save()`, which throws (answer 500) when `supervisorId` does not cast to an
identifier, when a required string is empty or when the generated `_id` is already stored. -/
def uploadThesis (env : Env) (st : State) (req : UploadRequest) : State × Response :=
  if !truthy req.fileUrl then (st, failure 400 "File URL is required")
  else if !truthy req.supervisorId then (st, failure 400 "Supervisor selection is required")
  else
    match resolveSupervisor st.users (req.supervisorId.getD "") with
    | none => (st, failure 400 "Invalid supervisor selected")
    | some supervisor =>
      if !isFaculty supervisor then (st, failure 400 "Invalid supervisor selected")
      else
        match findThesisByStudent st.theses req.studentId with
        | some _ => (st, failure 400 "Thesis already submitted")
        | none =>
          match castObjectId (req.supervisorId.getD "") with
          | none => (st, serverError)
          | some sup =>
            let thesis := initialThesis env req sup
            if !validThesis thesis then (st, serverError)
            else if (findThesisById st.theses thesis.id).isSome then (st, serverError)
            else
              ({ st with theses := st.theses ++ [thesis] },
                { status := 201, success := true, message := "Thesis submitted successfully",
                  thesis := some thesis })

/-! ## requestResubmission -/

/-- The body of `POST /request-resubmission`. -/
structure ResubmissionRequest where
  thesisId : Option String
  reason : Option String
  facultyId : Option String

/-- The assignments of `requestResubmission` to the loaded thesis.  `facultyId` is cast to
an identifier by the schema; where the assignment is reached it is the text of the
supervisor's identifier, so the cast succeeds. -/
def markRequested (env : Env) (thesis : Thesis) (reason facultyId : String) : Thesis :=
  { thesis with
    status := Status.resubmit
    resubmissionRequested := true
    resubmissionRequestedAt := some env.now
    resubmissionRequestedBy := castObjectId facultyId
    resubmissionReason := some reason
    updatedAt := env.now }

/-- The notification for the student built by `requestResubmission`. -/
def requestNotification (env : Env) (thesis : Thesis) (supervisor : User)
    (thesisId : ObjectId) (reason : String) : Notification :=
  { email := some thesis.studentId
    userId := thesis.studentId
    type := "resubmission_request"
    title := "Thesis Resubmission Required"
    message :=
      "Your supervisor has requested a resubmission of your thesis. Reason: " ++ reason
    relatedThesisId := thesisId
    actionUrl := "/thesis-resubmission"
    actionLabel := "Submit Revised Thesis"
    priority := "high"
    scheduledAt := env.now
    read := false
    delivered := false
    metadata := NotificationMeta.request supervisor.fullName thesis.status }

/-- The handler `requestResubmission`.  The branches follow the source in order: the
`400` guard, `findById` (cast error: 500; no document: 404), the comparison of
`thesis.supervisorId._id.toString()` with `facultyId` (which throws, answer 500, when the
supervisor was populated as `null`), the assignments and `thesis.save()`, then the
notification, whose failed write is answered 500 by the `catch` block after the thesis has
been written. -/
def requestResubmission (env : Env) (st : State) (req : ResubmissionRequest) :
    State × Response :=
  if !truthy req.thesisId || !truthy req.reason || !truthy req.facultyId then
    (st, failure 400 "Thesis ID, reason, and faculty ID are required")
  else
    let reason := req.reason.getD ""
    let facultyId := req.facultyId.getD ""
    match castObjectId (req.thesisId.getD "") with
    | none => (st, serverError)
    | some thesisId =>
      match findThesisById st.theses thesisId with
      | none => (st, failure 404 "Thesis not found")
      | some thesis =>
        match findUserById st.users thesis.supervisorId with
        | none => (st, serverError)
        | some supervisor =>
          if thesis.supervisorId.hex ≠ facultyId then
            (st, failure 403 "Not authorized to request resubmission for this thesis")
          else
            let thesis' := markRequested env thesis reason facultyId
            if !validThesis thesis' then (st, serverError)
            else
              let st1 := { st with theses := replaceThesis st.theses thesis' }
              if !env.notificationSaves then (st1, serverError)
              else
                ({ st1 with notifications := st1.notifications ++
                      [requestNotification env thesis' supervisor thesisId reason] },
                  { status := 200, success := true,
                    message := "Resubmission requested successfully", thesis := some thesis' })

/-! ## submitResubmission -/

/-- The body of `POST /submit-resubmission`. -/
structure SubmitRequest where
  originalThesisId : Option String
  studentId : Option String
  fileUrl : Option String
  studentName : Option String
  department : Option String

/-- The constant `studentIdMatch`, with `lower` for the method `toLowerCase`. -/
def studentIdMatch (lower : String → String) (original request : String) : Bool :=
  decide (original = request) || decide (lower original = lower request) ||
    includes request original || includes original request

/-- The identifier of the chain root: `originalThesis.originalSubmissionId || originalThesisId`. -/
def chainIdOf (original : Thesis) (originalThesisId : ObjectId) : ObjectId :=
  original.originalSubmissionId.getD originalThesisId

/-- The query for `otherVersions`. -/
def otherVersions (l : List Thesis) (original : Thesis) (originalThesisId : ObjectId) :
    List Thesis :=
  l.filter (fun t => decide (t.parentThesisId = some originalThesisId) ||
    decide (t.originalSubmissionId = some (chainIdOf original originalThesisId)))

/-- The value of `highestVersion` after the `forEach` loop. -/
def highestVersion (l : List Thesis) (original : Thesis) (originalThesisId : ObjectId) : Nat :=
  (otherVersions l original originalThesisId).foldl
    (fun highest v => if v.version > highest then v.version else highest) original.version

/-- The entry pushed on `originalThesis.submissionHistory`. -/
def snapshot (original : Thesis) : HistoryEntry :=
  { version := original.version
    submittedAt := original.createdAt
    fileUrl := original.fileUrl
    score := none
    feedback := none
    status := original.status }

/-- The document built by `new Thesis(...)` in `submitResubmission`. -/
def resubmittedThesis (env : Env) (l : List Thesis) (req : SubmitRequest) (original : Thesis)
    (originalThesisId : ObjectId) : Thesis :=
  { id := env.newThesisId
    studentName := jsTrim (orElse req.studentName original.studentName)
    studentId := req.studentId.getD ""
    fileUrl := req.fileUrl.getD ""
    department := orElse req.department original.department
    supervisorId := original.supervisorId
    status := Status.underReview
    isResubmission := true
    version := highestVersion l original originalThesisId + 1
    parentThesisId := some originalThesisId
    originalSubmissionId := some (chainIdOf original originalThesisId)
    resubmissionRequested := false
    resubmissionRequestedAt := none
    resubmissionRequestedBy := none
    resubmissionReason := none
    submissionHistory := original.submissionHistory ++ [snapshot original]
    createdAt := env.now
    updatedAt := env.now }

/-- The loaded original as written back by `originalThesis.save()`: the pushed history
entry and the two assignments. -/
def markResubmitted (env : Env) (original : Thesis) : Thesis :=
  { original with
    submissionHistory := original.submissionHistory ++ [snapshot original]
    status := Status.resubmitted
    resubmissionRequested := false
    updatedAt := env.now }

/-- The notification for the supervisor built by `submitResubmission`. -/
def receivedNotification (env : Env) (req : SubmitRequest) (original : Thesis)
    (supervisor : User) (created : Thesis) : Notification :=
  { email := supervisor.email
    userId := supervisor.id.hex
    type := "resubmission_received"
    title := "Revised Thesis Submitted"
    message := "Student " ++ orElse req.studentName original.studentName ++
      " has submitted a revised thesis (Version " ++ toString created.version ++ ")."
    relatedThesisId := created.id
    actionUrl := "/faculty-thesis-review"
    actionLabel := "Review Thesis"
    priority := "medium"
    scheduledAt := env.now
    read := false
    delivered := false
    metadata := NotificationMeta.received (orElse req.studentName original.studentName)
      created.version original.version }

/-- The handler `submitResubmission`.  The branches follow the source in order: the
`400` guard, `findById` (cast error: 500; no document: 404), the lenient match (403), the
test of `resubmissionRequested` (400), the version scan, the construction of the new
document (which reads `originalThesis.supervisorId._id` and throws, answer 500, when the
supervisor was populated as `null`), `resubmittedThesis.save()`, `originalThesis.save()`
and the notification.  Each of the three writes can throw, answered 500 by the `catch`
block with the earlier writes kept. -/
def submitResubmission (env : Env) (st : State) (req : SubmitRequest) : State × Response :=
  if !truthy req.originalThesisId || !truthy req.studentId || !truthy req.fileUrl then
    (st, failure 400 "Original thesis ID, student ID, and file URL are required")
  else
    let studentId := req.studentId.getD ""
    match castObjectId (req.originalThesisId.getD "") with
    | none => (st, serverError)
    | some originalThesisId =>
      match findThesisById st.theses originalThesisId with
      | none => (st, failure 404 "Original thesis not found")
      | some original =>
        if !studentIdMatch env.lowerCase original.studentId studentId then
          (st, failure 403 ("Not authorized to resubmit this thesis. Original studentId: " ++
            original.studentId ++ ", Request studentId: " ++ studentId))
        else if !original.resubmissionRequested then
          (st, failure 400 "Resubmission was not requested for this thesis")
        else
          match findUserById st.users original.supervisorId with
          | none => (st, serverError)
          | some supervisor =>
            let created := resubmittedThesis env st.theses req original originalThesisId
            if !validThesis created then (st, serverError)
            else if (findThesisById st.theses created.id).isSome then (st, serverError)
            else
              let st1 := { st with theses := st.theses ++ [created] }
              let original' := markResubmitted env original
              if !validThesis original' then (st1, serverError)
              else
                let st2 := { st1 with theses := replaceThesis st1.theses original' }
                if !env.notificationSaves then (st2, serverError)
                else
                  ({ st2 with notifications := st2.notifications ++
                        [receivedNotification env req original supervisor created] },
                    { status := 201, success := true,
                      message := "Resubmission submitted successfully",
                      thesis := some created })

/-! ## Approval when a report is sent -/

/-- The order of `sort: version descending, createdAt descending`: `a` comes strictly
before `b`. -/
def sortsBefore (a b : Thesis) : Bool :=
  decide (a.version > b.version) ||
    (decide (a.version = b.version) && decide (a.createdAt > b.createdAt))

/-- The first document of the sorted query result for a student, ties in store order. -/
def latestThesisOf (l : List Thesis) (studentId : String) : Option Thesis :=
  (l.filter (fun t => decide (t.studentId = studentId))).foldl
    (fun best t =>
      match best with
      | none => some t
      | some b => if sortsBefore t b then some t else some b) none

/-- The update of `Thesis.findOneAndUpdate` in `PUT /report/:id/send-to-student`. -/
def markApproved (env : Env) (t : Thesis) : Thesis :=
  { t with status := Status.approved, resubmissionRequested := false, updatedAt := env.now }

/-- The thesis update made when a thesis-evaluation report of `studentId` is sent. -/
def approveLatestThesis (env : Env) (st : State) (studentId : String) : State :=
  match latestThesisOf st.theses studentId with
  | none => st
  | some t => { st with theses := replaceThesis st.theses (markApproved env t) }

/-! ## Reachable stores -/

/-- The stores reached from an empty thesis collection by handler invocations in sequence.
The user collection is written by the registration and profile routes only, which the
last constructor covers. -/
inductive Reachable : State → Prop
  | init (users : List User) : Reachable { theses := [], users := users, notifications := [] }
  | upload (env : Env) (st : State) (req : UploadRequest) :
      Reachable st → Reachable (uploadThesis env st req).1
  | request (env : Env) (st : State) (req : ResubmissionRequest) :
      Reachable st → Reachable (requestResubmission env st req).1
  | resubmit (env : Env) (st : State) (req : SubmitRequest) :
      Reachable st → Reachable (submitResubmission env st req).1
  | approve (env : Env) (st : State) (studentId : String) :
      Reachable st → Reachable (approveLatestThesis env st studentId)
  | usersWritten (st : State) (users : List User) :
      Reachable st → Reachable { st with users := users }

/-! ## Acceptance of a resubmission -/

/-- The conditions under which `submitResubmission` answers 201, for the thesis `original`
found under the identifier `oid` and its supervisor document. -/
structure SubmitAccepted (env : Env) (st : State) (req : SubmitRequest) (oid : ObjectId)
    (original : Thesis) (supervisor : User) : Prop where
  hasId : truthy req.originalThesisId = true
  hasStudent : truthy req.studentId = true
  hasFile : truthy req.fileUrl = true
  cast : castObjectId (req.originalThesisId.getD "") = some oid
  found : findThesisById st.theses oid = some original
  idMatch : studentIdMatch env.lowerCase original.studentId (req.studentId.getD "") = true
  requested : original.resubmissionRequested = true
  populated : findUserById st.users original.supervisorId = some supervisor
  createdValid : validThesis (resubmittedThesis env st.theses req original oid) = true
  fresh : findThesisById st.theses env.newThesisId = none
  originalValid : validThesis (markResubmitted env original) = true
  notified : env.notificationSaves = true

/-- The store and response of an accepted `submitResubmission`. -/
def submitOutcome (env : Env) (st : State) (req : SubmitRequest) (oid : ObjectId)
    (original : Thesis) (supervisor : User) : State × Response :=
  ({ theses := replaceThesis (st.theses ++ [resubmittedThesis env st.theses req original oid])
        (markResubmitted env original)
     users := st.users
     notifications := st.notifications ++
        [receivedNotification env req original supervisor
          (resubmittedThesis env st.theses req original oid)] },
    { status := 201, success := true, message := "Resubmission submitted successfully",
      thesis := some (resubmittedThesis env st.theses req original oid) })

/-! ## Version chains -/

/-- The fields of a thesis that place it in a version chain. -/
structure Link where
  id : ObjectId
  version : Nat
  parent : Option ObjectId
  original : Option ObjectId
  isResubmission : Bool

/-- The chain fields of a stored thesis. -/
def Thesis.link (t : Thesis) : Link :=
  { id := t.id, version := t.version, parent := t.parentThesisId,
    original := t.originalSubmissionId, isResubmission := t.isResubmission }

/-- Membership in the chain of `root`: the root itself, or a record whose
`originalSubmissionId` is the root's identifier. -/
def Link.memberOf (root : ObjectId) (k : Link) : Bool :=
  decide (k.id = root) || decide (k.original = some root)

/-- The records of the chain of `root`, in store order. -/
def chainOf (l : List Thesis) (root : ObjectId) : List Thesis :=
  l.filter (fun t => decide (t.id = root) || decide (t.originalSubmissionId = some root))

/-- Well-formedness of the version chains of a thesis collection. -/
structure ChainInv (ks : List Link) : Prop where
  idsNodup : (ks.map (fun k => k.id)).Nodup
  rootShape : ∀ k ∈ ks, k.original = none →
    k.version = 1 ∧ k.parent = none ∧ k.isResubmission = false
  originalRoot : ∀ k ∈ ks, ∀ c, k.original = some c →
    k.isResubmission = true ∧ ∃ r ∈ ks, r.id = c ∧ r.original = none
  parentChain : ∀ k ∈ ks, ∀ p, k.parent = some p →
    ∃ q ∈ ks, q.id = p ∧ k.original = some (q.original.getD q.id) ∧ q.version < k.version
  versions : ∀ r ∈ ks, r.original = none →
    (ks.filter (Link.memberOf r.id)).map (fun k => k.version) =
      List.range' 1 (ks.filter (Link.memberOf r.id)).length

/-- Schema validity of the stored theses: the required strings are present and the student
name is stored trimmed. -/
def StoredValid (l : List Thesis) : Prop :=
  ∀ t ∈ l, validThesis t = true ∧ jsTrim t.studentName = t.studentName

/-! ## A sample run

One faculty user; a student uploads a thesis, the supervisor requests a resubmission and
the student resubmits.  The later stores are computed by the handlers themselves. -/

/-- Identifier of the sample supervisor. -/
def sampleFacultyId : ObjectId := ⟨"0000000000000000000000a1", by decide⟩

/-- Identifier of the first sample thesis. -/
def sampleThesisId1 : ObjectId := ⟨"0000000000000000000000b1", by decide⟩

/-- Identifier of the second sample thesis. -/
def sampleThesisId2 : ObjectId := ⟨"0000000000000000000000b2", by decide⟩

/-- The sample supervisor. -/
def sampleFaculty : User :=
  { id := sampleFacultyId, fullName := some "Dr F", studentId := none, department := some "CS",
    email := some "f@u.edu", role := some "Faculty" }

/-- The store before any thesis is uploaded. -/
def sampleStore0 : State := { theses := [], users := [sampleFaculty], notifications := [] }

/-- The sample upload. -/
def sampleUpload : UploadRequest :=
  { studentName := some "Ann", studentId := some "s1", department := some "CS",
    fileUrl := some "u1.pdf", supervisorId := some "0000000000000000000000a1" }

/-- The environment of the sample upload. -/
def sampleEnv1 : Env := { now := 10, newThesisId := sampleThesisId1, notificationSaves := true }

/-- The store after the upload. -/
def sampleStore1 : State := (uploadThesis sampleEnv1 sampleStore0 sampleUpload).1

/-- The sample request for a resubmission of the first thesis. -/
def sampleRequest : ResubmissionRequest :=
  { thesisId := some "0000000000000000000000b1", reason := some "missing citations",
    facultyId := some "0000000000000000000000a1" }

/-- The environment of the sample request. -/
def sampleEnv2 : Env := { now := 20, newThesisId := sampleThesisId1, notificationSaves := true }

/-- The store after the request. -/
def sampleStore2 : State := (requestResubmission sampleEnv2 sampleStore1 sampleRequest).1

/-- The environment of the sample resubmission. -/
def sampleEnv3 : Env := { now := 30, newThesisId := sampleThesisId2, notificationSaves := true }

/-- The sample resubmission against the first thesis. -/
def sampleSubmit : SubmitRequest :=
  { originalThesisId := some "0000000000000000000000b1", studentId := some "s1",
    fileUrl := some "u2.pdf", studentName := none, department := none }

/-- The first thesis as stored when the resubmission arrives. -/
def sampleOriginal : Thesis :=
  { id := sampleThesisId1, studentName := "Ann", studentId := "s1", fileUrl := "u1.pdf",
    department := "CS", supervisorId := sampleFacultyId, status := Status.resubmit,
    isResubmission := false, version := 1, parentThesisId := none,
    originalSubmissionId := none, resubmissionRequested := true,
    resubmissionRequestedAt := some 20, resubmissionRequestedBy := some sampleFacultyId,
    resubmissionReason := some "missing citations", submissionHistory := [], createdAt := 10,
    updatedAt := 20 }

/-- The history entry recording the first thesis at the time of the resubmission. -/
def sampleSnapshot : HistoryEntry :=
  { version := 1, submittedAt := 10, fileUrl := "u1.pdf", score := none, feedback := none,
    status := Status.resubmit }

/-- The thesis created by the sample resubmission. -/
def sampleCreated : Thesis :=
  { id := sampleThesisId2, studentName := "Ann", studentId := "s1", fileUrl := "u2.pdf",
    department := "CS", supervisorId := sampleFacultyId, status := Status.underReview,
    isResubmission := true, version := 2, parentThesisId := some sampleThesisId1,
    originalSubmissionId := some sampleThesisId1, resubmissionRequested := false,
    resubmissionRequestedAt := none, resubmissionRequestedBy := none,
    resubmissionReason := none,
    submissionHistory := [sampleSnapshot], createdAt := 30, updatedAt := 30 }

/-- The sample resubmission with a `studentName` that starts with a blank. -/
def sampleSubmitPadded : SubmitRequest :=
  { originalThesisId := some "0000000000000000000000b1", studentId := some "s1",
    fileUrl := some "u2.pdf", studentName := some " Bob", department := none }

/-- The first thesis as stored after the sample resubmission. -/
def sampleOriginalAfter : Thesis :=
  { sampleOriginal with
    status := Status.resubmitted, resubmissionRequested := false,
    submissionHistory := [sampleSnapshot], updatedAt := 30 }

/-- The store after the sample resubmission. -/
def sampleStore3 : State := (submitResubmission sampleEnv3 sampleStore2 sampleSubmit).1

/-! ## The sample run continued: a chain of three versions

The supervisor requests a resubmission of version 2 and the student resubmits, which
creates version 3 from version 2. -/

/-- Identifier of the third sample thesis. -/
def sampleThesisId3 : ObjectId := ⟨"0000000000000000000000b3", by decide⟩

/-- Identifier of the fourth sample thesis. -/
def sampleThesisId4 : ObjectId := ⟨"0000000000000000000000b4", by decide⟩

/-- The request for a resubmission of version 2. -/
def sampleRequestOnSecond : ResubmissionRequest :=
  { thesisId := some "0000000000000000000000b2", reason := some "more citations",
    facultyId := some "0000000000000000000000a1" }

/-- The environment of that request. -/
def sampleEnv4 : Env := { now := 40, newThesisId := sampleThesisId3, notificationSaves := true }

/-- The store after the request on version 2. -/
def sampleStore4 : State := (requestResubmission sampleEnv4 sampleStore3 sampleRequestOnSecond).1

/-- The resubmission against version 2. -/
def sampleSubmitOnSecond : SubmitRequest :=
  { originalThesisId := some "0000000000000000000000b2", studentId := some "s1",
    fileUrl := some "u3.pdf", studentName := none, department := none }

/-- The environment of the resubmission that creates version 3. -/
def sampleEnv5 : Env := { now := 50, newThesisId := sampleThesisId3, notificationSaves := true }

/-- The store with versions 1, 2 and 3. -/
def sampleStore5 : State := (submitResubmission sampleEnv5 sampleStore4 sampleSubmitOnSecond).1

/-- Version 2 as stored in `sampleStore5`. -/
def sampleSecondStored : Thesis :=
  markResubmitted sampleEnv5
    (markRequested sampleEnv4 sampleCreated "more citations" "0000000000000000000000a1")

/-- The environment of the second request on version 2. -/
def sampleEnv6 : Env := { now := 60, newThesisId := sampleThesisId4, notificationSaves := true }

/-- The environment of the second resubmission against version 2. -/
def sampleEnv7 : Env := { now := 70, newThesisId := sampleThesisId4, notificationSaves := true }

/-! ## A run that stores a supervisor reference without a user

The only user is a faculty member whose `fullName` is itself 24 hexadecimal digits.  An
upload naming that text as supervisor finds no user by `_id`, finds the user by `fullName`,
and stores the text, cast to an identifier, as `supervisorId`. -/

/-- A faculty user whose full name reads like an identifier. -/
def hexNamedFaculty : User :=
  { id := sampleFacultyId, fullName := some "0000000000000000000000ff", studentId := none,
    department := some "CS", email := some "f@u.edu", role := some "faculty" }

/-- The upload naming the supervisor by that full name. -/
def hexNamedUpload : UploadRequest :=
  { studentName := some "Ann", studentId := some "s1", department := some "CS",
    fileUrl := some "u1.pdf", supervisorId := some "0000000000000000000000ff" }

/-- The store after that upload. -/
def danglingStore : State :=
  (uploadThesis sampleEnv1 { theses := [], users := [hexNamedFaculty], notifications := [] }
    hexNamedUpload).1

/-! ## A request by the text of a supervisor identifier that no user carries -/

/-- The request for a resubmission of the thesis of `danglingStore`, sent with the
identifier stored as its `supervisorId`. -/
def danglingRequest : ResubmissionRequest :=
  { thesisId := some "0000000000000000000000b1", reason := some "missing citations",
    facultyId := some "0000000000000000000000ff" }

/-- The sample thesis as stored after the request of `sampleStore2`, when a second request
with the reason "more" has been stamped on it at time 25. -/
def sampleRequestedTwice : Thesis :=
  { sampleOriginal with
    resubmissionRequestedAt := some 25, resubmissionReason := some "more", updatedAt := 25 }

/-- The environment of a second request on the first sample thesis. -/
def sampleEnvAgain : Env := { now := 25, newThesisId := sampleThesisId1, notificationSaves := true }

/-- A second request on the first sample thesis, with another reason. -/
def sampleRequestAgain : ResubmissionRequest :=
  { thesisId := some "0000000000000000000000b1", reason := some "more",
    facultyId := some "0000000000000000000000a1" }

/-! ## The sample run with a notification collection that refuses the write -/

/-- The environment of the sample request when the notification cannot be stored. -/
def sampleEnv2Refused : Env :=
  { now := 20, newThesisId := sampleThesisId1, notificationSaves := false }

/-- The environment of the sample resubmission when the notification cannot be stored. -/
def sampleEnv3Refused : Env :=
  { now := 30, newThesisId := sampleThesisId2, notificationSaves := false }

/-! ## Outstanding resubmission requests per student -/

/-- The invariant of the data model: among the theses of one `studentId` at most one has
`resubmissionRequested = true`. -/
def AtMostOneRequested (l : List Thesis) : Prop :=
  ∀ a ∈ l, ∀ b ∈ l, a.studentId = b.studentId → a.resubmissionRequested = true →
    b.resubmissionRequested = true → a.id = b.id

/-- A guard that `requestResubmission` does not have: no thesis with the `studentId` of the
thesis named by the request, other than that thesis, has `resubmissionRequested = true`. -/
def noOtherRequested (st : State) (req : ResubmissionRequest) : Bool :=
  match (castObjectId (req.thesisId.getD "")).bind (findThesisById st.theses) with
  | none => true
  | some thesis =>
    st.theses.all (fun x =>
      !(decide (x.studentId = thesis.studentId) && x.resubmissionRequested) ||
        decide (x.id = thesis.id))

/-- The stores reached when every `requestResubmission` is sent under the guard
`noOtherRequested`; the other handlers are invoked freely, as in `Reachable`. -/
inductive GuardedReachable : State → Prop
  | init (users : List User) :
      GuardedReachable { theses := [], users := users, notifications := [] }
  | upload (env : Env) (st : State) (req : UploadRequest) :
      GuardedReachable st → GuardedReachable (uploadThesis env st req).1
  | request (env : Env) (st : State) (req : ResubmissionRequest) :
      noOtherRequested st req = true → GuardedReachable st →
      GuardedReachable (requestResubmission env st req).1
  | resubmit (env : Env) (st : State) (req : SubmitRequest) :
      GuardedReachable st → GuardedReachable (submitResubmission env st req).1
  | approve (env : Env) (st : State) (studentId : String) :
      GuardedReachable st → GuardedReachable (approveLatestThesis env st studentId)
  | usersWritten (st : State) (users : List User) :
      GuardedReachable st → GuardedReachable { st with users := users }

/-- The store with versions 1 and 2 of the sample chain after a request on version 2 and
then a request on version 1. -/
def twoRequestedStore : State := (requestResubmission sampleEnv6 sampleStore4 sampleRequest).1

/-! ## getThesisVersionHistory -/

/-- The JSON response of `getThesisVersionHistory`: an error with its status and message,
or the 200 response with `originalThesisId`, `currentVersion`, `totalVersions` and
`versions`. -/
inductive HistoryResponse where
  | error (status : Nat) (message : String)
  | ok (originalThesisId : String) (currentVersion : Nat) (totalVersions : Nat)
      (versions : List Thesis)

/-- The query for `allVersions`: the documents whose `_id`, `originalSubmissionId` or
`parentThesisId` is the root identifier. -/
def versionHistoryQuery (l : List Thesis) (root : ObjectId) : List Thesis :=
  l.filter (fun r => decide (r.id = root) || decide (r.originalSubmissionId = some root) ||
    decide (r.parentThesisId = some root))

/-- The sort `version: -1`: higher versions first; documents of equal version are kept in
an order fixed by this model, the store promising none. -/
def sortByVersionDescending (l : List Thesis) : List Thesis :=
  l.insertionSort (fun a b => b.version ≤ a.version)

/-- The handler `getThesisVersionHistory`: `findById` (cast error: 500; no document: 404),
the root identifier `thesis.originalSubmissionId || thesisId`, the sorted query, and the
response.  The store is only read. -/
def getThesisVersionHistory (st : State) (thesisId : String) : State × HistoryResponse :=
  match castObjectId thesisId with
  | none => (st, HistoryResponse.error 500 "Server error")
  | some tid =>
    match findThesisById st.theses tid with
    | none => (st, HistoryResponse.error 404 "Thesis not found")
    | some thesis =>
      let allVersions := sortByVersionDescending
        (versionHistoryQuery st.theses (thesis.originalSubmissionId.getD tid))
      (st, HistoryResponse.ok
        (match thesis.originalSubmissionId with
          | some root => root.hex
          | none => thesisId)
        thesis.version allVersions.length allVersions)

/-! ## Sending a report to the student -/

/-- The values of `reportType` in the report schema. -/
inductive ReportType where
  | thesisEvaluation
  | plagiarismDetection
  | aiDetection
deriving DecidableEq

/-- The values of `status` in the report schema. -/
inductive ReportStatus where
  | draft
  | saved
  | sent
deriving DecidableEq

/-- A document of the report collection (`reportSchema`; the declared fields that the send
route reads or writes, the free-form `reportData`, `thesisTitle` and `filename` left out). -/
structure Report where
  id : ObjectId
  reportId : String
  studentId : String
  studentName : String
  facultyId : String
  thesisId : String
  thesisVersion : Nat
  reportType : ReportType
  status : ReportStatus
  updatedAt : Nat
deriving DecidableEq

/-- The JSON response of the send route; `report` stands for the `data` object, which is
read off the updated report. -/
structure SendResponse where
  status : Nat
  success : Bool
  message : String
  report : Option Report
deriving DecidableEq

/-- Writing back a report: the stored document with its `_id` is replaced. -/
def replaceReport : List Report → Report → List Report
  | [], _ => []
  | r :: rest, r' => if r.id = r'.id then r' :: rest else r :: replaceReport rest r'

/-- The handler of `PUT /report/:id/send-to-student`.  The identifier test of the route
accepts the texts `castObjectId` accepts.  The student lookup matches on the declared path
`studentId` (no user document carries the path `registrationNumber`, which the user schema
does not declare); the update writes `student.studentId` when it is non-empty and leaves
the report's `studentId` otherwise, sets the status "sent" and the update time (the paths
`isSentToStudent` and `sentDate` are not declared by the report schema).  For a
thesis-evaluation report the latest thesis of the report's student is then approved. -/
def sendReportToStudent (env : Env) (st : State) (reports : List Report) (id : String) :
    (State × List Report) × SendResponse :=
  match castObjectId id with
  | none =>
    ((st, reports),
      { status := 400, success := false, message := "Invalid report ID format",
        report := none })
  | some rid =>
    match reports.find? (fun r => decide (r.id = rid)) with
    | none =>
      ((st, reports),
        { status := 404, success := false, message := "Report not found", report := none })
    | some report =>
      match st.users.find? (fun u => decide (u.studentId = some report.studentId)) with
      | none =>
        ((st, reports),
          { status := 404, success := false,
            message := "Student not found with the provided student ID", report := none })
      | some student =>
        let updatedReport : Report :=
          { report with
            studentId := orElse student.studentId report.studentId
            status := ReportStatus.sent
            updatedAt := env.now }
        ((if updatedReport.reportType = ReportType.thesisEvaluation then
            approveLatestThesis env st updatedReport.studentId
          else st, replaceReport reports updatedReport),
          { status := 200, success := true, message := "Report sent to student successfully",
            report := some updatedReport })

/-- A student user of the sample run. -/
def sampleStudent : User :=
  { id := ⟨"0000000000000000000000c1", by decide⟩, fullName := some "Ann", studentId := some "s1",
    department := some "CS", email := some "ann@u.edu", role := some "Student" }

/-- The sample store with versions 1 and 2, the student being registered as a user. -/
def sampleStoreWithStudent : State :=
  { sampleStore3 with users := [sampleFaculty, sampleStudent] }

/-- A thesis-evaluation report on the sample student. -/
def sampleReport : Report :=
  { id := ⟨"0000000000000000000000d1", by decide⟩, reportId := "R1", studentId := "s1",
    studentName := "Ann", facultyId := "0000000000000000000000a1",
    thesisId := "0000000000000000000000b2", thesisVersion := 2,
    reportType := ReportType.thesisEvaluation, status := ReportStatus.saved, updatedAt := 35 }

/-- The environment of the sample send. -/
def sampleEnvSend : Env := { now := 40, newThesisId := sampleThesisId3, notificationSaves := true }

/-- The sample resubmission with the student identifier in upper case. -/
def sampleSubmitUpper : SubmitRequest :=
  { originalThesisId := some "0000000000000000000000b1", studentId := some "S1",
    fileUrl := some "u2.pdf", studentName := none, department := none }

/-- The sample resubmission with a student identifier that contains the original's. -/
def sampleSubmitLonger : SubmitRequest :=
  { originalThesisId := some "0000000000000000000000b1", studentId := some "s12",
    fileUrl := some "u2.pdf", studentName := none, department := none }

/-! ## checkResubmissionStatus -/

/-- The `thesis` object of the answer of `checkResubmissionStatus`; `supervisor` is the
populated reference, `none` when the user document is missing. -/
structure RequestedThesis where
  id : ObjectId
  reason : Option String
  requestedAt : Option Nat
  supervisor : Option User
  version : Nat
  studentId : String
  studentName : String
deriving DecidableEq

/-- The JSON response of `checkResubmissionStatus`. -/
structure StatusResponse where
  status : Nat
  success : Bool
  resubmissionRequested : Bool
  message : Option String
  thesis : Option RequestedThesis
deriving DecidableEq

/-- The handler `checkResubmissionStatus`: the first stored thesis of the student with
`resubmissionRequested` true, the supervisor populated with the selected paths `fullName`,
`email` and `department`.  The listing of all theses of the student only feeds the log. -/
def checkResubmissionStatus (st : State) (studentId : String) : State × StatusResponse :=
  match st.theses.find? (fun t => decide (t.studentId = studentId) &&
      t.resubmissionRequested) with
  | none =>
    (st, { status := 200, success := true, resubmissionRequested := false,
           message := some "No resubmission requested", thesis := none })
  | some thesis =>
    (st, { status := 200, success := true, resubmissionRequested := true, message := none,
           thesis := some
             { id := thesis.id
               reason := thesis.resubmissionReason
               requestedAt := thesis.resubmissionRequestedAt
               supervisor := (findUserById st.users thesis.supervisorId).map
                 (fun u => { u with studentId := none, role := none })
               version := thesis.version
               studentId := thesis.studentId
               studentName := thesis.studentName } })

/-! ## The frame of the stored theses -/

/-- The record `t'` stands for the stored record `t`: same `_id`, `studentId`, `version`,
`parentThesisId` and `originalSubmissionId`, and a submission history that starts with the
history of `t`. -/
def Thesis.keptAs (t t' : Thesis) : Prop :=
  t'.id = t.id ∧ t'.studentId = t.studentId ∧ t'.version = t.version ∧
    t'.parentThesisId = t.parentThesisId ∧
    t'.originalSubmissionId = t.originalSubmissionId ∧
    t.submissionHistory <+: t'.submissionHistory

/-- The collection `l'` holds, position by position, a record standing for each record of
`l`, followed by the records added since. -/
def Frame (l l' : List Thesis) : Prop :=
  ∃ kept added, l' = kept ++ added ∧ List.Forall₂ Thesis.keptAs l kept

/-! ## Executions that resubmit against the latest version -/

/-- The record a resubmission is sent against has the highest version of its chain. -/
def targetsLatest (st : State) (req : SubmitRequest) : Prop :=
  ∀ oid original, castObjectId (req.originalThesisId.getD "") = some oid →
    findThesisById st.theses oid = some original →
    ∀ t ∈ chainOf st.theses (chainIdOf original oid), t.version ≤ original.version

/-- The stores reached by handler invocations in sequence in which every resubmission is
sent against the record of the highest version of its chain. -/
inductive LatestReachable : State → Prop
  | init (users : List User) :
      LatestReachable { theses := [], users := users, notifications := [] }
  | upload (env : Env) (st : State) (req : UploadRequest) :
      LatestReachable st → LatestReachable (uploadThesis env st req).1
  | request (env : Env) (st : State) (req : ResubmissionRequest) :
      LatestReachable st → LatestReachable (requestResubmission env st req).1
  | resubmit (env : Env) (st : State) (req : SubmitRequest) :
      LatestReachable st → targetsLatest st req →
      LatestReachable (submitResubmission env st req).1
  | approve (env : Env) (st : State) (studentId : String) :
      LatestReachable st → LatestReachable (approveLatestThesis env st studentId)
  | usersWritten (st : State) (users : List User) :
      LatestReachable st → LatestReachable { st with users := users }

/-- The versions recorded in the submission history of a thesis, in order. -/
def historyVersions (t : Thesis) : List Nat :=
  t.submissionHistory.map (fun e => e.version)

/-- The history of a thesis `t` stored in `l`, in an execution that resubmits against the
latest version only: the versions below its own, followed by its own version once a later
version of the chain has been created. -/
def HistoryOk (l : List Thesis) (t : Thesis) : Prop :=
  historyVersions t = List.range' 1 (t.version - 1) ∨
    (historyVersions t = List.range' 1 t.version ∧
      ∃ u ∈ l, u.originalSubmissionId = some (t.originalSubmissionId.getD t.id) ∧
        t.version < u.version)

/-- Every stored thesis has such a history. -/
def HistoryInv (l : List Thesis) : Prop := ∀ t ∈ l, HistoryOk l t

/-- The store after a second request on the first sample thesis, version 2 being stored. -/
def sampleStoreAgain : State := (requestResubmission sampleEnv4 sampleStore3 sampleRequest).1

/-! # Folder provisioning

A shallow embedding of `src/controllers/thesisFolderController.js` with the schemas of
`src/models/Event.js`, `src/models/ThesisFolder.js` and `src/models/FolderSchedule.js`.
The event, folder and schedule collections are lists in insertion order; the timers set by
`setTimeout` are kept as a list of pending invocations, each with the instant from which
the runtime runs it.  Instants are milliseconds since the epoch.  The generated `_id` and the timestamps of folders and schedules, which no
function of the controller reads, are left out. -/

/-- The instant `n` days before `d`, the result of `x.setDate(d.getDate() - n)` on a copy
`x` of `d`, for a server clock whose offset from UTC is the same at both instants. -/
def daysBefore (d : Int) (n : Int) : Int := d - n * 86400000

/-- The instant `n` days after `d`, the result of `x.setDate(d.getDate() + n)`. -/
def daysAfter (d : Int) (n : Int) : Int := d + n * 86400000

/-- The time values a `Date` can hold; outside this range the date is invalid. -/
def validTime (t : Int) : Bool :=
  decide (-8640000000000000 ≤ t) && decide (t ≤ 8640000000000000)

/-- The greatest delay `setTimeout` honours, in milliseconds. -/
def timeoutMax : Int := 2147483647

/-- The delay `setTimeout` runs with for the delay it is given: a delay below 1 or above
`timeoutMax` is replaced by 1. -/
def timeoutDelay (delay : Int) : Int :=
  if 1 ≤ delay ∧ delay ≤ timeoutMax then delay else 1

/-- The call `s.replace(c, d)` with one-character texts: the first `c` becomes `d`. -/
def replaceFirstChar (c d : Char) : List Char → List Char
  | [] => []
  | x :: r => if x = c then d :: r else x :: replaceFirstChar c d r

/-- A document of the event collection (`eventSchema`; `description` and the timestamps
left out). -/
structure Event where
  id : ObjectId
  name : String
  type : String
  startDate : Int
  endDate : Int
  thesisFolderCreated : Bool
  thesisFolderPath : Option String
  thesisFolderUrl : Option String
  folderCreatedAt : Option Int
deriving DecidableEq

/-- The values of `status` in the folder schema. -/
inductive FolderStatus where
  | scheduled
  | created
  | active
  | archived
deriving DecidableEq

/-- A document of the folder collection (`thesisFolderSchema`); the three last fields are
the `metadata` object, and `studentSubmissions` is the number of entries of that array. -/
structure ThesisFolder where
  eventId : ObjectId
  eventName : String
  eventType : String
  dueDate : Int
  folderCreationDate : Int
  folderPath : String
  folderUrl : String
  virtualFolderId : String
  status : FolderStatus
  studentSubmissions : Nat
  totalStudents : Nat
  submissionsReceived : Nat
  department : String
deriving DecidableEq

/-- The values of `status` in the schedule schema. -/
inductive ScheduleStatus where
  | scheduled
  | created
  | failed
deriving DecidableEq

/-- A document of the schedule collection (`folderScheduleSchema`); `eventId` is a string
by the schema. -/
structure FolderSchedule where
  eventId : String
  eventName : String
  eventType : String
  dueDate : Int
  folderCreationDate : Int
  status : ScheduleStatus
  folderPath : Option String
  folderUrl : Option String
  error : Option String
  lastAttempt : Option Int
deriving DecidableEq

/-- A pending `setTimeout`: the deferred call of `createThesisFoldersForEvent(eventId)`,
the delay it was set with, and the instant from which the runtime runs the callback. -/
structure Timer where
  eventId : String
  delay : Int
  fireAt : Int
deriving DecidableEq

/-- The store of the folder service. -/
structure FolderState where
  events : List Event
  folders : List ThesisFolder
  schedules : List FolderSchedule
  timers : List Timer
deriving DecidableEq

/-- What the environment supplies to one invocation: the clock, the outcome of
`createFolder` for a path (`none` when it throws), the text of `CLOUDINARY_CLOUD_NAME` as
interpolated, whether the folder collection accepts the write, the message of the error
thrown where one is, and the instant `new Date(s)` denotes for a string `s` (`none` for an
invalid date), which is the engine's to decide. -/
structure FolderEnv where
  now : Int
  cloud : String → Option String
  cloudName : String
  folderSaves : Bool
  errorText : String
  readDate : String → Option Int

/-- The object returned by `createThesisFoldersForEvent`. -/
structure FolderResponse where
  success : Bool
  message : String
  folder : Option ThesisFolder
  error : Option String
deriving DecidableEq

/-- The query `Event.findById`. -/
def findEventById (l : List Event) (i : ObjectId) : Option Event :=
  l.find? (fun e => decide (e.id = i))

/-- The query `ThesisFolder.findOne` on `eventId`. -/
def findFolderByEvent (l : List ThesisFolder) (i : ObjectId) : Option ThesisFolder :=
  l.find? (fun f => decide (f.eventId = i))

/-- The query `FolderSchedule.findOne` on `eventId`. -/
def findSchedule (l : List FolderSchedule) (eventId : String) : Option FolderSchedule :=
  l.find? (fun s => decide (s.eventId = eventId))

/-- Writing back a loaded event: the stored document with its `_id` is replaced. -/
def replaceEvent : List Event → Event → List Event
  | [], _ => []
  | e :: r, e' => if e.id = e'.id then e' :: r else e :: replaceEvent r e'

/-- The call `FolderSchedule.findOneAndUpdate` on `eventId`: the first schedule of the
event is updated, none when there is no such schedule. -/
def updateSchedule (l : List FolderSchedule) (eventId : String)
    (f : FolderSchedule → FolderSchedule) : List FolderSchedule :=
  match l with
  | [] => []
  | s :: r => if s.eventId = eventId then f s :: r else s :: updateSchedule r eventId f

/-- The template literal for `folderPath`. -/
def folderPathOf (event : Event) (eventId : String) : String :=
  "thesis-submissions/" ++
    String.mk (replaceFirstChar ' ' '-' (toLowerCase event.type).data) ++ "/" ++ eventId

/-- The folder address: what `createFolder` returns, or the address built in the inner
`catch` when it throws. -/
def folderUrlOf (env : FolderEnv) (folderPath : String) : String :=
  match env.cloud folderPath with
  | some url => url
  | none => "https://res.cloudinary.com/" ++ env.cloudName ++ "/image/upload/" ++ folderPath

/-- The document built by `new ThesisFolder(...)`. -/
def newFolder (env : FolderEnv) (event : Event) (eventId : String) : ThesisFolder :=
  { eventId := event.id
    eventName := event.name
    eventType := event.type
    dueDate := event.endDate
    folderCreationDate := daysBefore event.endDate 14
    folderPath := folderPathOf event eventId
    folderUrl := folderUrlOf env (folderPathOf event eventId)
    virtualFolderId := "thesis-" ++ event.id.hex ++ "-" ++ toString env.now
    status := FolderStatus.created
    studentSubmissions := 0
    totalStudents := 0
    submissionsReceived := 0
    department := "All Departments" }

/-- The `required` validators of the folder schema: the strings are not empty and the two
dates are valid. -/
def validFolder (f : ThesisFolder) : Bool :=
  decide (f.eventName ≠ "") && decide (f.eventType ≠ "") && decide (f.virtualFolderId ≠ "") &&
    validTime f.dueDate && validTime f.folderCreationDate

/-- The outer `catch` of `createThesisFoldersForEvent`: the schedule of the event, if
there is one, is marked failed. -/
def recordFailure (env : FolderEnv) (st : FolderState) (eventId : String) :
    FolderState × FolderResponse :=
  ({ st with
      schedules := updateSchedule st.schedules eventId (fun s =>
        { s with
          status := ScheduleStatus.failed
          error := some env.errorText
          lastAttempt := some env.now }) },
    { success := false, message := "Failed to create thesis folders", folder := none,
      error := some env.errorText })

/-- The store after the three writes of a successful `createThesisFoldersForEvent`: the
folder inserted, the event updated with the folder data, and the schedule of the event, if
there is one, marked created. -/
def provisioned (env : FolderEnv) (st : FolderState) (event : Event) (eventId : String) :
    FolderState :=
  { st with
    folders := st.folders ++ [newFolder env event eventId]
    events := replaceEvent st.events
      { event with
        thesisFolderCreated := true
        thesisFolderPath := some (newFolder env event eventId).folderPath
        thesisFolderUrl := some (newFolder env event eventId).folderUrl
        folderCreatedAt := some env.now }
    schedules := updateSchedule st.schedules eventId (fun s =>
      { s with
        status := ScheduleStatus.created
        folderPath := some (newFolder env event eventId).folderPath
        folderUrl := some (newFolder env event eventId).folderUrl
        lastAttempt := some env.now }) }

/-- The function `createThesisFoldersForEvent`.  The branches follow the source in order:
`findById` (a cast error is thrown into the outer `catch`), the two early returns, the
test for an existing folder, `createFolder` with its own `catch`, `thesisFolder.save()`
(which throws when a required value is missing or the collection rejects the write), then
the update of the event and of the schedule, both taken to succeed. -/
def createThesisFoldersForEvent (env : FolderEnv) (st : FolderState) (eventId : String) :
    FolderState × FolderResponse :=
  match castObjectId eventId with
  | none => recordFailure env st eventId
  | some eid =>
    match findEventById st.events eid with
    | none => (st, { success := false, message := "Event not found", folder := none,
                     error := none })
    | some event =>
      if !includes event.type "Thesis" then
        (st, { success := false,
               message := "Folder creation only available for thesis events",
               folder := none, error := none })
      else
        match findFolderByEvent st.folders eid with
        | some existing =>
          (st, { success := true, message := "Folders already exist for this event",
                 folder := some existing, error := none })
        | none =>
          if !validFolder (newFolder env event eventId) || !env.folderSaves then
            recordFailure env st eventId
          else
            (provisioned env st event eventId,
              { success := true, message := "Thesis folders created successfully",
                folder := some (newFolder env event eventId), error := none })
/-- A value of the field `dueDate` of the request body: a JSON string or a JSON number
without fraction. -/
inductive DateValue where
  | text (s : String)
  | number (n : Int)
deriving DecidableEq

/-- The argument `eventData` of `scheduleFolderCreation`; an absent field is `none`. -/
structure ScheduleRequest where
  eventId : Option String
  eventName : Option String
  eventType : Option String
  dueDate : Option DateValue

/-- Truthiness of the field `dueDate`: an absent field, the empty string and the number 0
are falsy. -/
def dateGiven : Option DateValue → Bool
  | none => false
  | some (DateValue.text s) => decide (s ≠ "")
  | some (DateValue.number n) => decide (n ≠ 0)

/-- The instant of `new Date(dueDate)`, `none` for an invalid date: a string is read by
the engine, a number is the time value itself when it is in range. -/
def readDue (env : FolderEnv) : DateValue → Option Int
  | DateValue.text s => (env.readDate s).filter validTime
  | DateValue.number n => if validTime n then some n else none

/-- The object returned by `scheduleFolderCreation`; `folderCreationDate` is the instant
the returned value denotes. -/
structure ScheduleResponse where
  success : Bool
  message : String
  folderCreationDate : Option Int
  eventId : Option String
deriving DecidableEq

/-- The document built by `new FolderSchedule(...)`. -/
def newSchedule (eventId eventName eventType : String) (due : Int) : FolderSchedule :=
  { eventId := eventId
    eventName := eventName
    eventType := eventType
    dueDate := due
    folderCreationDate := daysBefore due 14
    status := ScheduleStatus.scheduled
    folderPath := none
    folderUrl := none
    error := none
    lastAttempt := none }

/-- The answer of the outer `catch` of `scheduleFolderCreation`. -/
def scheduleError : ScheduleResponse :=
  { success := false, message := "Internal server error", folderCreationDate := none,
    eventId := none }

/-- The function `scheduleFolderCreation`.  The branches follow the source in order: the
guard on `eventId` and `dueDate` (any falsy value fails it), the test for an existing
schedule, `folderSchedule.save()` (which throws, into the outer `catch`, when `eventName`
or `eventType` is missing or one of the two dates is invalid), then `setTimeout` when the
creation date lies ahead, and the call of `createThesisFoldersForEvent` otherwise. -/
def scheduleFolderCreation (env : FolderEnv) (st : FolderState) (data : ScheduleRequest) :
    FolderState × ScheduleResponse :=
  if !truthy data.eventId || !dateGiven data.dueDate then
    (st, { success := false, message := "Event ID and due date are required",
           folderCreationDate := none, eventId := none })
  else
    let eventId := data.eventId.getD ""
    match findSchedule st.schedules eventId with
    | some existing =>
      (st, { success := true, message := "Folder creation already scheduled",
             folderCreationDate := some existing.folderCreationDate, eventId := none })
    | none =>
      match data.dueDate.bind (readDue env) with
      | none => (st, scheduleError)
      | some due =>
        if !truthy data.eventName || !truthy data.eventType ||
            !validTime (daysBefore due 14) then (st, scheduleError)
        else
          let schedule := newSchedule eventId (data.eventName.getD "")
            (data.eventType.getD "") due
          let st1 := { st with schedules := st.schedules ++ [schedule] }
          let delay := schedule.folderCreationDate - env.now
          let answer : ScheduleResponse :=
            { success := true, message := "Folder creation scheduled successfully",
              folderCreationDate := some schedule.folderCreationDate,
              eventId := some eventId }
          if delay > 0 then
            ({ st1 with
                timers := st1.timers ++
                  [{ eventId := eventId, delay := delay,
                     fireAt := env.now + timeoutDelay delay }] },
              answer)
          else ((createThesisFoldersForEvent env st1 eventId).1, answer)

/-- The callback of a timer set by `scheduleFolderCreation`, run when the timer at
position `n` fires, which the runtime does not do before the instant `fireAt`. -/
def fireTimer (env : FolderEnv) (st : FolderState) (n : Nat) : FolderState :=
  match st.timers.get? n with
  | none => st
  | some t =>
    if env.now < t.fireAt then st
    else
      (createThesisFoldersForEvent env { st with timers := st.timers.eraseIdx n }
        t.eventId).1

/-- One element of `results` in the answer of `executeThesisFolderCreation`. -/
structure EventResult where
  eventId : ObjectId
  eventName : String
  success : Bool
  message : String
deriving DecidableEq

/-- The object returned by `executeThesisFolderCreation`. -/
structure ExecuteResponse where
  success : Bool
  message : String
  results : List EventResult
deriving DecidableEq

/-- The query of `executeThesisFolderCreation`: thesis events due within 14 days whose
folder is not marked as created. -/
def eventsNeedingFolders (env : FolderEnv) (l : List Event) : List Event :=
  l.filter (fun e =>
    (decide (e.type = "Thesis Submission") || decide (e.type = "Thesis Resubmission")) &&
      decide (e.endDate ≤ daysAfter env.now 14) && decide (env.now ≤ e.endDate) &&
      !e.thesisFolderCreated)

/-- The loop of `executeThesisFolderCreation` over the events found. -/
def createForEach (env : FolderEnv) :
    List Event → FolderState → List EventResult → FolderState × List EventResult
  | [], st, results => (st, results)
  | e :: r, st, results =>
    let result := createThesisFoldersForEvent env st e.id.hex
    createForEach env r result.1
      (results ++ [{ eventId := e.id, eventName := e.name, success := result.2.success,
                     message := result.2.message }])

/-- The function `executeThesisFolderCreation`; the clock is read once for the call. -/
def executeThesisFolderCreation (env : FolderEnv) (st : FolderState) :
    FolderState × ExecuteResponse :=
  let found := eventsNeedingFolders env st.events
  let out := createForEach env found st []
  (out.1, { success := true,
            message := "Processed " ++ toString found.length ++ " events",
            results := out.2 })

/-- The function `manuallyCreateFoldersForEvent`, on the field `eventId` of its argument. -/
def manuallyCreateFoldersForEvent (env : FolderEnv) (st : FolderState)
    (eventId : Option String) : FolderState × FolderResponse :=
  if !truthy eventId then
    (st, { success := false, message := "Event ID is required", folder := none,
           error := none })
  else createThesisFoldersForEvent env st (eventId.getD "")

/-- The stores reached from a store without folders, schedules and timers by calls of the
four functions in sequence, and by timers firing. -/
inductive FolderReachable : FolderState → Prop
  | init (events : List Event) :
      FolderReachable { events := events, folders := [], schedules := [], timers := [] }
  | create (env : FolderEnv) (st : FolderState) (eventId : String) :
      FolderReachable st → FolderReachable (createThesisFoldersForEvent env st eventId).1
  | schedule (env : FolderEnv) (st : FolderState) (data : ScheduleRequest) :
      FolderReachable st → FolderReachable (scheduleFolderCreation env st data).1
  | execute (env : FolderEnv) (st : FolderState) :
      FolderReachable st → FolderReachable (executeThesisFolderCreation env st).1
  | manual (env : FolderEnv) (st : FolderState) (eventId : Option String) :
      FolderReachable st → FolderReachable (manuallyCreateFoldersForEvent env st eventId).1
  | fire (env : FolderEnv) (st : FolderState) (n : Nat) :
      FolderReachable st → FolderReachable (fireTimer env st n)

/-- What the folder service keeps true: one folder per event at most, each for a stored
thesis event, and one schedule per event text at most, the text not being empty. -/
structure FolderInv (st : FolderState) : Prop where
  foldersNodup : (st.folders.map (fun f => f.eventId)).Nodup
  folderEvent : ∀ f ∈ st.folders, ∃ e, findEventById st.events f.eventId = some e ∧
    includes e.type "Thesis" = true
  schedulesNodup : (st.schedules.map (fun s => s.eventId)).Nodup
  scheduleIds : ∀ s ∈ st.schedules, s.eventId ≠ ""

/-! ## A sample run of the folder service

Two events, a thesis submission and a staff meeting; times are in milliseconds. -/

/-- Identifier of the sample thesis event. -/
def sampleEventId1 : ObjectId := ⟨"0000000000000000000000e1", by decide⟩

/-- Identifier of the sample meeting. -/
def sampleEventId2 : ObjectId := ⟨"0000000000000000000000e2", by decide⟩

/-- The sample thesis event, due at 2000000000. -/
def sampleThesisEvent : Event :=
  { id := sampleEventId1, name := "Spring theses", type := "Thesis Submission",
    startDate := 0, endDate := 2000000000, thesisFolderCreated := false,
    thesisFolderPath := none, thesisFolderUrl := none, folderCreatedAt := none }

/-- The sample meeting. -/
def sampleMeeting : Event :=
  { id := sampleEventId2, name := "Staff meeting", type := "General",
    startDate := 0, endDate := 2000000000, thesisFolderCreated := false,
    thesisFolderPath := none, thesisFolderUrl := none, folderCreatedAt := none }

/-- The store before any call of the folder service. -/
def sampleFolderStore0 : FolderState :=
  { events := [sampleThesisEvent, sampleMeeting], folders := [], schedules := [],
    timers := [] }

/-- The environment of the sample calls: the clock reads 1000000000, the storage service
is not configured, and the one date string of the sample requests is read as its
instant. -/
def sampleFolderEnv : FolderEnv :=
  { now := 1000000000, cloud := fun _ => none, cloudName := "demo", folderSaves := true,
    errorText := "",
    readDate := fun s => if s = "1970-01-24T03:33:20.000Z" then some 2000000000 else none }

/-- A schedule request for the thesis event whose creation date, 790400000, has passed. -/
def sampleSchedulePast : ScheduleRequest :=
  { eventId := some "0000000000000000000000e1", eventName := some "Spring theses",
    eventType := some "Thesis Submission",
    dueDate := some (DateValue.text "1970-01-24T03:33:20.000Z") }

/-- The same request without `eventName`. -/
def sampleScheduleNoName : ScheduleRequest :=
  { eventId := some "0000000000000000000000e1", eventName := none,
    eventType := some "Thesis Submission",
    dueDate := some (DateValue.text "1970-01-24T03:33:20.000Z") }

/-- A schedule request for the thesis event whose creation date, 1790400000, lies
ahead. -/
def sampleScheduleAhead : ScheduleRequest :=
  { eventId := some "0000000000000000000000e1", eventName := some "Spring theses",
    eventType := some "Thesis Submission", dueDate := some (DateValue.number 3000000000) }

/-- A schedule request for the meeting, the creation date lying ahead. -/
def sampleScheduleMeeting : ScheduleRequest :=
  { eventId := some "0000000000000000000000e2", eventName := some "Staff meeting",
    eventType := some "General", dueDate := some (DateValue.number 3000000000) }

/-- The store after the meeting has been scheduled. -/
def sampleMeetingStore : FolderState :=
  (scheduleFolderCreation sampleFolderEnv sampleFolderStore0 sampleScheduleMeeting).1

/-- The store after the thesis event has been scheduled with a creation date ahead. -/
def sampleAheadStore : FolderState :=
  (scheduleFolderCreation sampleFolderEnv sampleFolderStore0 sampleScheduleAhead).1

/-- The store after the folder of the thesis event has been created. -/
def sampleProvisionedStore : FolderState :=
  (createThesisFoldersForEvent sampleFolderEnv sampleFolderStore0
    "0000000000000000000000e1").1

/-- A schedule request for the thesis event whose creation date, 3790400000, lies further
ahead of the clock than `setTimeout` honours. -/
def sampleScheduleFarAhead : ScheduleRequest :=
  { eventId := some "0000000000000000000000e1", eventName := some "Spring theses",
    eventType := some "Thesis Submission", dueDate := some (DateValue.number 5000000000) }

/-! ## A sample run with a student identifier outside ASCII -/

/-- A case mapping that is the engine's on Latin-1 text: besides A to Z, the letters À to Þ
(the sign × apart) are moved to their lower-case forms, 32 places on. -/
def latinLowerCase (s : String) : String :=
  String.mk (s.data.map (fun c =>
    if 0xC0 ≤ c.toNat ∧ c.toNat ≤ 0xDE ∧ c.toNat ≠ 0xD7 then Char.ofNat (c.toNat + 32)
    else c.toLower))

/-- The store after the student "é1" has uploaded a thesis and the supervisor has requested
a resubmission. -/
def sampleAccentStore : State :=
  (requestResubmission sampleEnv2
    (uploadThesis sampleEnv1 sampleStore0 { sampleUpload with studentId := some "é1" }).1
    sampleRequest).1

/-- The environment of the resubmission, the case mapping covering Latin-1. -/
def sampleEnvLatin : Env :=
  { now := 30, newThesisId := sampleThesisId2, notificationSaves := true,
    lowerCase := latinLowerCase }

/-! # Theorems -/

/-! ## General facts about the handlers -/

theorem foldl_highest_eq (l : List Thesis) (init : Nat) :
    l.foldl (fun highest v => if v.version > highest then v.version else highest) init =
      (l.map (fun t => t.version)).foldr max init := by
  induction l generalizing init with
  | nil => rfl
  | cons t r ih =>
    simp only [List.foldl_cons, List.map_cons, List.foldr_cons]
    rw [ih]
    have key : ∀ (vs : List Nat) (a b : Nat),
        vs.foldr max (max a b) = max a (vs.foldr max b) := by
      intro vs
      induction vs with
      | nil => intro a b; rfl
      | cons v vs ihv =>
        intro a b
        simp only [List.foldr_cons]
        rw [ihv, max_left_comm]
    by_cases h : t.version > init
    · rw [if_pos h, ← key, max_eq_left (le_of_lt h)]
    · rw [if_neg h, ← key, max_eq_right (not_lt.mp h)]

theorem submitResubmission_of_accepted {env : Env} {st : State} {req : SubmitRequest}
    {oid : ObjectId} {original : Thesis} {supervisor : User}
    (h : SubmitAccepted env st req oid original supervisor) :
    submitResubmission env st req = submitOutcome env st req oid original supervisor := by
  have hfresh : findThesisById st.theses (resubmittedThesis env st.theses req original oid).id
      = none := h.fresh
  simp [submitResubmission, submitOutcome, h.hasId, h.hasStudent, h.hasFile, h.cast, h.found,
    h.idMatch, h.requested, h.populated, h.createdValid, hfresh, h.originalValid, h.notified]

theorem submitResubmission_accepted {env : Env} {st : State} {req : SubmitRequest}
    (h : (submitResubmission env st req).2.status = 201) :
    ∃ oid original supervisor, SubmitAccepted env st req oid original supervisor := by
  by_cases h1 : truthy req.originalThesisId = true
  swap
  · simp [submitResubmission, h1, failure] at h
  by_cases h2 : truthy req.studentId = true
  swap
  · simp [submitResubmission, h1, h2, failure] at h
  by_cases h3 : truthy req.fileUrl = true
  swap
  · simp [submitResubmission, h1, h2, h3, failure] at h
  cases hc : castObjectId (req.originalThesisId.getD "") with
  | none => simp [submitResubmission, h1, h2, h3, hc, failure, serverError] at h
  | some oid =>
    cases hf : findThesisById st.theses oid with
    | none => simp [submitResubmission, h1, h2, h3, hc, hf, failure] at h
    | some original =>
      by_cases h4 : studentIdMatch env.lowerCase original.studentId (req.studentId.getD "") = true
      swap
      · simp [submitResubmission, h1, h2, h3, hc, hf, h4, failure] at h
      by_cases h5 : original.resubmissionRequested = true
      swap
      · simp [submitResubmission, h1, h2, h3, hc, hf, h4, h5, failure] at h
      cases hp : findUserById st.users original.supervisorId with
      | none => simp [submitResubmission, h1, h2, h3, hc, hf, h4, h5, hp, failure, serverError] at h
      | some supervisor =>
        by_cases h6 : validThesis (resubmittedThesis env st.theses req original oid) = true
        swap
        · simp [submitResubmission, h1, h2, h3, hc, hf, h4, h5, hp, h6, failure, serverError] at h
        cases h7 : findThesisById st.theses env.newThesisId with
        | some d =>
          have h7' : findThesisById st.theses (resubmittedThesis env st.theses req original oid).id
              = some d := h7
          simp [submitResubmission, h1, h2, h3, hc, hf, h4, h5, hp, h6, h7', failure,
            serverError] at h
        | none =>
          have h7' : findThesisById st.theses (resubmittedThesis env st.theses req original oid).id
              = none := h7
          by_cases h8 : validThesis (markResubmitted env original) = true
          swap
          · simp [submitResubmission, h1, h2, h3, hc, hf, h4, h5, hp, h6, h7', h8, failure,
              serverError] at h
          by_cases h9 : env.notificationSaves = true
          swap
          · simp [submitResubmission, h1, h2, h3, hc, hf, h4, h5, hp, h6, h7', h8, h9, failure,
              serverError] at h
          exact ⟨oid, original, supervisor, ⟨h1, h2, h3, hc, hf, h4, h5, hp, h6, h7, h8, h9⟩⟩

theorem findThesisById_some {l : List Thesis} {i : ObjectId} {t : Thesis}
    (h : findThesisById l i = some t) : t ∈ l ∧ t.id = i := by
  unfold findThesisById at h
  exact ⟨List.mem_of_find?_eq_some h, by simpa using List.find?_some h⟩

theorem findThesisById_none {l : List Thesis} {i : ObjectId}
    (h : findThesisById l i = none) : ∀ t ∈ l, t.id ≠ i := by
  unfold findThesisById at h
  intro t ht
  simpa using (List.find?_eq_none.mp h) t ht

theorem mem_replaceThesis_of_ne {l : List Thesis} {t t' : Thesis} (ht : t ∈ l)
    (hne : t.id ≠ t'.id) : t ∈ replaceThesis l t' := by
  induction l with
  | nil => cases ht
  | cons a r ih =>
    unfold replaceThesis
    split
    · rcases List.mem_cons.mp ht with rfl | hr
      · contradiction
      · exact List.mem_cons_of_mem _ hr
    · rcases List.mem_cons.mp ht with rfl | hr
      · exact List.mem_cons_self _ _
      · exact List.mem_cons_of_mem _ (ih hr)

/-- C1: on every store and request on which `submitResubmission` succeeds, the created
record is stored and its version is one more than the maximum of the original's version and
the versions of all stored records whose `parentThesisId` is the original's identifier or
whose `originalSubmissionId` is the chain identifier. -/
theorem submitResubmission_version (env : Env) (st : State) (req : SubmitRequest)
    (oid : ObjectId) (original created : Thesis)
    (hcast : castObjectId (req.originalThesisId.getD "") = some oid)
    (hfound : findThesisById st.theses oid = some original)
    (hok : (submitResubmission env st req).2.status = 201)
    (hcreated : (submitResubmission env st req).2.thesis = some created) :
    created ∈ (submitResubmission env st req).1.theses ∧
      created.version = 1 + ((st.theses.filter (fun t =>
          decide (t.parentThesisId = some oid ∨ t.originalSubmissionId = some
            (match original.originalSubmissionId with
              | some root => root
              | none => oid)))).map (fun t => t.version)).foldr max original.version := by
  obtain ⟨oid', original', supervisor, hacc⟩ := submitResubmission_accepted hok
  have e1 : oid' = oid := Option.some.inj (hacc.cast.symm.trans hcast)
  subst e1
  have e2 : original' = original := Option.some.inj (hacc.found.symm.trans hfound)
  subst e2
  rw [submitResubmission_of_accepted hacc] at hcreated ⊢
  simp only [submitOutcome, Option.some.injEq] at hcreated ⊢
  subst hcreated
  constructor
  · apply mem_replaceThesis_of_ne
    · simp
    · intro hid
      have := findThesisById_none hacc.fresh original' (findThesisById_some hfound).1
      exact this hid.symm
  · simp only [resubmittedThesis, highestVersion, otherVersions, chainIdOf, foldl_highest_eq]
    rw [Nat.add_comm]
    have hpred : (fun t : Thesis => decide (t.parentThesisId = some oid') ||
          decide (t.originalSubmissionId = some (original'.originalSubmissionId.getD oid'))) =
        (fun t : Thesis => decide (t.parentThesisId = some oid' ∨ t.originalSubmissionId = some
          (match original'.originalSubmissionId with
            | some root => root
            | none => oid'))) := by
      funext t
      cases original'.originalSubmissionId <;> simp [Bool.decide_or]
    rw [hpred]

/-- Witness of C1 on the sample run: the resubmission against version 1 creates version 2. -/
theorem submitResubmission_version_witness :
    sampleCreated ∈ (submitResubmission sampleEnv3 sampleStore2 sampleSubmit).1.theses ∧
      sampleCreated.version = 1 + ((sampleStore2.theses.filter (fun t =>
          decide (t.parentThesisId = some sampleThesisId1 ∨ t.originalSubmissionId = some
            (match sampleOriginal.originalSubmissionId with
              | some root => root
              | none => sampleThesisId1)))).map (fun t => t.version)).foldr max
                sampleOriginal.version :=
  submitResubmission_version sampleEnv3 sampleStore2 sampleSubmit sampleThesisId1
    sampleOriginal sampleCreated (by decide) (by decide) (by decide) (by decide)

theorem findThesisById_append_of_some {l : List Thesis} {i : ObjectId} {t : Thesis}
    (h : findThesisById l i = some t) (r : List Thesis) :
    findThesisById (l ++ r) i = some t := by
  unfold findThesisById at h ⊢
  rw [List.find?_append, h]
  rfl

theorem findThesisById_replaceThesis {l : List Thesis} {t t' : Thesis}
    (h : findThesisById l t'.id = some t) :
    findThesisById (replaceThesis l t') t'.id = some t' := by
  induction l with
  | nil => simp [findThesisById] at h
  | cons a r ih =>
    unfold replaceThesis
    by_cases ha : a.id = t'.id
    · simp [ha, findThesisById]
    · have hr : findThesisById r t'.id = some t := by
        simpa [findThesisById, List.find?_cons, ha] using h
      simpa [ha, findThesisById, List.find?_cons] using ih hr

/-- C4: on every successful `submitResubmission` the history of the created record is the
stored history of the original as it was before the call, followed by one entry holding the
original's version, creation time, file URL and status before the call. -/
theorem submitResubmission_history (env : Env) (st : State) (req : SubmitRequest)
    (oid : ObjectId) (original created : Thesis)
    (hcast : castObjectId (req.originalThesisId.getD "") = some oid)
    (hfound : findThesisById st.theses oid = some original)
    (hok : (submitResubmission env st req).2.status = 201)
    (hcreated : (submitResubmission env st req).2.thesis = some created) :
    created.submissionHistory = original.submissionHistory ++
      [{ version := original.version, submittedAt := original.createdAt,
         fileUrl := original.fileUrl, score := none, feedback := none,
         status := original.status }] := by
  obtain ⟨oid', original', supervisor, hacc⟩ := submitResubmission_accepted hok
  have e1 : oid' = oid := Option.some.inj (hacc.cast.symm.trans hcast)
  subst e1
  have e2 : original' = original := Option.some.inj (hacc.found.symm.trans hfound)
  subst e2
  rw [submitResubmission_of_accepted hacc] at hcreated
  simp only [submitOutcome, Option.some.injEq] at hcreated
  subst hcreated
  rfl

/-- Witness of C4 on the sample run: the created record carries the single snapshot of
version 1. -/
theorem submitResubmission_history_witness :
    sampleCreated.submissionHistory = sampleOriginal.submissionHistory ++
      [{ version := sampleOriginal.version, submittedAt := sampleOriginal.createdAt,
         fileUrl := sampleOriginal.fileUrl, score := none, feedback := none,
         status := sampleOriginal.status }] :=
  submitResubmission_history sampleEnv3 sampleStore2 sampleSubmit sampleThesisId1
    sampleOriginal sampleCreated (by decide) (by decide) (by decide) (by decide)

/-- C6: a request with non-empty `originalThesisId`, `studentId` and `fileUrl` whose thesis
exists, whose `studentId` passes the lenient match and whose thesis has
`resubmissionRequested = false` is answered 400 "Resubmission was not requested for this
thesis", and the store is returned as it was: no thesis, no notification, no change. -/
theorem submitResubmission_not_requested (env : Env) (st : State) (req : SubmitRequest)
    (a s f : String) (oid : ObjectId) (original : Thesis)
    (ha : req.originalThesisId = some a) (ha' : a ≠ "")
    (hs : req.studentId = some s) (hs' : s ≠ "")
    (hf : req.fileUrl = some f) (hf' : f ≠ "")
    (hcast : castObjectId a = some oid)
    (hfound : findThesisById st.theses oid = some original)
    (hmatch : studentIdMatch env.lowerCase original.studentId s = true)
    (hnot : original.resubmissionRequested = false) :
    submitResubmission env st req =
      (st, { status := 400, success := false,
             message := "Resubmission was not requested for this thesis", thesis := none }) := by
  simp [submitResubmission, ha, ha', hs, hs', hf, hf', truthy, hcast, hfound, hmatch, hnot,
    failure]

/-- Witness of C6: resubmitting against the freshly uploaded sample thesis, for which no
resubmission was requested. -/
theorem submitResubmission_not_requested_witness :
    submitResubmission sampleEnv3 sampleStore1 sampleSubmit =
      (sampleStore1,
        { status := 400, success := false,
          message := "Resubmission was not requested for this thesis", thesis := none }) :=
  submitResubmission_not_requested sampleEnv3 sampleStore1 sampleSubmit
    "0000000000000000000000b1" "s1" "u2.pdf" sampleThesisId1
    { sampleOriginal with
      status := Status.underReview, resubmissionRequested := false,
      resubmissionRequestedAt := none, resubmissionRequestedBy := none,
      resubmissionReason := none, updatedAt := 10 }
    rfl (by decide) rfl (by decide) rfl (by decide) (by decide) (by decide) (by decide) rfl

theorem orElse_eq (a : Option String) (b : String) :
    orElse a b = if truthy a = true then a.getD "" else b := by
  cases a with
  | none => simp [orElse, truthy]
  | some s => by_cases h : s = "" <;> simp [orElse, truthy, h]

/-- C9, counterexample: the sample resubmission sent with `studentName = " Bob"` succeeds
and the created record holds the name "Bob", not the value of the request. -/
theorem submitResubmission_studentName_not_verbatim :
    (submitResubmission sampleEnv3 sampleStore2 sampleSubmitPadded).2.status = 201 ∧
      sampleSubmitPadded.studentName = some " Bob" ∧
      (submitResubmission sampleEnv3 sampleStore2 sampleSubmitPadded).2.thesis.map
        (fun t => t.studentName) = some "Bob" := by
  decide

/-- C9, amended: on every successful `submitResubmission` the created record has status
"Under Review", `isResubmission = true`, `resubmissionRequested = false`, the original's
identifier as parent, the chain identifier as `originalSubmissionId`, the original's
supervisor, the file URL of the request, the department of the request when one is supplied
and the original's otherwise, and as student name the request's name when one is supplied
and the original's otherwise, with the white space at both ends removed. -/
theorem submitResubmission_created_fields (env : Env) (st : State) (req : SubmitRequest)
    (oid : ObjectId) (original created : Thesis)
    (hcast : castObjectId (req.originalThesisId.getD "") = some oid)
    (hfound : findThesisById st.theses oid = some original)
    (hok : (submitResubmission env st req).2.status = 201)
    (hcreated : (submitResubmission env st req).2.thesis = some created) :
    created.status = Status.underReview ∧ created.isResubmission = true ∧
      created.resubmissionRequested = false ∧ created.parentThesisId = some oid ∧
      created.originalSubmissionId = some
        (match original.originalSubmissionId with
          | some root => root
          | none => oid) ∧
      created.supervisorId = original.supervisorId ∧
      req.fileUrl = some created.fileUrl ∧
      created.department =
        (if truthy req.department = true then req.department.getD "" else original.department) ∧
      created.studentName = jsTrim
        (if truthy req.studentName = true then req.studentName.getD ""
          else original.studentName) := by
  obtain ⟨oid', original', supervisor, hacc⟩ := submitResubmission_accepted hok
  have e1 : oid' = oid := Option.some.inj (hacc.cast.symm.trans hcast)
  subst e1
  have e2 : original' = original := Option.some.inj (hacc.found.symm.trans hfound)
  subst e2
  rw [submitResubmission_of_accepted hacc] at hcreated
  simp only [submitOutcome, Option.some.injEq] at hcreated
  subst hcreated
  refine ⟨rfl, rfl, rfl, rfl, ?_, rfl, ?_, ?_, ?_⟩
  · simp only [resubmittedThesis, chainIdOf]
    cases original'.originalSubmissionId <;> rfl
  · have hfile := hacc.hasFile
    cases hreq : req.fileUrl with
    | none => simp [hreq, truthy] at hfile
    | some f => simp [resubmittedThesis, hreq]
  · simp only [resubmittedThesis, orElse_eq]
  · simp only [resubmittedThesis, orElse_eq]

/-- Witness of C9 (amended) on the sample resubmission with the padded name. -/
theorem submitResubmission_created_fields_witness :
    ({ sampleCreated with studentName := "Bob" } : Thesis).studentName = jsTrim " Bob" :=
  (submitResubmission_created_fields sampleEnv3 sampleStore2 sampleSubmitPadded
    sampleThesisId1 sampleOriginal { sampleCreated with studentName := "Bob" }
    (by decide) (by decide) (by decide) (by decide)).2.2.2.2.2.2.2.2

/-- C10, counterexample: in the sample run the stored original has an empty history before
the resubmission and a history of one entry after it. -/
theorem submitResubmission_original_history_changed :
    (submitResubmission sampleEnv3 sampleStore2 sampleSubmit).2.status = 201 ∧
      (findThesisById sampleStore2.theses sampleThesisId1).map
        (fun t => t.submissionHistory) = some [] ∧
      (findThesisById (submitResubmission sampleEnv3 sampleStore2 sampleSubmit).1.theses
        sampleThesisId1).map (fun t => t.submissionHistory) = some [sampleSnapshot] := by
  decide

/-- C10, amended: on every successful `submitResubmission` the stored original after the
call is the stored original before the call with status "Resubmitted",
`resubmissionRequested = false`, the snapshot of its state before the call appended to
its own `submissionHistory`, and `updatedAt` set to the time of the call; every other field
is unchanged. -/
theorem submitResubmission_original_after (env : Env) (st : State) (req : SubmitRequest)
    (oid : ObjectId) (original : Thesis)
    (hcast : castObjectId (req.originalThesisId.getD "") = some oid)
    (hfound : findThesisById st.theses oid = some original)
    (hok : (submitResubmission env st req).2.status = 201) :
    findThesisById (submitResubmission env st req).1.theses oid = some
      { original with
        status := Status.resubmitted
        resubmissionRequested := false
        submissionHistory := original.submissionHistory ++
          [{ version := original.version, submittedAt := original.createdAt,
             fileUrl := original.fileUrl, score := none, feedback := none,
             status := original.status }]
        updatedAt := env.now } := by
  obtain ⟨oid', original', supervisor, hacc⟩ := submitResubmission_accepted hok
  have e1 : oid' = oid := Option.some.inj (hacc.cast.symm.trans hcast)
  subst e1
  have e2 : original' = original := Option.some.inj (hacc.found.symm.trans hfound)
  subst e2
  rw [submitResubmission_of_accepted hacc]
  have hid : original'.id = oid' := (findThesisById_some hfound).2
  subst hid
  have h1 : findThesisById
      (st.theses ++ [resubmittedThesis env st.theses req original' original'.id])
      (markResubmitted env original').id = some original' :=
    findThesisById_append_of_some hfound _
  have h2 := findThesisById_replaceThesis h1
  simpa [submitOutcome, markResubmitted, snapshot] using h2

/-- Witness of C10 (amended) on the sample run. -/
theorem submitResubmission_original_after_witness :
    findThesisById (submitResubmission sampleEnv3 sampleStore2 sampleSubmit).1.theses
      sampleThesisId1 = some sampleOriginalAfter :=
  submitResubmission_original_after sampleEnv3 sampleStore2 sampleSubmit sampleThesisId1
    sampleOriginal (by decide) (by decide) (by decide)

/-- C7, counterexample: the store `danglingStore` is reached by one upload; its thesis
names as supervisor the identifier `...ff`, which no user carries.  A request by the
faculty member `...a1`, who is not that supervisor, is answered 500 and not 403. -/
theorem requestResubmission_not_forbidden_when_dangling :
    Reachable danglingStore ∧
      (findThesisById danglingStore.theses sampleThesisId1).map
        (fun t => t.supervisorId.hex) = some "0000000000000000000000ff" ∧
      sampleRequest.facultyId = some "0000000000000000000000a1" ∧
      (requestResubmission sampleEnv2 danglingStore sampleRequest).2.status = 500 :=
  ⟨Reachable.upload _ _ _ (Reachable.init _), by decide, rfl, by decide⟩

/-- C7, amended: a request with non-empty `thesisId`, `reason` and `facultyId` whose thesis
exists, whose thesis names a supervisor that is a stored user, and whose `facultyId`
differs from the thesis's `supervisorId` is answered 403, and the store is returned as it
was: status and resubmission fields unchanged, no notification. -/
theorem requestResubmission_forbidden (env : Env) (st : State) (req : ResubmissionRequest)
    (i r f : String) (tid : ObjectId) (thesis : Thesis) (supervisor : User)
    (hi : req.thesisId = some i) (hi' : i ≠ "")
    (hr : req.reason = some r) (hr' : r ≠ "")
    (hf : req.facultyId = some f) (hf' : f ≠ "")
    (hcast : castObjectId i = some tid)
    (hfound : findThesisById st.theses tid = some thesis)
    (hpop : findUserById st.users thesis.supervisorId = some supervisor)
    (hne : thesis.supervisorId.hex ≠ f) :
    requestResubmission env st req =
      (st, { status := 403, success := false,
             message := "Not authorized to request resubmission for this thesis",
             thesis := none }) := by
  simp [requestResubmission, hi, hi', hr, hr', hf, hf', truthy, hcast, hfound, hpop, hne,
    failure]

/-- Witness of C7 (amended): on the sample store a request naming another faculty
identifier than the supervisor's is refused. -/
theorem requestResubmission_forbidden_witness :
    requestResubmission sampleEnv3 sampleStore1
        { sampleRequest with facultyId := some "0000000000000000000000a2" } =
      (sampleStore1,
        { status := 403, success := false,
          message := "Not authorized to request resubmission for this thesis",
          thesis := none }) :=
  requestResubmission_forbidden sampleEnv3 sampleStore1
    { sampleRequest with facultyId := some "0000000000000000000000a2" }
    "0000000000000000000000b1" "missing citations" "0000000000000000000000a2"
    sampleThesisId1
    { sampleOriginal with
      status := Status.underReview, resubmissionRequested := false,
      resubmissionRequestedAt := none, resubmissionRequestedBy := none,
      resubmissionReason := none, updatedAt := 10 }
    sampleFaculty rfl (by decide) rfl (by decide) rfl (by decide) (by decide) (by decide)
    (by decide) (by decide)

theorem uploadThesis_created {env : Env} {st : State} {req : UploadRequest}
    (h : (uploadThesis env st req).2.status = 201) :
    findThesisByStudent st.theses req.studentId = none ∧
      ∃ sup, validThesis (initialThesis env req sup) = true ∧
        (uploadThesis env st req).1 =
          { st with theses := st.theses ++ [initialThesis env req sup] } := by
  by_cases h1 : truthy req.fileUrl = true
  swap
  · simp [uploadThesis, h1, failure] at h
  by_cases h2 : truthy req.supervisorId = true
  swap
  · simp [uploadThesis, h1, h2, failure] at h
  cases h3 : resolveSupervisor st.users (req.supervisorId.getD "") with
  | none => simp [uploadThesis, h1, h2, h3, failure] at h
  | some u =>
    by_cases h4 : isFaculty u = true
    swap
    · simp [uploadThesis, h1, h2, h3, h4, failure] at h
    cases h5 : findThesisByStudent st.theses req.studentId with
    | some e => simp [uploadThesis, h1, h2, h3, h4, h5, failure] at h
    | none =>
      cases h6 : castObjectId (req.supervisorId.getD "") with
      | none => simp [uploadThesis, h1, h2, h3, h4, h5, h6, failure, serverError] at h
      | some sup =>
        by_cases h7 : validThesis (initialThesis env req sup) = true
        swap
        · simp [uploadThesis, h1, h2, h3, h4, h5, h6, h7, failure, serverError] at h
        cases h8 : findThesisById st.theses (initialThesis env req sup).id with
        | some d => simp [uploadThesis, h1, h2, h3, h4, h5, h6, h7, h8, failure, serverError] at h
        | none =>
          refine ⟨rfl, sup, h7, ?_⟩
          simp [uploadThesis, h1, h2, h3, h4, h5, h6, h7, h8]

/-- C8: on a store that holds a thesis of any version with `studentId` equal to `s`,
`uploadThesis` for `s` with a non-empty file URL and a supervisor text that resolves to a
faculty user is answered "Thesis already submitted" and returns the store as it was; and
when an upload for `s` has succeeded, the same upload sent again is refused in that way
and the store holds exactly one thesis of `s`. -/
theorem uploadThesis_conflict (env env' : Env) (st : State) (req : UploadRequest)
    (s f : String) (supervisor : User)
    (hs : req.studentId = some s)
    (hfile : truthy req.fileUrl = true)
    (hf : req.supervisorId = some f) (hf' : f ≠ "")
    (hres : resolveSupervisor st.users f = some supervisor)
    (hfac : isFaculty supervisor = true) :
    (∀ existing ∈ st.theses, existing.studentId = s →
        uploadThesis env st req =
          (st, { status := 400, success := false, message := "Thesis already submitted",
                 thesis := none })) ∧
      ((uploadThesis env st req).2.status = 201 →
        uploadThesis env' (uploadThesis env st req).1 req =
          ((uploadThesis env st req).1,
            { status := 400, success := false, message := "Thesis already submitted",
              thesis := none }) ∧
        ((uploadThesis env st req).1.theses.filter
          (fun t => decide (t.studentId = s))).length = 1) := by
  have conflict : ∀ (e : Env) (st' : State), st'.users = st.users →
      (∃ existing ∈ st'.theses, existing.studentId = s) →
      uploadThesis e st' req =
        (st', { status := 400, success := false, message := "Thesis already submitted",
                thesis := none }) := by
    intro e st' husers hex
    obtain ⟨existing, hmem, hsid⟩ := hex
    cases hfind : findThesisByStudent st'.theses req.studentId with
    | none =>
      simp only [findThesisByStudent, hs] at hfind
      have := (List.find?_eq_none.mp hfind) existing hmem
      simp [hsid] at this
    | some t =>
      have hsup : truthy req.supervisorId = true := by simp [hf, truthy, hf']
      have hget : req.supervisorId.getD "" = f := by simp [hf]
      simp [uploadThesis, hfile, hsup, hget, husers, hres, hfac, hfind, failure]
  refine ⟨fun existing hmem hsid => conflict env st rfl ⟨existing, hmem, hsid⟩, ?_⟩
  intro hok
  obtain ⟨hnone, sup, hvalid, hst⟩ := uploadThesis_created hok
  rw [hst]
  constructor
  · refine conflict env' { st with theses := st.theses ++ [initialThesis env req sup] } rfl
      ⟨initialThesis env req sup, by simp, ?_⟩
    simp [initialThesis, hs]
  · simp only [findThesisByStudent, hs] at hnone
    have hnil : st.theses.filter (fun t => decide (t.studentId = s)) = [] := by
      rw [List.filter_eq_nil_iff]
      intro t ht
      exact (List.find?_eq_none.mp hnone) t ht
    simp [List.filter_append, hnil, List.filter_cons, initialThesis, hs]

/-- Witness of C8: the sample upload sent a second time is refused, and after the first
upload the store holds one thesis of the student. -/
theorem uploadThesis_conflict_witness :
    uploadThesis sampleEnv3 sampleStore1 sampleUpload =
        (sampleStore1,
          { status := 400, success := false, message := "Thesis already submitted",
            thesis := none }) ∧
      (sampleStore1.theses.filter (fun t => decide (t.studentId = "s1"))).length = 1 :=
  (uploadThesis_conflict sampleEnv1 sampleEnv3 sampleStore0 sampleUpload "s1" "0000000000000000000000a1" sampleFaculty rfl
    (by decide) rfl (by decide) (by decide) (by decide)).2 (by decide)

/-! ## The chain invariant -/

theorem le_foldr_max_init (vs : List Nat) (init : Nat) : init ≤ vs.foldr max init := by
  induction vs with
  | nil => exact le_rfl
  | cons v vs ih => exact le_trans ih (le_max_right _ _)

theorem le_foldr_max_of_mem {vs : List Nat} {v : Nat} (init : Nat) (h : v ∈ vs) :
    v ≤ vs.foldr max init := by
  induction vs with
  | nil => cases h
  | cons w vs ih =>
    rcases List.mem_cons.mp h with rfl | hv
    · exact le_max_left _ _
    · exact le_trans (ih hv) (le_max_right _ _)

theorem foldr_max_le {vs : List Nat} {init b : Nat} (hinit : init ≤ b)
    (h : ∀ v ∈ vs, v ≤ b) : vs.foldr max init ≤ b := by
  induction vs with
  | nil => exact hinit
  | cons w vs ih =>
    exact max_le (h w (List.mem_cons_self _ _))
      (ih (fun v hv => h v (List.mem_cons_of_mem _ hv)))

theorem ChainInv.eq_of_id_eq {ks : List Link} (h : ChainInv ks) {a b : Link} (ha : a ∈ ks)
    (hb : b ∈ ks) (hid : a.id = b.id) : a = b :=
  List.inj_on_of_nodup_map h.idsNodup ha hb hid

theorem chainInv_nil : ChainInv [] :=
  { idsNodup := List.nodup_nil
    rootShape := fun k hk => by cases hk
    originalRoot := fun k hk => by cases hk
    parentChain := fun k hk => by cases hk
    versions := fun k hk => by cases hk }

/-- Appending the link of an uploaded thesis keeps the chains well formed. -/
theorem ChainInv.append_root {ks : List Link} (h : ChainInv ks) (k0 : Link)
    (hfresh : ∀ k ∈ ks, k.id ≠ k0.id) (hv : k0.version = 1) (hp : k0.parent = none)
    (ho : k0.original = none) (hr : k0.isResubmission = false) : ChainInv (ks ++ [k0]) := by
  have hnoref : ∀ k ∈ ks, k.original ≠ some k0.id := by
    intro k hk hko
    obtain ⟨-, r, hr, hrid, -⟩ := h.originalRoot k hk _ hko
    exact hfresh r hr hrid
  constructor
  · rw [List.map_append, List.nodup_append]
    refine ⟨h.idsNodup, by simp, ?_⟩
    intro a ha hb
    simp only [List.map_cons, List.map_nil, List.mem_singleton] at hb
    obtain ⟨k, hk, rfl⟩ := List.mem_map.mp ha
    exact hfresh k hk hb
  · intro k hk hko
    rcases List.mem_append.mp hk with hk | hk
    · exact h.rootShape k hk hko
    · rw [List.mem_singleton.mp hk]
      exact ⟨hv, hp, hr⟩
  · intro k hk c hko
    rcases List.mem_append.mp hk with hk | hk
    · obtain ⟨h1, r, hr, h2⟩ := h.originalRoot k hk c hko
      exact ⟨h1, r, List.mem_append_left _ hr, h2⟩
    · rw [List.mem_singleton.mp hk, ho] at hko
      cases hko
  · intro k hk p hkp
    rcases List.mem_append.mp hk with hk | hk
    · obtain ⟨q, hq, h2⟩ := h.parentChain k hk p hkp
      exact ⟨q, List.mem_append_left _ hq, h2⟩
    · rw [List.mem_singleton.mp hk, hp] at hkp
      cases hkp
  · intro r hr hro
    rcases List.mem_append.mp hr with hr | hr
    · have hnot : Link.memberOf r.id k0 = false := by
        simp only [Link.memberOf, ho, Bool.or_eq_false_iff, decide_eq_false_iff_not]
        exact ⟨fun e => hfresh r hr e.symm, by simp⟩
      rw [List.filter_append]
      simp only [List.filter_cons, hnot, List.filter_nil, List.append_nil, Bool.false_eq_true,
        if_false]
      exact h.versions r hr hro
    · rw [List.mem_singleton.mp hr]
      have hnil : ks.filter (Link.memberOf k0.id) = [] := by
        rw [List.filter_eq_nil_iff]
        intro k hk
        simp only [Link.memberOf, Bool.or_eq_true, decide_eq_true_eq, not_or]
        exact ⟨hfresh k hk, hnoref k hk⟩
      rw [List.filter_append, hnil]
      simp [List.filter_cons, Link.memberOf, hv]
/-- The root of the chain a stored link belongs to. -/
theorem ChainInv.root_of_member {ks : List Link} (h : ChainInv ks) {T : Link} (hT : T ∈ ks) :
    Link.memberOf (T.original.getD T.id) T = true ∧
      ∃ r ∈ ks, r.id = T.original.getD T.id ∧ r.original = none := by
  cases ho : T.original with
  | none => exact ⟨by simp [Link.memberOf], T, hT, by simp, ho⟩
  | some c =>
    obtain ⟨-, r, hr, hrid, hro⟩ := h.originalRoot T hT c ho
    exact ⟨by simp [Link.memberOf, ho], r, hr, by simpa using hrid, hro⟩

/-- The highest version found by the scan of `submitResubmission` is the number of records
of the chain. -/
theorem ChainInv.highest_eq_length {ks : List Link} (h : ChainInv ks) {T : Link}
    (hT : T ∈ ks) :
    ((ks.filter (fun k => decide (k.parent = some T.id) ||
        decide (k.original = some (T.original.getD T.id)))).map
          (fun k => k.version)).foldr max T.version =
      (ks.filter (Link.memberOf (T.original.getD T.id))).length := by
  obtain ⟨hmem, r, hr, hrid, hro⟩ := h.root_of_member hT
  have hvers := h.versions r hr hro
  rw [hrid] at hvers
  generalize hc : T.original.getD T.id = c at hmem hrid hvers ⊢
  have hTc : T ∈ ks.filter (Link.memberOf c) := List.mem_filter.mpr ⟨hT, hmem⟩
  have hbound : ∀ e ∈ ks.filter (Link.memberOf c),
      1 ≤ e.version ∧ e.version ≤ (ks.filter (Link.memberOf c)).length := by
    intro e he
    have : e.version ∈ List.range' 1 (ks.filter (Link.memberOf c)).length := by
      rw [← hvers]
      exact List.mem_map.mpr ⟨e, he, rfl⟩
    rw [List.mem_range'_1] at this
    omega
  apply le_antisymm
  · apply foldr_max_le (hbound T hTc).2
    intro v hv
    obtain ⟨s, hs, rfl⟩ := List.mem_map.mp hv
    obtain ⟨hsk, hsp⟩ := List.mem_filter.mp hs
    apply (hbound s _).2
    apply List.mem_filter.mpr ⟨hsk, ?_⟩
    simp only [Bool.or_eq_true, decide_eq_true_eq] at hsp
    rcases hsp with hsp | hsp
    · obtain ⟨q, hq, hqid, hqo, -⟩ := h.parentChain s hsk _ hsp
      have hqT : q = T := h.eq_of_id_eq hq hT hqid
      rw [hqT, hc] at hqo
      simp [Link.memberOf, hqo]
    · simp [Link.memberOf, hsp]
  · have hlen : 1 ≤ (ks.filter (Link.memberOf c)).length :=
      List.length_pos_of_mem hTc
    have hin : (ks.filter (Link.memberOf c)).length ∈
        (ks.filter (Link.memberOf c)).map (fun k => k.version) := by
      rw [hvers, List.mem_range'_1]
      omega
    obtain ⟨e, he, hev⟩ := List.mem_map.mp hin
    obtain ⟨hek, hem⟩ := List.mem_filter.mp he
    simp only [Link.memberOf, Bool.or_eq_true, decide_eq_true_eq] at hem
    by_cases heo : e.original = some c
    · rw [← hev]
      apply le_foldr_max_of_mem
      apply List.mem_map.mpr ⟨e, List.mem_filter.mpr ⟨hek, ?_⟩, rfl⟩
      simp [heo]
    · have heid : e.id = c := by
        rcases hem with hem | hem
        · exact hem
        · exact absurd hem heo
      have her : e = r := h.eq_of_id_eq hek hr (heid.trans hrid.symm)
      have h1 : e.version = 1 := by
        rw [her]
        exact (h.rootShape r hr hro).1
      rw [← hev, h1]
      exact le_trans (hbound T hTc).1 (le_foldr_max_init _ _)

/-- Appending the link of a resubmission against the stored link `T` keeps the chains well
formed. -/
theorem ChainInv.append_resubmission {ks : List Link} (h : ChainInv ks) {T : Link}
    (hT : T ∈ ks) (k1 : Link) (hfresh : ∀ k ∈ ks, k.id ≠ k1.id)
    (hp : k1.parent = some T.id) (ho : k1.original = some (T.original.getD T.id))
    (hr : k1.isResubmission = true)
    (hv : k1.version = (ks.filter (Link.memberOf (T.original.getD T.id))).length + 1) :
    ChainInv (ks ++ [k1]) := by
  obtain ⟨hmem, r, hrk, hrid, hro⟩ := h.root_of_member hT
  have hTc : T ∈ ks.filter (Link.memberOf (T.original.getD T.id)) :=
    List.mem_filter.mpr ⟨hT, hmem⟩
  have hvers := h.versions r hrk hro
  rw [hrid] at hvers
  have hTv : T.version ≤ (ks.filter (Link.memberOf (T.original.getD T.id))).length := by
    have : T.version ∈ List.range' 1
        (ks.filter (Link.memberOf (T.original.getD T.id))).length := by
      rw [← hvers]
      exact List.mem_map.mpr ⟨T, hTc, rfl⟩
    rw [List.mem_range'_1] at this
    omega
  constructor
  · rw [List.map_append, List.nodup_append]
    refine ⟨h.idsNodup, by simp, ?_⟩
    intro a ha hb
    simp only [List.map_cons, List.map_nil, List.mem_singleton] at hb
    obtain ⟨k, hk, rfl⟩ := List.mem_map.mp ha
    exact hfresh k hk hb
  · intro k hk hko
    rcases List.mem_append.mp hk with hk | hk
    · exact h.rootShape k hk hko
    · rw [List.mem_singleton.mp hk, ho] at hko
      cases hko
  · intro k hk c hko
    rcases List.mem_append.mp hk with hk | hk
    · obtain ⟨h1, r', hr', h2⟩ := h.originalRoot k hk c hko
      exact ⟨h1, r', List.mem_append_left _ hr', h2⟩
    · rw [List.mem_singleton.mp hk] at hko ⊢
      rw [ho] at hko
      cases hko
      exact ⟨hr, r, List.mem_append_left _ hrk, hrid, hro⟩
  · intro k hk p hkp
    rcases List.mem_append.mp hk with hk | hk
    · obtain ⟨q, hq, h2⟩ := h.parentChain k hk p hkp
      exact ⟨q, List.mem_append_left _ hq, h2⟩
    · rw [List.mem_singleton.mp hk] at hkp ⊢
      rw [hp] at hkp
      cases hkp
      exact ⟨T, List.mem_append_left _ hT, rfl, ho, by omega⟩
  · intro r' hr' hro'
    rcases List.mem_append.mp hr' with hr' | hr'
    swap
    · rw [List.mem_singleton.mp hr', ho] at hro'
      cases hro'
    rw [List.filter_append]
    by_cases hc : T.original.getD T.id = r'.id
    · have hyes : Link.memberOf r'.id k1 = true := by
        simp [Link.memberOf, ho, hc]
      simp only [List.filter_cons, hyes, if_true, List.filter_nil, List.map_append,
        List.map_cons, List.map_nil, List.length_append, List.length_singleton]
      rw [List.range'_concat, h.versions r' hr' hro', hv, hc]
      simp [Nat.add_comm]
    · have hnot : Link.memberOf r'.id k1 = false := by
        simp only [Link.memberOf, ho, Bool.or_eq_false_iff, decide_eq_false_iff_not,
          Option.some.injEq]
        exact ⟨fun e => hfresh r' hr' e.symm, hc⟩
      simp only [List.filter_cons, hnot, List.filter_nil, List.append_nil, Bool.false_eq_true,
        if_false]
      exact h.versions r' hr' hro'

/-! ## The handlers keep the invariants -/

theorem dropWhile_append_singleton (p : Char → Bool) (xs : List Char) (a : Char)
    (ha : p a = false) : (xs ++ [a]).dropWhile p = xs.dropWhile p ++ [a] := by
  induction xs with
  | nil => simp [List.dropWhile, ha]
  | cons x xs ih =>
    by_cases hx : p x = true
    · simp [List.dropWhile_cons, hx, ih]
    · simp [List.dropWhile_cons, hx]

theorem dropWhile_dropWhile (p : Char → Bool) (l : List Char) :
    (l.dropWhile p).dropWhile p = l.dropWhile p := by
  induction l with
  | nil => rfl
  | cons x xs ih =>
    by_cases hx : p x = true
    · simp [List.dropWhile_cons, hx, ih]
    · simp [List.dropWhile_cons, hx]

theorem dropWhile_head (p : Char → Bool) (l : List Char) (a : Char) (t : List Char)
    (h : l.dropWhile p = a :: t) : p a = false := by
  induction l with
  | nil => simp at h
  | cons x xs ih =>
    by_cases hx : p x = true
    · simp only [List.dropWhile_cons, hx, if_true] at h
      exact ih h
    · simp only [List.dropWhile_cons, hx] at h
      simp only [Bool.false_eq_true, if_false, List.cons.injEq] at h
      rw [← h.1]
      simpa using hx

/-- Trimming a trimmed string changes nothing. -/
theorem jsTrim_idem (s : String) : jsTrim (jsTrim s) = jsTrim s := by
  unfold jsTrim
  simp only [List.reverse_reverse]
  congr 2
  have hfront : ((s.data.dropWhile isJsWhitespace).reverse.dropWhile
      isJsWhitespace).reverse.dropWhile isJsWhitespace =
      ((s.data.dropWhile isJsWhitespace).reverse.dropWhile isJsWhitespace).reverse := by
    cases hm : s.data.dropWhile isJsWhitespace with
    | nil => simp
    | cons a t =>
      have ha := dropWhile_head _ _ _ _ hm
      rw [List.reverse_cons, dropWhile_append_singleton _ _ _ ha, List.reverse_append]
      simp [List.dropWhile_cons, ha]
  rw [hfront, List.reverse_reverse, dropWhile_dropWhile]

theorem isHexLower_toLower (c : Char) (h : isHexLower c = true) : c.toLower = c := by
  unfold isHexLower at h
  simp only [Bool.or_eq_true, Bool.and_eq_true, decide_eq_true_eq] at h
  unfold Char.toLower
  have hrange : ¬ (c.toNat ≥ 65 ∧ c.toNat ≤ 90) := by omega
  simp only [hrange, if_false]

/-- The text of an identifier casts back to the identifier. -/
theorem castObjectId_hex (i : ObjectId) : castObjectId i.hex = some i := by
  have hlow : toLowerCase i.hex = i.hex := by
    have hc := i.canonical
    unfold isCanonicalHex at hc
    simp only [Bool.and_eq_true, decide_eq_true_eq, List.all_eq_true] at hc
    unfold toLowerCase
    have : i.hex.data.map Char.toLower = i.hex.data := by
      conv_rhs => rw [← List.map_id i.hex.data]
      apply List.map_congr_left
      intro c hcm
      exact isHexLower_toLower c (hc.2 c hcm)
    rw [this]
  unfold castObjectId
  have hcan : isCanonicalHex (toLowerCase i.hex) = true := by
    rw [hlow]
    exact i.canonical
  rw [dif_pos hcan]
  congr 1
  cases i
  simp only [ObjectId.mk.injEq]
  exact hlow

theorem mem_replaceThesis {l : List Thesis} {t' x : Thesis} (h : x ∈ replaceThesis l t') :
    x ∈ l ∨ x = t' := by
  induction l with
  | nil => cases h
  | cons a r ih =>
    unfold replaceThesis at h
    split at h
    · rcases List.mem_cons.mp h with rfl | hr
      · exact Or.inr rfl
      · exact Or.inl (List.mem_cons_of_mem _ hr)
    · rcases List.mem_cons.mp h with rfl | hr
      · exact Or.inl (List.mem_cons_self _ _)
      · rcases ih hr with h1 | h1
        · exact Or.inl (List.mem_cons_of_mem _ h1)
        · exact Or.inr h1

theorem links_replaceThesis {l : List Thesis} {t' : Thesis}
    (h : ∀ x ∈ l, x.id = t'.id → x.link = t'.link) :
    (replaceThesis l t').map Thesis.link = l.map Thesis.link := by
  induction l with
  | nil => rfl
  | cons a r ih =>
    unfold replaceThesis
    split
    · rename_i ha
      simp [h a (List.mem_cons_self _ _) ha]
    · simp [ih (fun x hx => h x (List.mem_cons_of_mem _ hx))]

/-- Writing back a stored thesis whose chain fields are untouched keeps the list of links. -/
theorem ChainInv.links_replace {l : List Thesis} (h : ChainInv (l.map Thesis.link))
    (t t' : Thesis) (ht : t ∈ l) (hlink : t'.link = t.link) :
    (replaceThesis l t').map Thesis.link = l.map Thesis.link := by
  apply links_replaceThesis
  intro x hx hid
  rw [hlink]
  apply h.eq_of_id_eq (List.mem_map_of_mem _ hx) (List.mem_map_of_mem _ ht)
  have : t'.link.id = t.link.id := by rw [hlink]
  exact hid.trans this

theorem storedValid_replace {l : List Thesis} (h : StoredValid l) {t' : Thesis}
    (hv : validThesis t' = true) (ht : jsTrim t'.studentName = t'.studentName) :
    StoredValid (replaceThesis l t') := by
  intro x hx
  rcases mem_replaceThesis hx with hx | rfl
  · exact h x hx
  · exact ⟨hv, ht⟩

theorem storedValid_append {l : List Thesis} (h : StoredValid l) {t' : Thesis}
    (hv : validThesis t' = true) (ht : jsTrim t'.studentName = t'.studentName) :
    StoredValid (l ++ [t']) := by
  intro x hx
  rcases List.mem_append.mp hx with hx | hx
  · exact h x hx
  · rw [List.mem_singleton.mp hx]
    exact ⟨hv, ht⟩

theorem chain_links (l : List Thesis) (root : ObjectId) :
    (chainOf l root).map Thesis.link = (l.map Thesis.link).filter (Link.memberOf root) := by
  rw [List.filter_map]
  rfl

theorem highestVersion_links (l : List Thesis) (original : Thesis) :
    highestVersion l original original.id =
      (((l.map Thesis.link).filter (fun k => decide (k.parent = some original.link.id) ||
        decide (k.original = some (original.link.original.getD original.link.id)))).map
          (fun k => k.version)).foldr max original.link.version := by
  rw [List.filter_map, List.map_map]
  simp only [highestVersion, otherVersions, chainIdOf, foldl_highest_eq]
  rfl

/-- On a well-formed collection the scan of `submitResubmission` yields the number of
records of the chain of the thesis resubmitted against. -/
theorem highestVersion_eq_chain_length {l : List Thesis} (h : ChainInv (l.map Thesis.link))
    {original : Thesis} (ho : original ∈ l) :
    highestVersion l original original.id =
      (chainOf l (chainIdOf original original.id)).length := by
  rw [highestVersion_links, h.highest_eq_length (List.mem_map_of_mem _ ho),
    ← List.length_map (chainOf l (chainIdOf original original.id)) Thesis.link, chain_links]
  rfl

theorem latestThesisOf_mem {l : List Thesis} {s : String} {t : Thesis}
    (h : latestThesisOf l s = some t) : t ∈ l := by
  unfold latestThesisOf at h
  have key : ∀ (m : List Thesis) (init : Option Thesis),
      m.foldl (fun best t =>
        match best with
        | none => some t
        | some b => if sortsBefore t b then some t else some b) init = some t →
      init = some t ∨ t ∈ m := by
    intro m
    induction m with
    | nil => intro init hi; exact Or.inl hi
    | cons a r ih =>
      intro init hi
      simp only [List.foldl_cons] at hi
      rcases ih _ hi with h1 | h1
      · cases init with
        | none =>
          simp only [Option.some.injEq] at h1
          exact Or.inr (h1 ▸ List.mem_cons_self _ _)
        | some b =>
          simp only at h1
          split at h1
          · simp only [Option.some.injEq] at h1
            exact Or.inr (h1 ▸ List.mem_cons_self _ _)
          · exact Or.inl h1
      · exact Or.inr (List.mem_cons_of_mem _ h1)
  rcases key _ _ h with h1 | h1
  · cases h1
  · exact (List.mem_filter.mp h1).1
/-- The thesis collection after `uploadThesis`: unchanged, or extended by the validated new
document under a fresh identifier. -/
theorem uploadThesis_theses (env : Env) (st : State) (req : UploadRequest) :
    (uploadThesis env st req).1.theses = st.theses ∨
      ∃ sup, validThesis (initialThesis env req sup) = true ∧
        findThesisById st.theses env.newThesisId = none ∧
        (uploadThesis env st req).1.theses = st.theses ++ [initialThesis env req sup] := by
  by_cases h1 : truthy req.fileUrl = true
  swap
  · exact Or.inl (by simp [uploadThesis, h1])
  by_cases h2 : truthy req.supervisorId = true
  swap
  · exact Or.inl (by simp [uploadThesis, h1, h2])
  cases h3 : resolveSupervisor st.users (req.supervisorId.getD "") with
  | none => exact Or.inl (by simp [uploadThesis, h1, h2, h3])
  | some u =>
    by_cases h4 : isFaculty u = true
    swap
    · exact Or.inl (by simp [uploadThesis, h1, h2, h3, h4])
    cases h5 : findThesisByStudent st.theses req.studentId with
    | some e => exact Or.inl (by simp [uploadThesis, h1, h2, h3, h4, h5])
    | none =>
      cases h6 : castObjectId (req.supervisorId.getD "") with
      | none => exact Or.inl (by simp [uploadThesis, h1, h2, h3, h4, h5, h6])
      | some sup =>
        by_cases h7 : validThesis (initialThesis env req sup) = true
        swap
        · exact Or.inl (by simp [uploadThesis, h1, h2, h3, h4, h5, h6, h7])
        cases h8 : findThesisById st.theses (initialThesis env req sup).id with
        | some d => exact Or.inl (by simp [uploadThesis, h1, h2, h3, h4, h5, h6, h7, h8])
        | none =>
          exact Or.inr ⟨sup, h7, h8, by simp [uploadThesis, h1, h2, h3, h4, h5, h6, h7, h8]⟩

/-- The thesis collection after `requestResubmission`: unchanged, or the found thesis
written back with the request stamped on it. -/
theorem requestResubmission_theses (env : Env) (st : State) (req : ResubmissionRequest) :
    (requestResubmission env st req).1.theses = st.theses ∨
      ∃ tid thesis, findThesisById st.theses tid = some thesis ∧
        validThesis (markRequested env thesis (req.reason.getD "") (req.facultyId.getD ""))
          = true ∧
        (requestResubmission env st req).1.theses = replaceThesis st.theses
          (markRequested env thesis (req.reason.getD "") (req.facultyId.getD "")) := by
  by_cases h1 : (!truthy req.thesisId || !truthy req.reason || !truthy req.facultyId) = true
  · exact Or.inl (by simp [requestResubmission, h1])
  cases h2 : castObjectId (req.thesisId.getD "") with
  | none => exact Or.inl (by simp [requestResubmission, h1, h2])
  | some tid =>
    cases h3 : findThesisById st.theses tid with
    | none => exact Or.inl (by simp [requestResubmission, h1, h2, h3])
    | some thesis =>
      cases h4 : findUserById st.users thesis.supervisorId with
      | none => exact Or.inl (by simp [requestResubmission, h1, h2, h3, h4])
      | some supervisor =>
        by_cases h5 : thesis.supervisorId.hex = req.facultyId.getD ""
        swap
        · exact Or.inl (by simp [requestResubmission, h1, h2, h3, h4, h5])
        by_cases h6 : validThesis
            (markRequested env thesis (req.reason.getD "") (req.facultyId.getD "")) = true
        swap
        · exact Or.inl (by simp [requestResubmission, h1, h2, h3, h4, h5, h6])
        refine Or.inr ⟨tid, thesis, h3, h6, ?_⟩
        by_cases h7 : env.notificationSaves = true
        · simp [requestResubmission, h1, h2, h3, h4, h5, h6, h7]
        · simp [requestResubmission, h1, h2, h3, h4, h5, h6, h7]

/-- The thesis collection after `submitResubmission`: unchanged, or extended by the created
document, the original being written back as well unless its validation fails. -/
theorem submitResubmission_theses (env : Env) (st : State) (req : SubmitRequest) :
    (submitResubmission env st req).1.theses = st.theses ∨
      ∃ original, findThesisById st.theses original.id = some original ∧
        validThesis (resubmittedThesis env st.theses req original original.id) = true ∧
        findThesisById st.theses env.newThesisId = none ∧
        ((submitResubmission env st req).1.theses =
            st.theses ++ [resubmittedThesis env st.theses req original original.id] ∨
          (validThesis (markResubmitted env original) = true ∧
            (submitResubmission env st req).1.theses =
              replaceThesis
                (st.theses ++ [resubmittedThesis env st.theses req original original.id])
                (markResubmitted env original))) := by
  by_cases h1 : (!truthy req.originalThesisId || !truthy req.studentId ||
      !truthy req.fileUrl) = true
  · exact Or.inl (by simp [submitResubmission, h1])
  cases h2 : castObjectId (req.originalThesisId.getD "") with
  | none => exact Or.inl (by simp [submitResubmission, h1, h2])
  | some oid =>
    cases h3 : findThesisById st.theses oid with
    | none => exact Or.inl (by simp [submitResubmission, h1, h2, h3])
    | some original =>
      have hid : original.id = oid := (findThesisById_some h3).2
      subst hid
      by_cases h4 : studentIdMatch env.lowerCase original.studentId (req.studentId.getD "") = true
      swap
      · exact Or.inl (by simp [submitResubmission, h1, h2, h3, h4])
      by_cases h5 : original.resubmissionRequested = true
      swap
      · exact Or.inl (by simp [submitResubmission, h1, h2, h3, h4, h5])
      cases h6 : findUserById st.users original.supervisorId with
      | none => exact Or.inl (by simp [submitResubmission, h1, h2, h3, h4, h5, h6])
      | some supervisor =>
        by_cases h7 : validThesis
            (resubmittedThesis env st.theses req original original.id) = true
        swap
        · exact Or.inl (by simp [submitResubmission, h1, h2, h3, h4, h5, h6, h7])
        cases h8 : findThesisById st.theses
            (resubmittedThesis env st.theses req original original.id).id with
        | some d => exact Or.inl (by simp [submitResubmission, h1, h2, h3, h4, h5, h6, h7, h8])
        | none =>
          refine Or.inr ⟨original, h3, h7, h8, ?_⟩
          by_cases h9 : validThesis (markResubmitted env original) = true
          swap
          · exact Or.inl (by simp [submitResubmission, h1, h2, h3, h4, h5, h6, h7, h8, h9])
          refine Or.inr ⟨h9, ?_⟩
          by_cases h10 : env.notificationSaves = true
          · simp [submitResubmission, h1, h2, h3, h4, h5, h6, h7, h8, h9, h10]
          · simp [submitResubmission, h1, h2, h3, h4, h5, h6, h7, h8, h9, h10]

theorem fresh_links {l : List Thesis} {i : ObjectId} (h : findThesisById l i = none) :
    ∀ k ∈ l.map Thesis.link, k.id ≠ i := by
  intro k hk
  obtain ⟨t, ht, rfl⟩ := List.mem_map.mp hk
  exact findThesisById_none h t ht

/-- A resubmission against a stored thesis extends a well-formed collection to a well-formed
one. -/
theorem chainInv_append_created {l : List Thesis} (h : ChainInv (l.map Thesis.link))
    {original : Thesis} (ho : original ∈ l) (env : Env) (req : SubmitRequest)
    (hfresh : findThesisById l env.newThesisId = none) :
    ChainInv ((l ++ [resubmittedThesis env l req original original.id]).map Thesis.link) := by
  rw [List.map_append]
  apply h.append_resubmission (List.mem_map_of_mem _ ho) _ (fresh_links hfresh) rfl rfl rfl
  have hv := h.highest_eq_length (List.mem_map_of_mem Thesis.link ho)
  rw [← highestVersion_links] at hv
  show highestVersion l original original.id + 1 = _
  rw [hv]

/-- Every reachable store has well-formed chains and schema-valid theses. -/
theorem reachable_inv {st : State} (h : Reachable st) :
    ChainInv (st.theses.map Thesis.link) ∧ StoredValid st.theses := by
  induction h with
  | init users => exact ⟨chainInv_nil, fun t ht => by cases ht⟩
  | upload env st req _ ih =>
    rcases uploadThesis_theses env st req with h | ⟨sup, hv, hfresh, h⟩
    · rw [h]
      exact ih
    · rw [h]
      constructor
      · rw [List.map_append]
        exact ih.1.append_root _ (fresh_links hfresh) rfl rfl rfl rfl
      · exact storedValid_append ih.2 hv (jsTrim_idem _)
  | request env st req _ ih =>
    rcases requestResubmission_theses env st req with h | ⟨tid, thesis, hfound, hv, h⟩
    · rw [h]
      exact ih
    · rw [h]
      have hmem := (findThesisById_some hfound).1
      constructor
      · rw [ih.1.links_replace thesis
          (markRequested env thesis (req.reason.getD "") (req.facultyId.getD "")) hmem rfl]
        exact ih.1
      · exact storedValid_replace ih.2 hv (ih.2 thesis hmem).2
  | resubmit env st req _ ih =>
    rcases submitResubmission_theses env st req with h | ⟨original, hfound, hv, hfresh, h⟩
    · rw [h]
      exact ih
    · have hmem := (findThesisById_some hfound).1
      have hinv := chainInv_append_created ih.1 hmem env req hfresh
      have hvalid : StoredValid
          (st.theses ++ [resubmittedThesis env st.theses req original original.id]) :=
        storedValid_append ih.2 hv (jsTrim_idem _)
      rcases h with h | ⟨hov, h⟩
      · rw [h]
        exact ⟨hinv, hvalid⟩
      · rw [h]
        constructor
        · rw [hinv.links_replace original (markResubmitted env original)
            (List.mem_append_left _ hmem) rfl]
          exact hinv
        · exact storedValid_replace hvalid hov (ih.2 original hmem).2
  | approve env st studentId _ ih =>
    unfold approveLatestThesis
    cases hl : latestThesisOf st.theses studentId with
    | none => exact ih
    | some t =>
      have hmem := latestThesisOf_mem hl
      constructor
      · show ChainInv ((replaceThesis st.theses (markApproved env t)).map Thesis.link)
        rw [ih.1.links_replace t (markApproved env t) hmem rfl]
        exact ih.1
      · exact storedValid_replace ih.2 (ih.2 t hmem).1 (ih.2 t hmem).2
  | usersWritten st users _ ih => exact ih

theorem sampleStore3_reachable : Reachable sampleStore3 :=
  Reachable.resubmit sampleEnv3 sampleStore2 sampleSubmit
    (Reachable.request sampleEnv2 sampleStore1 sampleRequest
      (Reachable.upload sampleEnv1 sampleStore0 sampleUpload (Reachable.init [sampleFaculty])))

theorem chain_versions_of_inv {l : List Thesis} (h : ChainInv (l.map Thesis.link))
    {root : Thesis} (hroot : root ∈ l) (hnone : root.originalSubmissionId = none) :
    (chainOf l root.id).map (fun t => t.version) =
      List.range' 1 (chainOf l root.id).length := by
  have hv := h.versions root.link (List.mem_map_of_mem _ hroot) hnone
  have hl := chain_links l root.id
  have e1 : (chainOf l root.id).map (fun t => t.version) =
      ((chainOf l root.id).map Thesis.link).map (fun k => k.version) := by
    rw [List.map_map]
    rfl
  have e2 : (chainOf l root.id).length = ((chainOf l root.id).map Thesis.link).length := by
    rw [List.length_map]
  rw [e1, e2, hl]
  exact hv

theorem chainIdOf_of_member {l : List Thesis} (h : ChainInv (l.map Thesis.link))
    {root original : Thesis} (hroot : root ∈ l) (hnone : root.originalSubmissionId = none)
    (ho : original ∈ chainOf l root.id) : chainIdOf original original.id = root.id := by
  obtain ⟨hmem, hp⟩ := List.mem_filter.mp ho
  simp only [Bool.or_eq_true, decide_eq_true_eq] at hp
  rcases hp with hp | hp
  · have := h.eq_of_id_eq (List.mem_map_of_mem Thesis.link hmem)
      (List.mem_map_of_mem Thesis.link hroot) hp
    have horig : original.originalSubmissionId = root.originalSubmissionId :=
      congrArg Link.original this
    simp [chainIdOf, horig, hnone, hp]
  · simp [chainIdOf, hp]

/-- The version given by a successful `submitResubmission` on a well-formed collection. -/
theorem created_version_of_inv {env : Env} {st : State} {req : SubmitRequest}
    (h : ChainInv (st.theses.map Thesis.link)) {oid : ObjectId} {original created : Thesis}
    (hcast : castObjectId (req.originalThesisId.getD "") = some oid)
    (hfound : findThesisById st.theses oid = some original)
    (hok : (submitResubmission env st req).2.status = 201)
    (hcreated : (submitResubmission env st req).2.thesis = some created) :
    created.version = (chainOf st.theses (chainIdOf original original.id)).length + 1 := by
  obtain ⟨oid', original', supervisor, hacc⟩ := submitResubmission_accepted hok
  have e1 : oid' = oid := Option.some.inj (hacc.cast.symm.trans hcast)
  subst e1
  have e2 : original' = original := Option.some.inj (hacc.found.symm.trans hfound)
  subst e2
  rw [submitResubmission_of_accepted hacc] at hcreated
  simp only [submitOutcome, Option.some.injEq] at hcreated
  subst hcreated
  obtain ⟨hmem, hid⟩ := findThesisById_some hfound
  subst hid
  show highestVersion st.theses original' original'.id + 1 = _
  rw [highestVersion_eq_chain_length h hmem]

/-- C2: in every store reached from the empty thesis collection by the handlers in
sequence, the records of the chain of a root (the root and the records whose
`originalSubmissionId` is the root's identifier) carry, in store order, exactly the
versions 1, 2, ..., n, so no version occurs twice; and a successful resubmission against
any record of the chain creates version n + 1. -/
theorem reachable_chain_versions (st : State) (h : Reachable st) (root : Thesis)
    (hroot : root ∈ st.theses) (hnone : root.originalSubmissionId = none) :
    ((chainOf st.theses root.id).map (fun t => t.version)).Nodup ∧
      (chainOf st.theses root.id).map (fun t => t.version) =
        List.range' 1 (chainOf st.theses root.id).length ∧
      ∀ (env : Env) (req : SubmitRequest) (oid : ObjectId) (original created : Thesis),
        castObjectId (req.originalThesisId.getD "") = some oid →
        findThesisById st.theses oid = some original →
        original ∈ chainOf st.theses root.id →
        (submitResubmission env st req).2.status = 201 →
        (submitResubmission env st req).2.thesis = some created →
        created.version = (chainOf st.theses root.id).length + 1 := by
  have hinv := (reachable_inv h).1
  have hv := chain_versions_of_inv hinv hroot hnone
  refine ⟨?_, hv, ?_⟩
  · rw [hv]
    exact List.nodup_range' 1 _
  · intro env req oid original created hcast hfound hmem hok hcreated
    rw [created_version_of_inv hinv hcast hfound hok hcreated,
      chainIdOf_of_member hinv hroot hnone hmem]

/-- Witness of C2 on the store after the sample resubmission: the chain of the first
thesis carries the versions 1 and 2. -/
theorem reachable_chain_versions_witness :
    (chainOf sampleStore3.theses sampleOriginalAfter.id).map (fun t => t.version) =
      List.range' 1 (chainOf sampleStore3.theses sampleOriginalAfter.id).length :=
  (reachable_chain_versions sampleStore3 sampleStore3_reachable sampleOriginalAfter
    (by decide) rfl).2.1

/-! ## When the handlers succeed -/

theorem castObjectId_ne_empty {a : String} {i : ObjectId} (h : castObjectId a = some i) :
    a ≠ "" := by
  rintro rfl
  have : castObjectId "" = none := by decide
  rw [this] at h
  cases h

theorem validThesis_markResubmitted (env : Env) (t : Thesis) :
    validThesis (markResubmitted env t) = validThesis t := rfl

theorem validThesis_markRequested (env : Env) (t : Thesis) (r f : String) :
    validThesis (markRequested env t r f) = validThesis t := rfl

theorem orElse_ne_empty (a : Option String) (b : String) (hb : b ≠ "") : orElse a b ≠ "" := by
  cases a with
  | none => simpa [orElse] using hb
  | some s =>
    by_cases hs : s = ""
    · simpa [orElse, hs] using hb
    · simp [orElse, hs]

/-- A resubmission that meets the handler's conditions is accepted, on a schema-valid
collection, when the environment supplies a fresh identifier and stores the notification,
and a student name given in the request is not blank. -/
theorem submitAccepted_of_conditions {env : Env} {st : State} {req : SubmitRequest}
    {a s u : String} {oid : ObjectId} {original : Thesis} {supervisor : User}
    (hvalid : StoredValid st.theses)
    (ha : req.originalThesisId = some a) (hs : req.studentId = some s) (hs' : s ≠ "")
    (hu : req.fileUrl = some u) (hu' : u ≠ "")
    (hcast : castObjectId a = some oid)
    (hfound : findThesisById st.theses oid = some original)
    (hmatch : studentIdMatch env.lowerCase original.studentId s = true)
    (hreq : original.resubmissionRequested = true)
    (hpop : findUserById st.users original.supervisorId = some supervisor)
    (hname : ∀ n, req.studentName = some n → n ≠ "" → jsTrim n ≠ "")
    (hfresh : findThesisById st.theses env.newThesisId = none)
    (hnotif : env.notificationSaves = true) :
    SubmitAccepted env st req oid original supervisor := by
  obtain ⟨hov, htrim⟩ := hvalid original (findThesisById_some hfound).1
  have hov' := hov
  simp only [validThesis, Bool.and_eq_true, decide_eq_true_eq] at hov'
  obtain ⟨⟨⟨hn, -⟩, -⟩, hd⟩ := hov'
  have hnameOk : jsTrim (orElse req.studentName original.studentName) ≠ "" := by
    cases hsn : req.studentName with
    | none =>
      simp only [orElse]
      rw [htrim]
      exact hn
    | some n =>
      by_cases hne : n = ""
      · simp only [orElse, hne, ne_eq, not_true_eq_false, if_false]
        rw [htrim]
        exact hn
      · simp only [orElse, hne, ne_eq, not_false_eq_true, if_true]
        exact hname n hsn hne
  refine ⟨?_, ?_, ?_, ?_, hfound, ?_, hreq, hpop, ?_, hfresh, ?_, hnotif⟩
  · simp [ha, truthy, castObjectId_ne_empty hcast]
  · simp [hs, truthy, hs']
  · simp [hu, truthy, hu']
  · simpa [ha] using hcast
  · simpa [hs] using hmatch
  · simp only [validThesis, resubmittedThesis, Bool.and_eq_true, decide_eq_true_eq]
    exact ⟨⟨⟨hnameOk, by simpa [hs] using hs'⟩, by simpa [hu] using hu'⟩,
      orElse_ne_empty _ _ hd⟩
  · rw [validThesis_markResubmitted]
    exact hov

/-- The store and response of an accepted `requestResubmission`. -/
theorem requestResubmission_of_conditions {env : Env} {st : State}
    {req : ResubmissionRequest} {i r f : String} {tid : ObjectId} {thesis : Thesis}
    {supervisor : User}
    (hi : req.thesisId = some i) (hr : req.reason = some r) (hr' : r ≠ "")
    (hf : req.facultyId = some f)
    (hcast : castObjectId i = some tid)
    (hfound : findThesisById st.theses tid = some thesis)
    (hpop : findUserById st.users thesis.supervisorId = some supervisor)
    (hsup : thesis.supervisorId.hex = f)
    (hvalid : validThesis thesis = true)
    (hnotif : env.notificationSaves = true) :
    requestResubmission env st req =
      ({ theses := replaceThesis st.theses (markRequested env thesis r f)
         users := st.users
         notifications := st.notifications ++
           [requestNotification env (markRequested env thesis r f) supervisor tid r] },
        { status := 200, success := true, message := "Resubmission requested successfully",
          thesis := some (markRequested env thesis r f) }) := by
  have hi' : i ≠ "" := castObjectId_ne_empty hcast
  have hf' : f ≠ "" := by
    rintro rfl
    have hc := thesis.supervisorId.canonical
    rw [hsup] at hc
    exact absurd hc (by decide)
  have hv : validThesis (markRequested env thesis r f) = true := by
    rw [validThesis_markRequested]
    exact hvalid
  simp [requestResubmission, hi, hr, hf, truthy, hi', hr', hf', hcast, hfound, hpop, hsup, hv,
    hnotif]

theorem find_of_mem {l : List Thesis} (h : ChainInv (l.map Thesis.link)) {t : Thesis}
    (ht : t ∈ l) : findThesisById l t.id = some t := by
  have hnd : (l.map (fun x : Thesis => x.id)).Nodup := by
    have := h.idsNodup
    rwa [List.map_map] at this
  cases hf : findThesisById l t.id with
  | none => exact absurd rfl (findThesisById_none hf t ht)
  | some x =>
    obtain ⟨hx, hid⟩ := findThesisById_some hf
    rw [List.inj_on_of_nodup_map hnd hx ht hid]

theorem chain_length_links (l : List Thesis) (root : ObjectId) :
    (chainOf l root).length = ((l.map Thesis.link).filter (Link.memberOf root)).length := by
  rw [← chain_links, List.length_map]

theorem sampleStore5_reachable : Reachable sampleStore5 :=
  Reachable.resubmit sampleEnv5 sampleStore4 sampleSubmitOnSecond
    (Reachable.request sampleEnv4 sampleStore3 sampleRequestOnSecond sampleStore3_reachable)

/-- C3: in a reachable store, a successful `submitResubmission` against any record of a
chain creates a version greater than the version of every record of that chain; and when
the chain holds three records, a resubmission requested on the record of version 2 by its
supervisor is accepted, and a resubmission then sent against that record with a matching
`studentId` succeeds and creates version 4. -/
theorem resubmission_exceeds_chain (st : State) (h : Reachable st) (root : Thesis)
    (hroot : root ∈ st.theses) (hnone : root.originalSubmissionId = none) :
    (∀ (env : Env) (req : SubmitRequest) (oid : ObjectId) (original created : Thesis),
        castObjectId (req.originalThesisId.getD "") = some oid →
        findThesisById st.theses oid = some original →
        original ∈ chainOf st.theses root.id →
        (submitResubmission env st req).2.status = 201 →
        (submitResubmission env st req).2.thesis = some created →
        ∀ t ∈ chainOf st.theses root.id, t.version < created.version) ∧
      (∀ (v2 : Thesis) (supervisor : User) (env1 env2 : Env) (req1 : ResubmissionRequest)
          (req2 : SubmitRequest) (a r s u : String),
        (chainOf st.theses root.id).length = 3 →
        v2 ∈ chainOf st.theses root.id → v2.version = 2 →
        findUserById st.users v2.supervisorId = some supervisor →
        req1.thesisId = some a → req1.reason = some r → r ≠ "" →
        req1.facultyId = some v2.supervisorId.hex →
        castObjectId a = some v2.id →
        env1.notificationSaves = true →
        req2.originalThesisId = some a → req2.studentId = some s → s ≠ "" →
        studentIdMatch env2.lowerCase v2.studentId s = true →
        req2.fileUrl = some u → u ≠ "" →
        (∀ n, req2.studentName = some n → n ≠ "" → jsTrim n ≠ "") →
        findThesisById (requestResubmission env1 st req1).1.theses env2.newThesisId = none →
        env2.notificationSaves = true →
        (requestResubmission env1 st req1).2.status = 200 ∧
          (submitResubmission env2 (requestResubmission env1 st req1).1 req2).2.status = 201 ∧
          (submitResubmission env2 (requestResubmission env1 st req1).1 req2).2.thesis.map
            (fun t => t.version) = some 4) := by
  obtain ⟨hinv, hvalid⟩ := reachable_inv h
  have hv := chain_versions_of_inv hinv hroot hnone
  constructor
  · intro env req oid original created hcast hfound hmem hok hcreated t ht
    rw [created_version_of_inv hinv hcast hfound hok hcreated,
      chainIdOf_of_member hinv hroot hnone hmem]
    have : t.version ∈ List.range' 1 (chainOf st.theses root.id).length := by
      rw [← hv]
      exact List.mem_map.mpr ⟨t, ht, rfl⟩
    rw [List.mem_range'_1] at this
    omega
  · intro v2 supervisor env1 env2 req1 req2 a r s u hlen hv2 _ hpop hi hr hr' hf hcast hn1
      ha hs hs' hmatch hu hu' hname hfresh hn2
    have hv2mem : v2 ∈ st.theses := (List.mem_filter.mp hv2).1
    have hfound := find_of_mem hinv hv2mem
    have hreq := requestResubmission_of_conditions hi hr hr' hf hcast hfound hpop rfl
      (hvalid v2 hv2mem).1 hn1
    have hreach : Reachable (requestResubmission env1 st req1).1 :=
      Reachable.request env1 st req1 h
    obtain ⟨hinv1, hvalid1⟩ := reachable_inv hreach
    have hth : (requestResubmission env1 st req1).1.theses =
        replaceThesis st.theses (markRequested env1 v2 r v2.supervisorId.hex) := by
      rw [hreq]
    have hus : (requestResubmission env1 st req1).1.users = st.users := by
      rw [hreq]
    have hfound1 : findThesisById (requestResubmission env1 st req1).1.theses v2.id =
        some (markRequested env1 v2 r v2.supervisorId.hex) := by
      rw [hth]
      exact findThesisById_replaceThesis hfound
    have hpop1 : findUserById (requestResubmission env1 st req1).1.users
        (markRequested env1 v2 r v2.supervisorId.hex).supervisorId = some supervisor := by
      rw [hus]
      exact hpop
    have hacc : SubmitAccepted env2 (requestResubmission env1 st req1).1 req2 v2.id
        (markRequested env1 v2 r v2.supervisorId.hex) supervisor :=
      submitAccepted_of_conditions hvalid1 ha hs hs' hu hu' hcast hfound1 hmatch rfl hpop1
        hname hfresh hn2
    rw [submitResubmission_of_accepted hacc]
    refine ⟨by rw [hreq], rfl, ?_⟩
    simp only [submitOutcome, Option.map_some', Option.some.injEq]
    show highestVersion _ (markRequested env1 v2 r v2.supervisorId.hex)
      (markRequested env1 v2 r v2.supervisorId.hex).id + 1 = 4
    rw [highestVersion_eq_chain_length hinv1 (findThesisById_some hfound1).1,
      chain_length_links, hth,
      hinv.links_replace v2 (markRequested env1 v2 r v2.supervisorId.hex) hv2mem rfl,
      ← chain_length_links]
    have hc : chainIdOf v2 v2.id = root.id := chainIdOf_of_member hinv hroot hnone hv2
    have hc' : chainIdOf (markRequested env1 v2 r v2.supervisorId.hex)
        (markRequested env1 v2 r v2.supervisorId.hex).id = root.id := hc
    rw [hc', hlen]

/-- Witness of C3 on the sample store with versions 1, 2 and 3: a second request and a
second resubmission against version 2 create version 4. -/
theorem resubmission_exceeds_chain_witness :
    (submitResubmission sampleEnv7
        (requestResubmission sampleEnv6 sampleStore5 sampleRequestOnSecond).1
        sampleSubmitOnSecond).2.thesis.map (fun t => t.version) = some 4 :=
  ((resubmission_exceeds_chain sampleStore5 sampleStore5_reachable sampleOriginalAfter
    (by decide) rfl).2 sampleSecondStored sampleFaculty sampleEnv6 sampleEnv7
    sampleRequestOnSecond sampleSubmitOnSecond "0000000000000000000000b2" "more citations"
    "s1" "u3.pdf" (by decide) (by decide) (by decide) (by decide) rfl rfl (by decide) rfl
    (by decide) rfl rfl rfl (by decide) (by decide) rfl (by decide)
    (fun n hn => by cases hn) (by decide) rfl).2.2

theorem ChainInv.filter_fresh {ks : List Link} (h : ChainInv ks) {i : ObjectId}
    (hfresh : ∀ k ∈ ks, k.id ≠ i) : ks.filter (Link.memberOf i) = [] := by
  rw [List.filter_eq_nil_iff]
  intro k hk
  simp only [Link.memberOf, Bool.or_eq_true, decide_eq_true_eq, not_or]
  refine ⟨hfresh k hk, ?_⟩
  intro hko
  obtain ⟨-, r, hr, hrid, -⟩ := h.originalRoot k hk _ hko
  exact hfresh r hr hrid

theorem findThesisById_append_of_none {l : List Thesis} {i : ObjectId}
    (h : findThesisById l i = none) (r : List Thesis) :
    findThesisById (l ++ r) i = findThesisById r i := by
  unfold findThesisById at h ⊢
  rw [List.find?_append, h]
  rfl

theorem hex_ne_empty (i : ObjectId) : i.hex ≠ "" := by
  intro he
  have hc := i.canonical
  rw [he] at hc
  exact absurd hc (by decide)

/-- The store and response of an accepted `uploadThesis`. -/
theorem uploadThesis_of_conditions (env : Env) (st : State) (req : UploadRequest)
    {n s d u : String} {supervisor : User}
    (hn : req.studentName = some n) (hn' : jsTrim n ≠ "")
    (hs : req.studentId = some s) (hs' : s ≠ "")
    (hd : req.department = some d) (hd' : d ≠ "")
    (hu : req.fileUrl = some u) (hu' : u ≠ "")
    (hf : req.supervisorId = some supervisor.id.hex)
    (hpop : findUserById st.users supervisor.id = some supervisor)
    (hfac : isFaculty supervisor = true)
    (hnone : ∀ t ∈ st.theses, t.studentId ≠ s)
    (hfresh : findThesisById st.theses env.newThesisId = none) :
    uploadThesis env st req =
      ({ st with theses := st.theses ++ [initialThesis env req supervisor.id] },
        { status := 201, success := true, message := "Thesis submitted successfully",
          thesis := some (initialThesis env req supervisor.id) }) := by
  have h1 : truthy req.fileUrl = true := by simp [hu, truthy, hu']
  have h2 : truthy req.supervisorId = true := by simp [hf, truthy, hex_ne_empty]
  have hget : req.supervisorId.getD "" = supervisor.id.hex := by simp [hf]
  have h3 : resolveSupervisor st.users supervisor.id.hex = some supervisor := by
    simp [resolveSupervisor, castObjectId_hex, hpop]
  have h5 : findThesisByStudent st.theses req.studentId = none := by
    simp only [findThesisByStudent, hs]
    rw [List.find?_eq_none]
    intro t ht
    simpa using hnone t ht
  have h7 : validThesis (initialThesis env req supervisor.id) = true := by
    simp [validThesis, initialThesis, hn, hs, hd, hu, hn', hs', hd', hu']
  have h8 : findThesisById st.theses (initialThesis env req supervisor.id).id = none := hfresh
  simp [uploadThesis, h1, h2, hget, h3, hfac, h5, castObjectId_hex, h7, h8]

/-- C5: for a student without a thesis, a stored faculty supervisor and a non-empty reason,
the upload, the request for a resubmission and the resubmission succeed in turn (the
environment supplying fresh identifiers and storing the notifications); the first record
has version 1 and status "Under Review" after the upload, status "Resubmit" and
`resubmissionRequested = true` after the request, and status "Resubmitted" and
`resubmissionRequested = false` at the end; the created record has version 2, status
"Under Review" and a history of exactly one entry, of version 1 and with the first
record's file URL. -/
theorem upload_request_resubmit (st : State) (h : Reachable st) (env1 env2 env3 : Env)
    (supervisor : User) (n s d u1 r u2 : String)
    (upload : UploadRequest) (request : ResubmissionRequest) (submit : SubmitRequest)
    (st1 st2 st3 : State) (resp1 resp2 resp3 : Response)
    (hstudent : ∀ t ∈ st.theses, t.studentId ≠ s) (hs : s ≠ "")
    (hn : jsTrim n ≠ "") (hd : d ≠ "") (hu1 : u1 ≠ "") (hr : r ≠ "") (hu2 : u2 ≠ "")
    (hsup : findUserById st.users supervisor.id = some supervisor)
    (hfac : isFaculty supervisor = true)
    (hfresh1 : findThesisById st.theses env1.newThesisId = none)
    (hfresh3 : findThesisById st.theses env3.newThesisId = none)
    (hne : env3.newThesisId ≠ env1.newThesisId)
    (hnotif2 : env2.notificationSaves = true) (hnotif3 : env3.notificationSaves = true)
    (hupload : upload =
      { studentName := some n, studentId := some s, department := some d,
        fileUrl := some u1, supervisorId := some supervisor.id.hex })
    (hrequest : request =
      { thesisId := some env1.newThesisId.hex, reason := some r,
        facultyId := some supervisor.id.hex })
    (hsubmit : submit =
      { originalThesisId := some env1.newThesisId.hex, studentId := some s,
        fileUrl := some u2, studentName := none, department := none })
    (hrun1 : uploadThesis env1 st upload = (st1, resp1))
    (hrun2 : requestResubmission env2 st1 request = (st2, resp2))
    (hrun3 : submitResubmission env3 st2 submit = (st3, resp3)) :
    resp1.status = 201 ∧ resp2.status = 200 ∧ resp3.status = 201 ∧
      (∃ first, findThesisById st1.theses env1.newThesisId = some first ∧
        first.version = 1 ∧ first.status = Status.underReview ∧ first.fileUrl = u1) ∧
      (∃ first, findThesisById st2.theses env1.newThesisId = some first ∧
        first.status = Status.resubmit ∧ first.resubmissionRequested = true) ∧
      (∃ first, findThesisById st3.theses env1.newThesisId = some first ∧
        first.version = 1 ∧ first.status = Status.resubmitted ∧
        first.resubmissionRequested = false) ∧
      (∃ created, resp3.thesis = some created ∧
        findThesisById st3.theses env3.newThesisId = some created ∧
        created.version = 2 ∧ created.status = Status.underReview ∧
        ∃ entry, created.submissionHistory = [entry] ∧ entry.version = 1 ∧
          entry.fileUrl = u1) := by
  obtain ⟨hinv, hvalid⟩ := reachable_inv h
  have hreach1 : Reachable st1 := by
    have := Reachable.upload env1 st upload h
    rwa [hrun1] at this
  have hreach2 : Reachable st2 := by
    have := Reachable.request env2 st1 request hreach1
    rwa [hrun2] at this
  have hreach3 : Reachable st3 := by
    have := Reachable.resubmit env3 st2 submit hreach2
    rwa [hrun3] at this
  -- the upload
  have hup := uploadThesis_of_conditions env1 st upload (by rw [hupload]) hn (by rw [hupload])
    hs (by rw [hupload]) hd (by rw [hupload]) hu1 (by rw [hupload]) hsup hfac hstudent hfresh1
  rw [hrun1] at hup
  obtain ⟨hst1, hresp1⟩ := Prod.mk.inj hup
  have hth1 : st1.theses = st.theses ++ [initialThesis env1 upload supervisor.id] := by
    rw [hst1]
  have hus1 : st1.users = st.users := by rw [hst1]
  have hfound1 : findThesisById st1.theses env1.newThesisId =
      some (initialThesis env1 upload supervisor.id) := by
    rw [hth1, findThesisById_append_of_none hfresh1]
    simp [findThesisById, initialThesis]
  -- the request
  have hpop1 : findUserById st1.users (initialThesis env1 upload supervisor.id).supervisorId =
      some supervisor := by
    rw [hus1]
    exact hsup
  have q1 : request.thesisId = some env1.newThesisId.hex := by rw [hrequest]
  have q2 : request.reason = some r := by rw [hrequest]
  have q3 : request.facultyId = some supervisor.id.hex := by rw [hrequest]
  have hreq := requestResubmission_of_conditions q1 q2 hr q3
    (castObjectId_hex env1.newThesisId) hfound1 hpop1 rfl
    ((reachable_inv hreach1).2 _ (findThesisById_some hfound1).1).1 hnotif2
  rw [hrun2] at hreq
  obtain ⟨hst2, hresp2⟩ := Prod.mk.inj hreq
  have hth2 : st2.theses = replaceThesis st1.theses
      (markRequested env2 (initialThesis env1 upload supervisor.id) r supervisor.id.hex) := by
    rw [hst2]
  have hus2 : st2.users = st1.users := by rw [hst2]
  have hfound2 : findThesisById st2.theses env1.newThesisId =
      some (markRequested env2 (initialThesis env1 upload supervisor.id) r
        supervisor.id.hex) := by
    rw [hth2]
    exact findThesisById_replaceThesis hfound1
  -- the resubmission
  have hpop2 : findUserById st2.users
      (markRequested env2 (initialThesis env1 upload supervisor.id) r
        supervisor.id.hex).supervisorId = some supervisor := by
    rw [hus2]
    exact hpop1
  have hfresh2 : findThesisById st2.theses env3.newThesisId = none := by
    unfold findThesisById
    rw [List.find?_eq_none]
    intro x hx
    rw [hth2] at hx
    have hx1 : x.id ≠ env3.newThesisId := by
      rcases mem_replaceThesis hx with hx | rfl
      · rw [hth1] at hx
        rcases List.mem_append.mp hx with hx | hx
        · exact findThesisById_none hfresh3 x hx
        · rw [List.mem_singleton.mp hx]
          exact fun e => hne e.symm
      · exact fun e => hne e.symm
    simpa using hx1
  have p1 : submit.originalThesisId = some env1.newThesisId.hex := by rw [hsubmit]
  have p2 : submit.studentId = some s := by rw [hsubmit]
  have p3 : submit.fileUrl = some u2 := by rw [hsubmit]
  have p4 : submit.studentName = none := by rw [hsubmit]
  have hmatch : studentIdMatch env3.lowerCase
      (markRequested env2 (initialThesis env1 upload supervisor.id) r
        supervisor.id.hex).studentId s = true := by
    simp [studentIdMatch, markRequested, initialThesis, hupload]
  have hacc := submitAccepted_of_conditions (reachable_inv hreach2).2 p1 p2 hs p3 hu2
    (castObjectId_hex env1.newThesisId) hfound2 hmatch rfl hpop2
    (fun n' hn' => by rw [p4] at hn'; cases hn') hfresh2 hnotif3
  have hsub := submitResubmission_of_accepted hacc
  rw [hrun3] at hsub
  obtain ⟨hst3, hresp3⟩ := Prod.mk.inj hsub
  have hinv2 := (reachable_inv hreach2).1
  have hinv1 := (reachable_inv hreach1).1
  -- the version of the created record
  have hversion : highestVersion st2.theses
      (markRequested env2 (initialThesis env1 upload supervisor.id) r supervisor.id.hex)
      env1.newThesisId = 1 := by
    have hl := highestVersion_eq_chain_length hinv2 (findThesisById_some hfound2).1
    have hlen : (chainOf st2.theses env1.newThesisId).length = 1 := by
      rw [chain_length_links, hth2,
        hinv1.links_replace (initialThesis env1 upload supervisor.id)
          (markRequested env2 (initialThesis env1 upload supervisor.id) r supervisor.id.hex)
          (findThesisById_some hfound1).1 rfl,
        hth1, List.map_append, List.filter_append,
        hinv.filter_fresh (fresh_links hfresh1)]
      simp [Link.memberOf, Thesis.link, initialThesis]
    exact hl.trans hlen
  have hth3 : st3.theses = replaceThesis
      (st2.theses ++ [resubmittedThesis env3 st2.theses submit
        (markRequested env2 (initialThesis env1 upload supervisor.id) r supervisor.id.hex)
        env1.newThesisId])
      (markResubmitted env3
        (markRequested env2 (initialThesis env1 upload supervisor.id) r
          supervisor.id.hex)) := by
    rw [hst3]
  have hfile : (initialThesis env1 upload supervisor.id).fileUrl = u1 := by
    simp [initialThesis, hupload]
  refine ⟨by rw [hresp1], by rw [hresp2], by rw [hresp3], ?_, ?_, ?_, ?_⟩
  · exact ⟨_, hfound1, rfl, rfl, hfile⟩
  · exact ⟨_, hfound2, rfl, rfl⟩
  · refine ⟨markResubmitted env3
      (markRequested env2 (initialThesis env1 upload supervisor.id) r supervisor.id.hex),
      ?_, rfl, rfl, rfl⟩
    rw [hth3]
    exact findThesisById_replaceThesis (findThesisById_append_of_some hfound2 _)
  · refine ⟨resubmittedThesis env3 st2.theses submit
      (markRequested env2 (initialThesis env1 upload supervisor.id) r supervisor.id.hex)
      env1.newThesisId, by rw [hresp3], ?_, ?_, rfl, ?_⟩
    · have hm : resubmittedThesis env3 st2.theses submit
          (markRequested env2 (initialThesis env1 upload supervisor.id) r supervisor.id.hex)
          env1.newThesisId ∈ st3.theses := by
        rw [hth3]
        apply mem_replaceThesis_of_ne
        · simp
        · exact hne
      exact find_of_mem (reachable_inv hreach3).1 hm
    · show highestVersion _ _ _ + 1 = 2
      rw [hversion]
    · exact ⟨snapshot
        (markRequested env2 (initialThesis env1 upload supervisor.id) r supervisor.id.hex),
        rfl, rfl, hfile⟩

/-- Witness of C5 on the sample run. -/
theorem upload_request_resubmit_witness :
    (submitResubmission sampleEnv3 sampleStore2 sampleSubmit).2.status = 201 ∧
      ∃ created, (submitResubmission sampleEnv3 sampleStore2 sampleSubmit).2.thesis =
          some created ∧
        findThesisById sampleStore3.theses sampleEnv3.newThesisId = some created ∧
        created.version = 2 ∧ created.status = Status.underReview ∧
        ∃ entry, created.submissionHistory = [entry] ∧ entry.version = 1 ∧
          entry.fileUrl = "u1.pdf" :=
  have run := upload_request_resubmit sampleStore0 (Reachable.init [sampleFaculty]) sampleEnv1
    sampleEnv2 sampleEnv3 sampleFaculty "Ann" "s1" "CS" "u1.pdf" "missing citations" "u2.pdf"
    sampleUpload sampleRequest sampleSubmit sampleStore1 sampleStore2 sampleStore3
    (uploadThesis sampleEnv1 sampleStore0 sampleUpload).2
    (requestResubmission sampleEnv2 sampleStore1 sampleRequest).2
    (submitResubmission sampleEnv3 sampleStore2 sampleSubmit).2
    (by decide) (by decide) (by decide) (by decide) (by decide) (by decide) (by decide)
    (by decide) (by decide) (by decide) (by decide) (by decide) rfl rfl rfl rfl rfl rfl rfl
    rfl
  ⟨run.2.2.1, run.2.2.2.2.2.2⟩

/-! ## The identity check of `submitResubmission` -/

theorem includes_iff (hay needle : String) :
    includes hay needle = true ↔ List.IsInfix needle.data hay.data := by
  unfold includes
  rw [List.any_eq_true, List.infix_iff_prefix_suffix]
  constructor
  · rintro ⟨t, ht, hp⟩
    exact ⟨t, List.isPrefixOf_iff_prefix.mp hp, (List.mem_tails t hay.data).mp ht⟩
  · rintro ⟨t, hp, ht⟩
    exact ⟨t, (List.mem_tails t hay.data).mpr ht, List.isPrefixOf_iff_prefix.mpr hp⟩

theorem studentIdMatch_iff (lower : String → String) (a b : String) :
    studentIdMatch lower a b = true ↔
      (lower a = lower b ∨ List.IsInfix a.data b.data ∨
        List.IsInfix b.data a.data) := by
  unfold studentIdMatch
  simp only [Bool.or_eq_true, decide_eq_true_eq, includes_iff]
  constructor
  · rintro (((h | h) | h) | h)
    · exact Or.inl (by rw [h])
    · exact Or.inl h
    · exact Or.inr (Or.inl h)
    · exact Or.inr (Or.inr h)
  · rintro (h | h | h)
    · exact Or.inl (Or.inl (Or.inr h))
    · exact Or.inl (Or.inr h)
    · exact Or.inr h

/-- C11: for a request with non-empty fields whose thesis exists, with `a` the studentId of
the original and `b` the one of the request, the identity check of `submitResubmission`
passes exactly when the texts are equal after `toLowerCase` (the method of the engine,
`env.lowerCase`, whatever its case table), or `a` occurs in `b`, or `b` occurs in `a`; the
handler answers 403 exactly when the check fails, and then returns the store as it was. -/
theorem submitResubmission_identity_check (env : Env) (st : State) (req : SubmitRequest)
    (i b f : String) (oid : ObjectId) (original : Thesis)
    (hi : req.originalThesisId = some i) (hi' : i ≠ "")
    (hb : req.studentId = some b) (hb' : b ≠ "")
    (hf : req.fileUrl = some f) (hf' : f ≠ "")
    (hcast : castObjectId i = some oid)
    (hfound : findThesisById st.theses oid = some original) :
    (studentIdMatch env.lowerCase original.studentId b = true ↔
        (env.lowerCase original.studentId = env.lowerCase b ∨
          List.IsInfix original.studentId.data b.data ∨
          List.IsInfix b.data original.studentId.data)) ∧
      ((submitResubmission env st req).2.status = 403 ↔
        studentIdMatch env.lowerCase original.studentId b = false) ∧
      (studentIdMatch env.lowerCase original.studentId b = false →
        submitResubmission env st req =
          (st, { status := 403, success := false,
                 message := "Not authorized to resubmit this thesis. Original studentId: " ++
                   original.studentId ++ ", Request studentId: " ++ b,
                 thesis := none })) := by
  have h1 : truthy req.originalThesisId = true := by simp [hi, truthy, hi']
  have h2 : truthy req.studentId = true := by simp [hb, truthy, hb']
  have h3 : truthy req.fileUrl = true := by simp [hf, truthy, hf']
  have hc : castObjectId (req.originalThesisId.getD "") = some oid := by simpa [hi] using hcast
  have hg : req.studentId.getD "" = b := by simp [hb]
  have hfail : studentIdMatch env.lowerCase original.studentId b = false →
      submitResubmission env st req =
        (st, { status := 403, success := false,
               message := "Not authorized to resubmit this thesis. Original studentId: " ++
                 original.studentId ++ ", Request studentId: " ++ b,
               thesis := none }) := by
    intro hm
    simp [submitResubmission, h1, h2, h3, hc, hfound, hg, hm, failure]
  refine ⟨studentIdMatch_iff _ _ _, ⟨?_, ?_⟩, hfail⟩
  · intro hs
    by_contra hm
    have h4 : studentIdMatch env.lowerCase original.studentId b = true := by simpa using hm
    by_cases h5 : original.resubmissionRequested = true
    swap
    · simp [submitResubmission, h1, h2, h3, hc, hfound, hg, h4, h5, failure] at hs
    cases hp : findUserById st.users original.supervisorId with
    | none =>
      simp [submitResubmission, h1, h2, h3, hc, hfound, hg, h4, h5, hp, failure,
        serverError] at hs
    | some supervisor =>
      by_cases h6 : validThesis (resubmittedThesis env st.theses req original oid) = true
      swap
      · simp [submitResubmission, h1, h2, h3, hc, hfound, hg, h4, h5, hp, h6, failure,
          serverError] at hs
      cases h7 : findThesisById st.theses
          (resubmittedThesis env st.theses req original oid).id with
      | some d =>
        simp [submitResubmission, h1, h2, h3, hc, hfound, hg, h4, h5, hp, h6, h7, failure,
          serverError] at hs
      | none =>
        by_cases h8 : validThesis (markResubmitted env original) = true
        swap
        · simp [submitResubmission, h1, h2, h3, hc, hfound, hg, h4, h5, hp, h6, h7, h8,
            failure, serverError] at hs
        by_cases h9 : env.notificationSaves = true
        · simp [submitResubmission, h1, h2, h3, hc, hfound, hg, h4, h5, hp, h6, h7, h8, h9,
            failure, serverError] at hs
        · simp [submitResubmission, h1, h2, h3, hc, hfound, hg, h4, h5, hp, h6, h7, h8, h9,
            failure, serverError] at hs
  · intro hm
    rw [hfail hm]

/-- Witness of C11: on the sample store the studentId "S1" passes against "s1" by letter
case. -/
theorem submitResubmission_identity_check_witness :
    studentIdMatch sampleEnv3.lowerCase sampleOriginal.studentId "S1" = true ↔
      (sampleEnv3.lowerCase sampleOriginal.studentId = sampleEnv3.lowerCase "S1" ∨
        List.IsInfix sampleOriginal.studentId.data "S1".data ∨
        List.IsInfix "S1".data sampleOriginal.studentId.data) :=
  (submitResubmission_identity_check sampleEnv3 sampleStore2
    { sampleSubmit with studentId := some "S1" } "0000000000000000000000b1" "S1" "u2.pdf"
    sampleThesisId1 sampleOriginal rfl (by decide) rfl (by decide) rfl (by decide)
    (by decide) (by decide)).1

/-- With a case mapping that covers Latin-1, as the engine's does, a resubmission sent
with the studentId "É1" against the thesis of "é1" passes the identity check and is
answered 201. -/
theorem submitResubmission_accented_accepted :
    (findThesisById sampleAccentStore.theses sampleThesisId1).map (fun t => t.studentId) =
        some "é1" ∧
      studentIdMatch sampleEnvLatin.lowerCase "é1" "É1" = true ∧
      (submitResubmission sampleEnvLatin sampleAccentStore
        { sampleSubmit with studentId := some "É1" }).2.status = 201 := by
  decide

/-! ## What `requestResubmission` does when it answers 200 -/

/-- The conditions `requestResubmission` has met when it answers 200, and its outcome. -/
theorem requestResubmission_accepted {env : Env} {st : State} {req : ResubmissionRequest}
    (h : (requestResubmission env st req).2.status = 200) :
    ∃ i r f tid thesis supervisor,
      req.thesisId = some i ∧ req.reason = some r ∧ r ≠ "" ∧ req.facultyId = some f ∧
      castObjectId i = some tid ∧ findThesisById st.theses tid = some thesis ∧
      findUserById st.users thesis.supervisorId = some supervisor ∧
      thesis.supervisorId.hex = f ∧ validThesis thesis = true ∧
      env.notificationSaves = true := by
  cases hi : req.thesisId with
  | none => simp [requestResubmission, hi, truthy, failure] at h
  | some i =>
    cases hr : req.reason with
    | none => simp [requestResubmission, hi, hr, truthy, failure] at h
    | some r =>
      cases hf : req.facultyId with
      | none => simp [requestResubmission, hi, hr, hf, truthy, failure] at h
      | some f =>
        by_cases hi' : i = ""
        · simp [requestResubmission, hi, hr, hf, truthy, hi', failure] at h
        by_cases hr' : r = ""
        · simp [requestResubmission, hi, hr, hf, truthy, hi', hr', failure] at h
        by_cases hf' : f = ""
        · simp [requestResubmission, hi, hr, hf, truthy, hi', hr', hf', failure] at h
        cases hc : castObjectId i with
        | none =>
          simp [requestResubmission, hi, hr, hf, truthy, hi', hr', hf', hc, failure,
            serverError] at h
        | some tid =>
          cases hfd : findThesisById st.theses tid with
          | none =>
            simp [requestResubmission, hi, hr, hf, truthy, hi', hr', hf', hc, hfd,
              failure] at h
          | some thesis =>
            cases hp : findUserById st.users thesis.supervisorId with
            | none =>
              simp [requestResubmission, hi, hr, hf, truthy, hi', hr', hf', hc, hfd, hp,
                failure, serverError] at h
            | some supervisor =>
              by_cases hs : thesis.supervisorId.hex = f
              swap
              · simp [requestResubmission, hi, hr, hf, truthy, hi', hr', hf', hc, hfd, hp, hs,
                  failure] at h
              by_cases hv : validThesis (markRequested env thesis r f) = true
              swap
              · simp [requestResubmission, hi, hr, hf, truthy, hi', hr', hf', hc, hfd, hp, hs,
                  hv, failure, serverError] at h
              by_cases hn : env.notificationSaves = true
              swap
              · simp [requestResubmission, hi, hr, hf, truthy, hi', hr', hf', hc, hfd, hp, hs,
                  hv, hn, failure, serverError] at h
              exact ⟨i, r, f, tid, thesis, supervisor, rfl, rfl, hr', rfl, hc, hfd, hp, hs,
                hv, hn⟩

/-- A `requestResubmission` that does not answer 200 stores no notification. -/
theorem requestResubmission_notifications_of_failure (env : Env) (st : State)
    (req : ResubmissionRequest) (h : (requestResubmission env st req).2.status ≠ 200) :
    (requestResubmission env st req).1.notifications = st.notifications := by
  by_cases h1 : (!truthy req.thesisId || !truthy req.reason || !truthy req.facultyId) = true
  · simp [requestResubmission, h1]
  cases h2 : castObjectId (req.thesisId.getD "") with
  | none => simp [requestResubmission, h1, h2]
  | some tid =>
    cases h3 : findThesisById st.theses tid with
    | none => simp [requestResubmission, h1, h2, h3]
    | some thesis =>
      cases h4 : findUserById st.users thesis.supervisorId with
      | none => simp [requestResubmission, h1, h2, h3, h4]
      | some supervisor =>
        by_cases h5 : thesis.supervisorId.hex = req.facultyId.getD ""
        swap
        · simp [requestResubmission, h1, h2, h3, h4, h5]
        by_cases h6 : validThesis
            (markRequested env thesis (req.reason.getD "") (req.facultyId.getD "")) = true
        swap
        · simp [requestResubmission, h1, h2, h3, h4, h5, h6]
        by_cases h7 : env.notificationSaves = true
        · simp [requestResubmission, h1, h2, h3, h4, h5, h6, h7] at h
        · simp [requestResubmission, h1, h2, h3, h4, h5, h6, h7]

theorem includes_append_right (p r : String) : includes (p ++ r) r = true := by
  rw [includes_iff, String.data_append]
  exact (List.suffix_append p.data r.data).isInfix

/-- C18: a `requestResubmission` that answers 200 stores exactly one notification, whose
`email` and `userId` are the thesis's studentId, with type "resubmission_request",
priority "high", `relatedThesisId` the thesis named by the request, `read` and `delivered`
false, and a message that ends with the given reason; a call that does not answer 200
(`400`, `404`, `403` or `500`) stores none. -/
theorem requestResubmission_notification (env : Env) (st : State)
    (req : ResubmissionRequest) :
    ((requestResubmission env st req).2.status = 200 →
      ∃ i r tid thesis n,
        req.thesisId = some i ∧ castObjectId i = some tid ∧ req.reason = some r ∧
        findThesisById st.theses tid = some thesis ∧
        (requestResubmission env st req).1.notifications = st.notifications ++ [n] ∧
        n.email = some thesis.studentId ∧ n.userId = thesis.studentId ∧
        n.type = "resubmission_request" ∧ n.priority = "high" ∧
        n.relatedThesisId = tid ∧ n.read = false ∧ n.delivered = false ∧
        n.message =
          "Your supervisor has requested a resubmission of your thesis. Reason: " ++ r ∧
        includes n.message r = true) ∧
      ((requestResubmission env st req).2.status ≠ 200 →
        (requestResubmission env st req).1.notifications = st.notifications) := by
  refine ⟨?_, requestResubmission_notifications_of_failure env st req⟩
  intro h
  obtain ⟨i, r, f, tid, thesis, supervisor, hi, hr, hr', hf, hc, hfd, hp, hs, hv, hn⟩ :=
    requestResubmission_accepted h
  have heq := requestResubmission_of_conditions hi hr hr' hf hc hfd hp hs hv hn
  refine ⟨i, r, tid, thesis,
    requestNotification env (markRequested env thesis r f) supervisor tid r, hi, hc, hr, hfd,
    by rw [heq], rfl, rfl, rfl, rfl, rfl, rfl, rfl, rfl, ?_⟩
  exact includes_append_right _ r

/-- Witness of C18: the sample request stores one notification for the student "s1". -/
theorem requestResubmission_notification_witness :
    ∃ i r tid thesis n,
      sampleRequest.thesisId = some i ∧ castObjectId i = some tid ∧
      sampleRequest.reason = some r ∧
      findThesisById sampleStore1.theses tid = some thesis ∧
      (requestResubmission sampleEnv2 sampleStore1 sampleRequest).1.notifications =
        sampleStore1.notifications ++ [n] ∧
      n.email = some thesis.studentId ∧ n.userId = thesis.studentId ∧
      n.type = "resubmission_request" ∧ n.priority = "high" ∧
      n.relatedThesisId = tid ∧ n.read = false ∧ n.delivered = false ∧
      n.message =
        "Your supervisor has requested a resubmission of your thesis. Reason: " ++ r ∧
      includes n.message r = true :=
  (requestResubmission_notification sampleEnv2 sampleStore1 sampleRequest).1 (by decide)

/-- C19: a `submitResubmission` that answers 201 stores exactly one notification, whose
`email` and `userId` are those of the stored supervisor of the original thesis, with type
"resubmission_received", priority "medium", `relatedThesisId` the identifier of the created
thesis, which is not the original's, and a metadata object holding the created version and
the original's version. -/
theorem submitResubmission_notification (env : Env) (st : State) (req : SubmitRequest)
    (oid : ObjectId) (original created : Thesis)
    (hcast : castObjectId (req.originalThesisId.getD "") = some oid)
    (hfound : findThesisById st.theses oid = some original)
    (hok : (submitResubmission env st req).2.status = 201)
    (hcreated : (submitResubmission env st req).2.thesis = some created) :
    ∃ supervisor n,
      findUserById st.users original.supervisorId = some supervisor ∧
      (submitResubmission env st req).1.notifications = st.notifications ++ [n] ∧
      n.email = supervisor.email ∧ n.userId = supervisor.id.hex ∧
      n.type = "resubmission_received" ∧ n.priority = "medium" ∧
      n.relatedThesisId = created.id ∧ created.id ≠ original.id ∧
      n.metadata = NotificationMeta.received
        (if truthy req.studentName = true then req.studentName.getD ""
          else original.studentName)
        created.version original.version := by
  obtain ⟨oid', original', supervisor, hacc⟩ := submitResubmission_accepted hok
  have e1 : oid' = oid := Option.some.inj (hacc.cast.symm.trans hcast)
  subst e1
  have e2 : original' = original := Option.some.inj (hacc.found.symm.trans hfound)
  subst e2
  rw [submitResubmission_of_accepted hacc] at hcreated ⊢
  simp only [submitOutcome, Option.some.injEq] at hcreated ⊢
  subst hcreated
  refine ⟨supervisor, _, hacc.populated, rfl, rfl, rfl, rfl, rfl, rfl, ?_, ?_⟩
  · intro hid
    exact findThesisById_none hacc.fresh original' (findThesisById_some hfound).1 hid.symm
  · simp only [receivedNotification, orElse_eq]

/-- Witness of C19 on the sample resubmission. -/
theorem submitResubmission_notification_witness :
    ∃ supervisor n,
      findUserById sampleStore2.users sampleOriginal.supervisorId = some supervisor ∧
      (submitResubmission sampleEnv3 sampleStore2 sampleSubmit).1.notifications =
        sampleStore2.notifications ++ [n] ∧
      n.email = supervisor.email ∧ n.userId = supervisor.id.hex ∧
      n.type = "resubmission_received" ∧ n.priority = "medium" ∧
      n.relatedThesisId = sampleCreated.id ∧ sampleCreated.id ≠ sampleOriginal.id ∧
      n.metadata = NotificationMeta.received
        (if truthy sampleSubmit.studentName = true then sampleSubmit.studentName.getD ""
          else sampleOriginal.studentName)
        sampleCreated.version sampleOriginal.version :=
  submitResubmission_notification sampleEnv3 sampleStore2 sampleSubmit sampleThesisId1
    sampleOriginal sampleCreated (by decide) (by decide) (by decide) (by decide)

/-! ## The effect of `requestResubmission` -/

theorem replaceThesis_eq_map {l : List Thesis} (t' : Thesis)
    (hnd : (l.map (fun x : Thesis => x.id)).Nodup) :
    replaceThesis l t' = l.map (fun x => if x.id = t'.id then t' else x) := by
  induction l with
  | nil => rfl
  | cons a r ih =>
    rw [List.map_cons, List.nodup_cons] at hnd
    unfold replaceThesis
    by_cases ha : a.id = t'.id
    · simp only [ha, if_true, List.map_cons]
      congr 1
      conv_lhs => rw [← List.map_id r]
      apply List.map_congr_left
      intro x hx
      have hne : x.id ≠ t'.id := by
        intro hxe
        apply hnd.1
        rw [ha, ← hxe]
        exact List.mem_map_of_mem _ hx
      simp [hne]
    · simp only [ha, if_false, List.map_cons]
      rw [ih hnd.2]

theorem reachable_ids_nodup {st : State} (h : Reachable st) :
    (st.theses.map (fun x : Thesis => x.id)).Nodup := by
  have := (reachable_inv h).1.idsNodup
  rwa [List.map_map] at this

/-- C12, counterexample: the thesis of the reachable store `danglingStore` names the
supervisor `...ff`; a request with non-empty fields whose `facultyId` is that text is
answered 500 and leaves the store as it was. -/
theorem requestResubmission_fails_when_dangling :
    Reachable danglingStore ∧
      (findThesisById danglingStore.theses sampleThesisId1).map
        (fun t => t.supervisorId.hex) = danglingRequest.facultyId ∧
      (requestResubmission sampleEnv2 danglingStore danglingRequest).2.status = 500 ∧
      (requestResubmission sampleEnv2 danglingStore danglingRequest).1 = danglingStore :=
  ⟨Reachable.upload _ _ _ (Reachable.init _), by decide, by decide, by decide⟩

/-- C12, amended: in a reachable store, a request with non-empty `thesisId`, `reason` and
`facultyId` whose thesis exists, whose thesis names as supervisor a stored user, and whose
`facultyId` is that supervisor's identifier is answered 200 (the notification being
stored); afterwards the thesis has status "Resubmit", `resubmissionRequested = true`, the
faculty identifier as `resubmissionRequestedBy`, the reason as `resubmissionReason` and the
time of the call as `resubmissionRequestedAt` and `updatedAt`; its other fields and every
other thesis are unchanged. -/
theorem requestResubmission_effect (st : State) (h : Reachable st) (env : Env)
    (req : ResubmissionRequest) (i r f : String) (tid : ObjectId) (thesis : Thesis)
    (supervisor : User)
    (hi : req.thesisId = some i) (hr : req.reason = some r) (hr' : r ≠ "")
    (hf : req.facultyId = some f)
    (hcast : castObjectId i = some tid)
    (hfound : findThesisById st.theses tid = some thesis)
    (hpop : findUserById st.users thesis.supervisorId = some supervisor)
    (hsup : thesis.supervisorId.hex = f)
    (hnotif : env.notificationSaves = true) :
    (requestResubmission env st req).2.status = 200 ∧
      castObjectId f = some thesis.supervisorId ∧
      (requestResubmission env st req).1.theses = st.theses.map (fun x =>
        if x.id = tid then
          { thesis with
            status := Status.resubmit
            resubmissionRequested := true
            resubmissionRequestedAt := some env.now
            resubmissionRequestedBy := some thesis.supervisorId
            resubmissionReason := some r
            updatedAt := env.now }
        else x) := by
  obtain ⟨hmem, hid⟩ := findThesisById_some hfound
  have hvalid := ((reachable_inv h).2 thesis hmem).1
  have hcf : castObjectId f = some thesis.supervisorId := by
    rw [← hsup]
    exact castObjectId_hex _
  rw [requestResubmission_of_conditions hi hr hr' hf hcast hfound hpop hsup hvalid hnotif]
  refine ⟨rfl, hcf, ?_⟩
  simp only []
  rw [replaceThesis_eq_map _ (reachable_ids_nodup h)]
  simp only [markRequested, hcf, hid]

/-- Witness of C12 (amended): the sample request on the uploaded sample thesis. -/
theorem requestResubmission_effect_witness :
    (requestResubmission sampleEnv2 sampleStore1 sampleRequest).2.status = 200 ∧
      (requestResubmission sampleEnv2 sampleStore1 sampleRequest).1.theses =
        [sampleOriginal] :=
  have run := requestResubmission_effect sampleStore1
    (Reachable.upload sampleEnv1 sampleStore0 sampleUpload (Reachable.init [sampleFaculty]))
    sampleEnv2 sampleRequest "0000000000000000000000b1" "missing citations"
    "0000000000000000000000a1" sampleThesisId1
    { sampleOriginal with
      status := Status.underReview, resubmissionRequested := false,
      resubmissionRequestedAt := none, resubmissionRequestedBy := none,
      resubmissionReason := none, updatedAt := 10 }
    sampleFaculty rfl rfl (by decide) rfl (by decide) (by decide) (by decide) (by decide) rfl
  ⟨run.1, run.2.2.trans (by decide)⟩

/-- C20: `requestResubmission` is not guarded against repetition.  In a reachable store,
for a thesis that already has `resubmissionRequested = true`, a further request by its
supervisor (a stored user) with a non-empty reason `r2` is answered 200 and leaves the
thesis with status "Resubmit", `resubmissionRequested = true`, the reason `r2` and the
caller as `resubmissionRequestedBy`; the same request sent once more is answered 200 again
and leaves the same status, flag, requester and reason. -/
theorem requestResubmission_repeat (st : State) (h : Reachable st) (env env' : Env)
    (req : ResubmissionRequest) (i r2 f : String) (tid : ObjectId) (thesis : Thesis)
    (supervisor : User)
    (hi : req.thesisId = some i) (hr : req.reason = some r2) (hr' : r2 ≠ "")
    (hf : req.facultyId = some f)
    (hcast : castObjectId i = some tid)
    (hfound : findThesisById st.theses tid = some thesis)
    (hflag : thesis.resubmissionRequested = true)
    (hpop : findUserById st.users thesis.supervisorId = some supervisor)
    (hsup : thesis.supervisorId.hex = f)
    (hnotif : env.notificationSaves = true) (hnotif' : env'.notificationSaves = true) :
    thesis.resubmissionRequested = true ∧
      (requestResubmission env st req).2.status = 200 ∧
      castObjectId f = some thesis.supervisorId ∧
      ∃ once, findThesisById (requestResubmission env st req).1.theses tid = some once ∧
        once.status = Status.resubmit ∧ once.resubmissionRequested = true ∧
        once.resubmissionReason = some r2 ∧
        once.resubmissionRequestedBy = some thesis.supervisorId ∧
        (requestResubmission env' (requestResubmission env st req).1 req).2.status = 200 ∧
        ∃ twice,
          findThesisById
            (requestResubmission env' (requestResubmission env st req).1 req).1.theses tid =
              some twice ∧
          twice.status = once.status ∧
          twice.resubmissionRequested = once.resubmissionRequested ∧
          twice.resubmissionRequestedBy = once.resubmissionRequestedBy ∧
          twice.resubmissionReason = once.resubmissionReason := by
  obtain ⟨hmem, hid⟩ := findThesisById_some hfound
  subst hid
  have hvalid := ((reachable_inv h).2 thesis hmem).1
  have hcf : castObjectId f = some thesis.supervisorId := by
    rw [← hsup]
    exact castObjectId_hex _
  have heq := requestResubmission_of_conditions hi hr hr' hf hcast hfound hpop hsup hvalid
    hnotif
  have hth1 : (requestResubmission env st req).1.theses =
      replaceThesis st.theses (markRequested env thesis r2 f) := by rw [heq]
  have hus1 : (requestResubmission env st req).1.users = st.users := by rw [heq]
  have hfound1 : findThesisById (requestResubmission env st req).1.theses thesis.id =
      some (markRequested env thesis r2 f) := by
    rw [hth1]
    exact findThesisById_replaceThesis hfound
  have hpop1 : findUserById (requestResubmission env st req).1.users
      (markRequested env thesis r2 f).supervisorId = some supervisor := by
    rw [hus1]
    exact hpop
  have heq2 := requestResubmission_of_conditions hi hr hr' hf hcast hfound1 hpop1 hsup hvalid
    hnotif'
  have hfound2 : findThesisById
      (requestResubmission env' (requestResubmission env st req).1 req).1.theses thesis.id =
      some (markRequested env' (markRequested env thesis r2 f) r2 f) := by
    rw [heq2]
    exact findThesisById_replaceThesis hfound1
  refine ⟨hflag, by rw [heq], hcf, markRequested env thesis r2 f, hfound1, rfl, rfl, rfl, ?_,
    by rw [heq2], markRequested env' (markRequested env thesis r2 f) r2 f, hfound2, rfl, rfl,
    rfl, rfl⟩
  simp only [markRequested, hcf]

/-- Witness of C20: a second request on the first sample thesis, already flagged in
`sampleStore2`, is answered 200 and overwrites the reason. -/
theorem requestResubmission_repeat_witness :
    (requestResubmission sampleEnvAgain sampleStore2 sampleRequestAgain).2.status = 200 ∧
      findThesisById
        (requestResubmission sampleEnvAgain sampleStore2 sampleRequestAgain).1.theses
        sampleThesisId1 = some sampleRequestedTwice :=
  have run := requestResubmission_repeat sampleStore2
    (Reachable.request sampleEnv2 sampleStore1 sampleRequest
      (Reachable.upload sampleEnv1 sampleStore0 sampleUpload (Reachable.init [sampleFaculty])))
    sampleEnvAgain sampleEnvAgain sampleRequestAgain "0000000000000000000000b1" "more"
    "0000000000000000000000a1" sampleThesisId1 sampleOriginal sampleFaculty rfl rfl
    (by decide) rfl (by decide) (by decide) rfl (by decide) (by decide) rfl rfl
  ⟨run.2.1, by decide⟩

/-! ## A notification that cannot be stored -/

theorem findThesisById_replaceThesis_of_ne {l : List Thesis} {t' : Thesis} {i : ObjectId}
    (hne : i ≠ t'.id) : findThesisById (replaceThesis l t') i = findThesisById l i := by
  induction l with
  | nil => rfl
  | cons a r ih =>
    unfold replaceThesis
    by_cases ha : a.id = t'.id
    · have h1 : a.id ≠ i := fun e => hne (e.symm.trans ha)
      have h2 : t'.id ≠ i := fun e => hne e.symm
      simp [ha, findThesisById, List.find?_cons, h1, h2]
    · simp only [ha, if_false]
      unfold findThesisById at ih ⊢
      by_cases hi : a.id = i
      · simp [List.find?_cons, hi]
      · simp [List.find?_cons, hi, ih]

/-- The outcome of `requestResubmission` when only the notification write fails. -/
theorem requestResubmission_of_refused {env : Env} {st : State}
    {req : ResubmissionRequest} {i r f : String} {tid : ObjectId} {thesis : Thesis}
    {supervisor : User}
    (hi : req.thesisId = some i) (hr : req.reason = some r) (hr' : r ≠ "")
    (hf : req.facultyId = some f)
    (hcast : castObjectId i = some tid)
    (hfound : findThesisById st.theses tid = some thesis)
    (hpop : findUserById st.users thesis.supervisorId = some supervisor)
    (hsup : thesis.supervisorId.hex = f)
    (hvalid : validThesis thesis = true)
    (hnotif : env.notificationSaves = false) :
    requestResubmission env st req =
      ({ theses := replaceThesis st.theses (markRequested env thesis r f)
         users := st.users
         notifications := st.notifications }, serverError) := by
  have hi' : i ≠ "" := castObjectId_ne_empty hcast
  have hf' : f ≠ "" := by
    rw [← hsup]
    exact hex_ne_empty _
  have hv : validThesis (markRequested env thesis r f) = true := by
    rw [validThesis_markRequested]
    exact hvalid
  simp [requestResubmission, hi, hr, hf, truthy, hi', hr', hf', hcast, hfound, hpop, hsup, hv,
    hnotif]

/-- The outcome of `submitResubmission` when only the notification write fails. -/
theorem submitResubmission_of_refused {env : Env} {st : State} {req : SubmitRequest}
    {oid : ObjectId} {original : Thesis} {supervisor : User}
    (h : SubmitAccepted { env with notificationSaves := true } st req oid original supervisor)
    (hnotif : env.notificationSaves = false) :
    submitResubmission env st req =
      ({ theses := replaceThesis
           (st.theses ++ [resubmittedThesis env st.theses req original oid])
           (markResubmitted env original)
         users := st.users
         notifications := st.notifications }, serverError) := by
  have hcv : validThesis (resubmittedThesis env st.theses req original oid) = true :=
    h.createdValid
  have hov : validThesis (markResubmitted env original) = true := h.originalValid
  have hfresh : findThesisById st.theses (resubmittedThesis env st.theses req original oid).id
      = none := h.fresh
  simp [submitResubmission, h.hasId, h.hasStudent, h.hasFile, h.cast, h.found, h.idMatch,
    h.requested, h.populated, hcv, hfresh, hov, hnotif]

/-- C16, at the failing input: in the sample run, when the notification cannot be stored,
`requestResubmission` and `submitResubmission` answer 500 "Server error" without a thesis,
where the same calls with a notification collection that accepts the write answer 200 and
201. -/
theorem notification_failure_reaches_caller :
    (requestResubmission sampleEnv2 sampleStore1 sampleRequest).2.status = 200 ∧
      (requestResubmission sampleEnv2Refused sampleStore1 sampleRequest).2 = serverError ∧
      (submitResubmission sampleEnv3 sampleStore2 sampleSubmit).2.status = 201 ∧
      (submitResubmission sampleEnv3Refused sampleStore2 sampleSubmit).2 = serverError ∧
      serverError.status = 500 ∧ serverError.thesis = none := by
  decide

/-- C17: when the notification cannot be stored, the thesis writes are kept.  For a
`requestResubmission` and a `submitResubmission` that would succeed with a working
notification collection, the thesis collection after the call is the one of the successful
call: the requested thesis has status "Resubmit" and `resubmissionRequested = true`; the
new version is stored with the original as parent, and the original has status
"Resubmitted" and `resubmissionRequested = false`. -/
theorem notification_failure_keeps_writes (env : Env) (st : State)
    (hfail : env.notificationSaves = false) :
    (∀ (req : ResubmissionRequest) (tid : ObjectId),
        castObjectId (req.thesisId.getD "") = some tid →
        (requestResubmission { env with notificationSaves := true } st req).2.status = 200 →
        (requestResubmission env st req).1.theses =
            (requestResubmission { env with notificationSaves := true } st req).1.theses ∧
          ∃ t, findThesisById (requestResubmission env st req).1.theses tid = some t ∧
            t.status = Status.resubmit ∧ t.resubmissionRequested = true) ∧
      (∀ (req : SubmitRequest) (oid : ObjectId),
        castObjectId (req.originalThesisId.getD "") = some oid →
        (submitResubmission { env with notificationSaves := true } st req).2.status = 201 →
        (submitResubmission env st req).1.theses =
            (submitResubmission { env with notificationSaves := true } st req).1.theses ∧
          ∃ created original,
            findThesisById (submitResubmission env st req).1.theses env.newThesisId =
              some created ∧
            created.parentThesisId = some oid ∧ created.status = Status.underReview ∧
            findThesisById (submitResubmission env st req).1.theses oid = some original ∧
            original.status = Status.resubmitted ∧
            original.resubmissionRequested = false) := by
  constructor
  · intro req tid hcast hok
    obtain ⟨i, r, f, tid', thesis, supervisor, hi, hr, hr', hf, hc, hfd, hp, hs, hv, hn⟩ :=
      requestResubmission_accepted hok
    have e : tid' = tid := by
      rw [hi] at hcast
      exact Option.some.inj (hc.symm.trans hcast)
    subst e
    rw [requestResubmission_of_conditions hi hr hr' hf hc hfd hp hs hv hn,
      requestResubmission_of_refused hi hr hr' hf hc hfd hp hs hv hfail]
    have hid := (findThesisById_some hfd).2
    subst hid
    exact ⟨rfl, markRequested env thesis r f, findThesisById_replaceThesis hfd, rfl, rfl⟩
  · intro req oid hcast hok
    obtain ⟨oid', original, supervisor, hacc⟩ := submitResubmission_accepted hok
    have e : oid' = oid := Option.some.inj (hacc.cast.symm.trans hcast)
    subst e
    rw [submitResubmission_of_accepted hacc, submitResubmission_of_refused hacc hfail]
    obtain ⟨hmem, hid⟩ := findThesisById_some hacc.found
    subst hid
    have hfresh : findThesisById st.theses env.newThesisId = none := hacc.fresh
    have hne : env.newThesisId ≠ (markResubmitted env original).id :=
      fun e => findThesisById_none hfresh original hmem e.symm
    refine ⟨rfl, resubmittedThesis env st.theses req original original.id,
      markResubmitted env original, ?_, rfl, rfl, ?_, rfl, rfl⟩
    · show findThesisById (replaceThesis _ _) env.newThesisId = _
      rw [findThesisById_replaceThesis_of_ne hne, findThesisById_append_of_none hfresh]
      simp [findThesisById, resubmittedThesis]
    · exact findThesisById_replaceThesis (findThesisById_append_of_some hacc.found _)

/-- Witness of C17: the sample request with a notification collection that refuses the
write leaves the thesis collection of the successful request. -/
theorem notification_failure_keeps_writes_witness :
    (requestResubmission sampleEnv2Refused sampleStore1 sampleRequest).1.theses =
        (requestResubmission { sampleEnv2Refused with notificationSaves := true } sampleStore1
          sampleRequest).1.theses ∧
      ∃ t, findThesisById
          (requestResubmission sampleEnv2Refused sampleStore1 sampleRequest).1.theses
          sampleThesisId1 = some t ∧
        t.status = Status.resubmit ∧ t.resubmissionRequested = true :=
  (notification_failure_keeps_writes sampleEnv2Refused sampleStore1 rfl).1 sampleRequest
    sampleThesisId1 (by decide) (by decide)

/-! ## Outstanding requests -/

theorem atMostOne_append_unflagged {l : List Thesis} (h : AtMostOneRequested l) {t : Thesis}
    (ht : t.resubmissionRequested = false) : AtMostOneRequested (l ++ [t]) := by
  intro a ha b hb hs hfa hfb
  rcases List.mem_append.mp ha with ha | ha
  · rcases List.mem_append.mp hb with hb | hb
    · exact h a ha b hb hs hfa hfb
    · rw [List.mem_singleton.mp hb, ht] at hfb
      cases hfb
  · rw [List.mem_singleton.mp ha, ht] at hfa
    cases hfa

theorem atMostOne_replace_unflagged {l : List Thesis} (h : AtMostOneRequested l)
    {t' : Thesis} (ht : t'.resubmissionRequested = false) :
    AtMostOneRequested (replaceThesis l t') := by
  intro a ha b hb hs hfa hfb
  rcases mem_replaceThesis ha with ha | rfl
  · rcases mem_replaceThesis hb with hb | rfl
    · exact h a ha b hb hs hfa hfb
    · rw [ht] at hfb
      cases hfb
  · rw [ht] at hfa
    cases hfa

theorem atMostOne_replace_guarded {l : List Thesis} (h : AtMostOneRequested l) {t' : Thesis}
    (hg : ∀ x ∈ l, x.studentId = t'.studentId → x.resubmissionRequested = true →
      x.id = t'.id) :
    AtMostOneRequested (replaceThesis l t') := by
  intro a ha b hb hs hfa hfb
  rcases mem_replaceThesis ha with ha' | hae
  · rcases mem_replaceThesis hb with hb' | hbe
    · exact h a ha' b hb' hs hfa hfb
    · rw [hbe] at hs ⊢
      exact hg a ha' hs hfa
  · rcases mem_replaceThesis hb with hb' | hbe
    · rw [hae] at hs ⊢
      exact (hg b hb' hs.symm hfb).symm
    · rw [hae, hbe]

/-- The thesis collection after `requestResubmission`, with the thesis named by the
request. -/
theorem requestResubmission_theses_named (env : Env) (st : State)
    (req : ResubmissionRequest) :
    (requestResubmission env st req).1.theses = st.theses ∨
      ∃ tid thesis, castObjectId (req.thesisId.getD "") = some tid ∧
        findThesisById st.theses tid = some thesis ∧
        (requestResubmission env st req).1.theses = replaceThesis st.theses
          (markRequested env thesis (req.reason.getD "") (req.facultyId.getD "")) := by
  by_cases h1 : (!truthy req.thesisId || !truthy req.reason || !truthy req.facultyId) = true
  · exact Or.inl (by simp [requestResubmission, h1])
  cases h2 : castObjectId (req.thesisId.getD "") with
  | none => exact Or.inl (by simp [requestResubmission, h1, h2])
  | some tid =>
    cases h3 : findThesisById st.theses tid with
    | none => exact Or.inl (by simp [requestResubmission, h1, h2, h3])
    | some thesis =>
      cases h4 : findUserById st.users thesis.supervisorId with
      | none => exact Or.inl (by simp [requestResubmission, h1, h2, h3, h4])
      | some supervisor =>
        by_cases h5 : thesis.supervisorId.hex = req.facultyId.getD ""
        swap
        · exact Or.inl (by simp [requestResubmission, h1, h2, h3, h4, h5])
        by_cases h6 : validThesis
            (markRequested env thesis (req.reason.getD "") (req.facultyId.getD "")) = true
        swap
        · exact Or.inl (by simp [requestResubmission, h1, h2, h3, h4, h5, h6])
        refine Or.inr ⟨tid, thesis, rfl, h3, ?_⟩
        by_cases h7 : env.notificationSaves = true
        · simp [requestResubmission, h1, h2, h3, h4, h5, h6, h7]
        · simp [requestResubmission, h1, h2, h3, h4, h5, h6, h7]

theorem sampleStore4_reachable : Reachable sampleStore4 :=
  Reachable.request sampleEnv4 sampleStore3 sampleRequestOnSecond sampleStore3_reachable

/-- C13, counterexample: after the upload, a request and a resubmission, a request on
version 2 and then a request on version 1, both records of the student "s1" have
`resubmissionRequested = true`. -/
theorem two_requests_outstanding :
    Reachable twoRequestedStore ∧
      (twoRequestedStore.theses.filter (fun t =>
        decide (t.studentId = "s1") && t.resubmissionRequested)).map (fun t => t.id.hex) =
        ["0000000000000000000000b1", "0000000000000000000000b2"] :=
  ⟨Reachable.request sampleEnv6 sampleStore4 sampleRequest sampleStore4_reachable, by decide⟩

/-- C13, amended: in every store reached from the empty thesis collection by the handlers
in sequence, each `requestResubmission` being sent only while no other thesis of the same
`studentId` has `resubmissionRequested = true`, at most one thesis per `studentId` has
`resubmissionRequested = true`. -/
theorem guarded_at_most_one_requested (st : State) (h : GuardedReachable st) :
    AtMostOneRequested st.theses := by
  induction h with
  | init users => exact fun a ha => by cases ha
  | upload env st req _ ih =>
    rcases uploadThesis_theses env st req with h | ⟨sup, -, -, h⟩
    · rw [h]
      exact ih
    · rw [h]
      exact atMostOne_append_unflagged ih rfl
  | request env st req hguard _ ih =>
    rcases requestResubmission_theses_named env st req with h | ⟨tid, thesis, hc, hf, h⟩
    · rw [h]
      exact ih
    · rw [h]
      apply atMostOne_replace_guarded ih
      intro x hx hs hfx
      have hb : (castObjectId (req.thesisId.getD "")).bind (findThesisById st.theses) =
          some thesis := by
        rw [hc]
        exact hf
      unfold noOtherRequested at hguard
      rw [hb] at hguard
      simp only [List.all_eq_true, Bool.or_eq_true, Bool.not_eq_true', Bool.and_eq_false_iff,
        decide_eq_false_iff_not, decide_eq_true_eq] at hguard
      rcases hguard x hx with (hne | hff) | hid
      · exact absurd hs hne
      · rw [hfx] at hff
        cases hff
      · exact hid
  | resubmit env st req _ ih =>
    rcases submitResubmission_theses env st req with h | ⟨original, -, -, -, h | ⟨-, h⟩⟩
    · rw [h]
      exact ih
    · rw [h]
      exact atMostOne_append_unflagged ih rfl
    · rw [h]
      exact atMostOne_replace_unflagged (atMostOne_append_unflagged ih rfl) rfl
  | approve env st studentId _ ih =>
    unfold approveLatestThesis
    cases hl : latestThesisOf st.theses studentId with
    | none => exact ih
    | some t => exact atMostOne_replace_unflagged ih rfl
  | usersWritten st users _ ih => exact ih

/-- Witness of C13 (amended): the sample store after the guarded request. -/
theorem guarded_at_most_one_requested_witness : AtMostOneRequested sampleStore2.theses :=
  guarded_at_most_one_requested sampleStore2
    (GuardedReachable.request sampleEnv2 sampleStore1 sampleRequest (by decide)
      (GuardedReachable.upload sampleEnv1 sampleStore0 sampleUpload
        (GuardedReachable.init [sampleFaculty])))

/-! ## The version history -/

theorem sortByVersionDescending_perm (l : List Thesis) :
    (sortByVersionDescending l).Perm l :=
  List.perm_insertionSort _ l

theorem sortByVersionDescending_sorted (l : List Thesis) :
    (sortByVersionDescending l).Pairwise (fun a b => b.version ≤ a.version) :=
  @List.sorted_insertionSort Thesis (fun a b => b.version ≤ a.version) _
    ⟨fun a b => Nat.le_total b.version a.version⟩
    ⟨fun _ _ _ hab hbc => Nat.le_trans hbc hab⟩ l

/-- On a well-formed collection the history query for the root of a stored thesis returns
the chain of that root. -/
theorem versionHistoryQuery_eq_chain {l : List Thesis} (h : ChainInv (l.map Thesis.link))
    {t : Thesis} (ht : t ∈ l) :
    versionHistoryQuery l (t.originalSubmissionId.getD t.id) =
      chainOf l (t.originalSubmissionId.getD t.id) := by
  obtain ⟨-, r, hr, hrid, hro⟩ := h.root_of_member (List.mem_map_of_mem Thesis.link ht)
  have hrid' : r.id = t.originalSubmissionId.getD t.id := hrid
  unfold versionHistoryQuery chainOf
  apply List.filter_congr
  intro x hx
  by_cases hp : x.parentThesisId = some (t.originalSubmissionId.getD t.id)
  · obtain ⟨q, hq, hqid, hqo, -⟩ :=
      h.parentChain x.link (List.mem_map_of_mem Thesis.link hx) _ hp
    have hqr : q = r := h.eq_of_id_eq hq hr (hqid.trans hrid'.symm)
    rw [hqr, hro] at hqo
    have hxo : x.originalSubmissionId = some (t.originalSubmissionId.getD t.id) := by
      rw [← hrid']
      simpa using hqo
    simp [hxo]
  · simp [hp]

theorem getThesisVersionHistory_of_found {st : State} {thesisId : String} {t : Thesis}
    (hcast : castObjectId thesisId = some t.id)
    (hfound : findThesisById st.theses t.id = some t) :
    getThesisVersionHistory st thesisId =
      (st, HistoryResponse.ok
        (match t.originalSubmissionId with
          | some root => root.hex
          | none => thesisId)
        t.version
        (sortByVersionDescending
          (versionHistoryQuery st.theses (t.originalSubmissionId.getD t.id))).length
        (sortByVersionDescending
          (versionHistoryQuery st.theses (t.originalSubmissionId.getD t.id)))) := by
  simp [getThesisVersionHistory, hcast, hfound]

/-- C14: in a reachable store, for a stored thesis `t` with root identifier `root` (its
`originalSubmissionId`, or its own identifier when that is null), `getThesisVersionHistory`
answers with `versions` a rearrangement of exactly the stored records whose `_id`,
`originalSubmissionId` or `parentThesisId` is `root`, ordered by version non-increasing;
`totalVersions` is the number of records of the chain of `root`; the same list is returned
for every thesis of that chain; and the store is returned as it was. -/
theorem getThesisVersionHistory_chain (st : State) (h : Reachable st) (t : Thesis)
    (ht : t ∈ st.theses) (thesisId : String) (hcast : castObjectId thesisId = some t.id) :
    ∃ shown versions,
      getThesisVersionHistory st thesisId =
        (st, HistoryResponse.ok shown t.version versions.length versions) ∧
      versions.Perm (st.theses.filter (fun r =>
        decide (r.id = t.originalSubmissionId.getD t.id ∨
          r.originalSubmissionId = some (t.originalSubmissionId.getD t.id) ∨
          r.parentThesisId = some (t.originalSubmissionId.getD t.id)))) ∧
      versions.Pairwise (fun a b => b.version ≤ a.version) ∧
      versions.length = (chainOf st.theses (t.originalSubmissionId.getD t.id)).length ∧
      ∀ (t2 : Thesis) (id2 : String), t2 ∈ st.theses →
        t2.originalSubmissionId.getD t2.id = t.originalSubmissionId.getD t.id →
        castObjectId id2 = some t2.id →
        ∃ shown2, getThesisVersionHistory st id2 =
          (st, HistoryResponse.ok shown2 t2.version versions.length versions) := by
  have hinv := (reachable_inv h).1
  refine ⟨_, _, getThesisVersionHistory_of_found hcast (find_of_mem hinv ht), ?_,
    sortByVersionDescending_sorted _, ?_, ?_⟩
  · refine (sortByVersionDescending_perm _).trans ?_
    unfold versionHistoryQuery
    rw [List.filter_congr]
    intro x _
    simp [Bool.decide_or, Bool.or_assoc]
  · rw [(sortByVersionDescending_perm _).length_eq, versionHistoryQuery_eq_chain hinv ht]
  · intro t2 id2 ht2 hroot hcast2
    refine ⟨match t2.originalSubmissionId with
      | some root => root.hex
      | none => id2, ?_⟩
    rw [getThesisVersionHistory_of_found hcast2 (find_of_mem hinv ht2), hroot]

/-- Witness of C14: the history asked for version 2 of the sample chain of three. -/
theorem getThesisVersionHistory_chain_witness :
    ∃ shown versions,
      getThesisVersionHistory sampleStore5 "0000000000000000000000b2" =
        (sampleStore5,
          HistoryResponse.ok shown sampleSecondStored.version versions.length versions) ∧
      versions.length = (chainOf sampleStore5.theses
        (sampleSecondStored.originalSubmissionId.getD sampleSecondStored.id)).length :=
  have run := getThesisVersionHistory_chain sampleStore5 sampleStore5_reachable
    sampleSecondStored (by decide) "0000000000000000000000b2" (by decide)
  run.elim fun shown hv => hv.elim fun versions hall =>
    ⟨shown, versions, hall.1, hall.2.2.2.1⟩

/-! ## Approval when a report is sent -/

theorem latest_fold_bound (m : List Thesis) (init : Option Thesis) (t : Thesis)
    (h : m.foldl (fun best x =>
        match best with
        | none => some x
        | some b => if sortsBefore x b then some x else some b) init = some t) :
    (∀ b, init = some b →
        b.version < t.version ∨ (b.version = t.version ∧ b.createdAt ≤ t.createdAt)) ∧
      ∀ x ∈ m,
        x.version < t.version ∨ (x.version = t.version ∧ x.createdAt ≤ t.createdAt) := by
  induction m generalizing init with
  | nil =>
    refine ⟨?_, fun x hx => by cases hx⟩
    intro b hb
    rw [hb] at h
    simp only [List.foldl_nil, Option.some.injEq] at h
    rw [h]
    omega
  | cons a r ih =>
    simp only [List.foldl_cons] at h
    obtain ⟨h1, h2⟩ := ih _ h
    cases init with
    | none =>
      have ha := h1 a rfl
      refine ⟨fun b hb => (by cases hb), ?_⟩
      intro x hx
      rcases List.mem_cons.mp hx with rfl | hx
      · exact ha
      · exact h2 x hx
    | some b =>
      by_cases hs : sortsBefore a b = true
      · have ha := h1 a (by simp [hs])
        simp only [sortsBefore, Bool.or_eq_true, Bool.and_eq_true, decide_eq_true_eq] at hs
        refine ⟨?_, ?_⟩
        · intro b' hb'
          cases hb'
          omega
        · intro x hx
          rcases List.mem_cons.mp hx with rfl | hx
          · exact ha
          · exact h2 x hx
      · have hb := h1 b (by simp [hs])
        simp only [sortsBefore, Bool.or_eq_true, Bool.and_eq_true, decide_eq_true_eq] at hs
        refine ⟨?_, ?_⟩
        · intro b' hb'
          cases hb'
          exact hb
        · intro x hx
          rcases List.mem_cons.mp hx with rfl | hx
          · omega
          · exact h2 x hx

theorem latest_fold_isSome (m : List Thesis) (init : Option Thesis)
    (h : init.isSome = true ∨ m ≠ []) :
    (m.foldl (fun best x =>
        match best with
        | none => some x
        | some b => if sortsBefore x b then some x else some b) init).isSome = true := by
  induction m generalizing init with
  | nil =>
    rcases h with h | h
    · exact h
    · exact absurd rfl h
  | cons a r ih =>
    simp only [List.foldl_cons]
    apply ih
    left
    cases init with
    | none => rfl
    | some b => by_cases hs : sortsBefore a b = true <;> simp [hs]

/-- The thesis picked by the sorted query is a thesis of the student that no other thesis
of the student precedes in the order (version, createdAt). -/
theorem latestThesisOf_greatest {l : List Thesis} {s : String} {t : Thesis}
    (h : latestThesisOf l s = some t) :
    t ∈ l ∧ t.studentId = s ∧
      ∀ x ∈ l, x.studentId = s →
        x.version < t.version ∨ (x.version = t.version ∧ x.createdAt ≤ t.createdAt) := by
  have hmem : t ∈ l.filter (fun x => decide (x.studentId = s)) := by
    have key : ∀ (m : List Thesis) (init : Option Thesis),
        m.foldl (fun best x =>
          match best with
          | none => some x
          | some b => if sortsBefore x b then some x else some b) init = some t →
        init = some t ∨ t ∈ m := by
      intro m
      induction m with
      | nil => intro init hi; exact Or.inl hi
      | cons a r ih =>
        intro init hi
        simp only [List.foldl_cons] at hi
        rcases ih _ hi with h1 | h1
        · cases init with
          | none =>
            simp only [Option.some.injEq] at h1
            exact Or.inr (h1 ▸ List.mem_cons_self _ _)
          | some b =>
            simp only at h1
            split at h1
            · simp only [Option.some.injEq] at h1
              exact Or.inr (h1 ▸ List.mem_cons_self _ _)
            · exact Or.inl h1
        · exact Or.inr (List.mem_cons_of_mem _ h1)
    rcases key _ _ h with h1 | h1
    · cases h1
    · exact h1
  obtain ⟨hl, hs⟩ := List.mem_filter.mp hmem
  refine ⟨hl, by simpa using hs, ?_⟩
  intro x hx hxs
  exact (latest_fold_bound _ none t h).2 x (List.mem_filter.mpr ⟨hx, by simpa using hxs⟩)

theorem latestThesisOf_none_iff {l : List Thesis} {s : String} :
    latestThesisOf l s = none ↔ ∀ x ∈ l, x.studentId ≠ s := by
  constructor
  · intro h x hx hxs
    have hne : l.filter (fun x => decide (x.studentId = s)) ≠ [] :=
      List.ne_nil_of_mem (List.mem_filter.mpr ⟨hx, by simpa using hxs⟩)
    have := latest_fold_isSome _ none (Or.inr hne)
    unfold latestThesisOf at h
    rw [h] at this
    cases this
  · intro h
    have hnil : l.filter (fun x => decide (x.studentId = s)) = [] := by
      rw [List.filter_eq_nil_iff]
      intro x hx
      simpa using h x hx
    unfold latestThesisOf
    rw [hnil]
    rfl

/-- C15: when a thesis-evaluation report is sent (its identifier is that of a stored
report whose student is found among the users), with `s` the `studentId` of the updated
report, the route answers success; if a thesis with `studentId = s` exists, a thesis of `s`
that is greatest in the order (version, createdAt) gets status "Approved",
`resubmissionRequested = false` and the time of the call as `updatedAt`, and every other
thesis is unchanged; if none exists the thesis collection is unchanged.  Users and
notifications are untouched. -/
theorem sendReport_approves_latest (env : Env) (st : State) (reports : List Report)
    (id : String) (rid : ObjectId) (report : Report) (student : User) (s : String)
    (hnd : (st.theses.map (fun x : Thesis => x.id)).Nodup)
    (hcast : castObjectId id = some rid)
    (hreport : reports.find? (fun r => decide (r.id = rid)) = some report)
    (hstudent : st.users.find? (fun u => decide (u.studentId = some report.studentId)) =
      some student)
    (htype : report.reportType = ReportType.thesisEvaluation)
    (hs : orElse student.studentId report.studentId = s) :
    (sendReportToStudent env st reports id).2.status = 200 ∧
      (sendReportToStudent env st reports id).2.success = true ∧
      (sendReportToStudent env st reports id).2.report.map
        (fun r => (r.studentId, r.status)) = some (s, ReportStatus.sent) ∧
      (sendReportToStudent env st reports id).1.1.users = st.users ∧
      (sendReportToStudent env st reports id).1.1.notifications = st.notifications ∧
      ((∃ x ∈ st.theses, x.studentId = s) →
        ∃ t ∈ st.theses, t.studentId = s ∧
          (∀ x ∈ st.theses, x.studentId = s →
            x.version < t.version ∨ (x.version = t.version ∧ x.createdAt ≤ t.createdAt)) ∧
          (sendReportToStudent env st reports id).1.1.theses = st.theses.map (fun x =>
            if x.id = t.id then
              { t with
                status := Status.approved
                resubmissionRequested := false
                updatedAt := env.now }
            else x)) ∧
      ((∀ x ∈ st.theses, x.studentId ≠ s) →
        (sendReportToStudent env st reports id).1.1.theses = st.theses) := by
  have hrun : sendReportToStudent env st reports id =
      ((approveLatestThesis env st s,
        replaceReport reports
          { report with studentId := s, status := ReportStatus.sent, updatedAt := env.now }),
        { status := 200, success := true, message := "Report sent to student successfully",
          report := some
            { report with
              studentId := s, status := ReportStatus.sent, updatedAt := env.now } }) := by
    simp [sendReportToStudent, hcast, hreport, hstudent, htype, hs]
  rw [hrun]
  refine ⟨rfl, rfl, rfl, ?_, ?_, ?_, ?_⟩
  · show (approveLatestThesis env st s).users = st.users
    unfold approveLatestThesis
    cases latestThesisOf st.theses s <;> rfl
  · show (approveLatestThesis env st s).notifications = st.notifications
    unfold approveLatestThesis
    cases latestThesisOf st.theses s <;> rfl
  · rintro ⟨x, hx, hxs⟩
    cases hl : latestThesisOf st.theses s with
    | none => exact absurd hxs (latestThesisOf_none_iff.mp hl x hx)
    | some t =>
      obtain ⟨ht, hts, hmax⟩ := latestThesisOf_greatest hl
      refine ⟨t, ht, hts, hmax, ?_⟩
      show (approveLatestThesis env st s).theses = _
      unfold approveLatestThesis
      rw [hl]
      exact replaceThesis_eq_map (markApproved env t) hnd
  · intro hnone
    show (approveLatestThesis env st s).theses = st.theses
    unfold approveLatestThesis
    rw [latestThesisOf_none_iff.mpr hnone]

/-- Witness of C15: sending the sample report approves version 2 of the sample chain. -/
theorem sendReport_approves_latest_witness :
    (sendReportToStudent sampleEnvSend sampleStoreWithStudent [sampleReport]
        "0000000000000000000000d1").2.status = 200 ∧
      (sendReportToStudent sampleEnvSend sampleStoreWithStudent [sampleReport]
        "0000000000000000000000d1").1.1.theses =
        [sampleOriginalAfter, markApproved sampleEnvSend sampleCreated] :=
  have run := sendReport_approves_latest sampleEnvSend sampleStoreWithStudent [sampleReport]
    "0000000000000000000000d1" sampleReport.id sampleReport sampleStudent "s1" (by decide)
    (by decide) (by decide) (by decide) rfl (by decide)
  ⟨run.1, by decide⟩

/-! ## The supervisor test and the outcome of `uploadThesis` -/

/-- How `resolveSupervisor` finds a user: by identifier, or else as a stored user whose
`email` or `fullName` is the given text. -/
theorem resolveSupervisor_some {users : List User} {f : String} {u : User}
    (h : resolveSupervisor users f = some u) :
    (∃ oid, castObjectId f = some oid ∧ findUserById users oid = some u) ∨
      (((castObjectId f).bind (findUserById users)) = none ∧ u ∈ users ∧
        (u.email = some f ∨ u.fullName = some f)) := by
  unfold resolveSupervisor at h
  cases hb : (castObjectId f).bind (findUserById users) with
  | some v =>
    rw [hb] at h
    simp only [Option.some.injEq] at h
    subst h
    left
    cases hc : castObjectId f with
    | none => simp [hc] at hb
    | some oid => exact ⟨oid, rfl, by simpa [hc] using hb⟩
  | none =>
    rw [hb] at h
    simp only at h
    right
    refine ⟨rfl, List.mem_of_find?_eq_some h, ?_⟩
    have hp := List.find?_some h
    simpa using hp

/-- C21: for an `uploadThesis` request with a non-empty `fileUrl` and `supervisorId`, an
answer 201 implies that `supervisorId` resolved (by user identifier, or else as the `email`
or `fullName` of a stored user) to a user whose role is "faculty" in lower case; and when
no user is resolved, or the resolved user's role is anything else, the answer is 400
"Invalid supervisor selected" and the store is returned as it was. -/
theorem uploadThesis_supervisor_check (env : Env) (st : State) (req : UploadRequest)
    (f : String) (hfile : truthy req.fileUrl = true) (hf : req.supervisorId = some f)
    (hf' : f ≠ "") :
    ((uploadThesis env st req).2.status = 201 →
        ∃ u, resolveSupervisor st.users f = some u ∧
          toLowerCase (u.role.getD "") = "faculty" ∧
          ((∃ oid, castObjectId f = some oid ∧ findUserById st.users oid = some u) ∨
            (u ∈ st.users ∧ (u.email = some f ∨ u.fullName = some f)))) ∧
      ((resolveSupervisor st.users f = none ∨
          ∃ u, resolveSupervisor st.users f = some u ∧
            toLowerCase (u.role.getD "") ≠ "faculty") →
        uploadThesis env st req =
          (st, { status := 400, success := false, message := "Invalid supervisor selected",
                 thesis := none })) := by
  have h2 : truthy (some f) = true := by simp [truthy, hf']
  constructor
  · intro h
    cases h3 : resolveSupervisor st.users f with
    | none => simp [uploadThesis, hfile, h2, hf, h3, failure] at h
    | some u =>
      by_cases h4 : isFaculty u = true
      · refine ⟨u, rfl, by simpa [isFaculty] using h4, ?_⟩
        rcases resolveSupervisor_some h3 with hid | ⟨_, hm, hn⟩
        · exact Or.inl hid
        · exact Or.inr ⟨hm, hn⟩
      · simp [uploadThesis, hfile, h2, hf, h3, h4, failure] at h
  · rintro (h3 | ⟨u, h3, h4⟩)
    · simp [uploadThesis, hfile, h2, hf, h3, failure]
    · have h5 : isFaculty u = false := by simp [isFaculty, h4]
      simp [uploadThesis, hfile, h2, hf, h3, h5, failure]

/-- Witness of C21: the sample upload names the sample supervisor, whose role "Faculty"
passes the test. -/
theorem uploadThesis_supervisor_check_witness :
    ∃ u, resolveSupervisor sampleStore0.users "0000000000000000000000a1" = some u ∧
      toLowerCase (u.role.getD "") = "faculty" ∧
      ((∃ oid, castObjectId "0000000000000000000000a1" = some oid ∧
          findUserById sampleStore0.users oid = some u) ∨
        (u ∈ sampleStore0.users ∧ (u.email = some "0000000000000000000000a1" ∨
          u.fullName = some "0000000000000000000000a1"))) :=
  (uploadThesis_supervisor_check sampleEnv1 sampleStore0 sampleUpload
    "0000000000000000000000a1" (by decide) rfl (by decide)).1 (by decide)

/-- C22: an `uploadThesis` that answers 201 appends exactly one thesis to the stored
theses, with version 1, status "Under Review", `isResubmission` and
`resubmissionRequested` false, no parent, no original submission and an empty submission
history; the theses stored before are kept as they were, in place, and the users and the
notifications are unchanged. -/
theorem uploadThesis_success (env : Env) (st : State) (req : UploadRequest)
    (h : (uploadThesis env st req).2.status = 201) :
    ∃ t, (uploadThesis env st req).1.theses = st.theses ++ [t] ∧
      (uploadThesis env st req).2.thesis = some t ∧
      t.version = 1 ∧ t.status = Status.underReview ∧ t.status.text = "Under Review" ∧
      t.isResubmission = false ∧ t.resubmissionRequested = false ∧
      t.parentThesisId = none ∧ t.originalSubmissionId = none ∧
      t.submissionHistory = [] ∧
      (uploadThesis env st req).1.notifications = st.notifications ∧
      (uploadThesis env st req).1.users = st.users := by
  obtain ⟨_, sup, hv, heq⟩ := uploadThesis_created h
  have hresp : (uploadThesis env st req).2.thesis = some (initialThesis env req sup) := by
    have h' := h
    by_cases h1 : truthy req.fileUrl = true
    swap
    · simp [uploadThesis, h1, failure] at h
    by_cases h2 : truthy req.supervisorId = true
    swap
    · simp [uploadThesis, h1, h2, failure] at h
    cases h3 : resolveSupervisor st.users (req.supervisorId.getD "") with
    | none => simp [uploadThesis, h1, h2, h3, failure] at h
    | some u =>
      by_cases h4 : isFaculty u = true
      swap
      · simp [uploadThesis, h1, h2, h3, h4, failure] at h
      cases h5 : findThesisByStudent st.theses req.studentId with
      | some e => simp [uploadThesis, h1, h2, h3, h4, h5, failure] at h
      | none =>
        cases h6 : castObjectId (req.supervisorId.getD "") with
        | none => simp [uploadThesis, h1, h2, h3, h4, h5, h6, failure, serverError] at h
        | some sup' =>
          have hsup : sup' = sup := by
            have h9 := heq
            by_cases h7 : validThesis (initialThesis env req sup') = true
            swap
            · simp [uploadThesis, h1, h2, h3, h4, h5, h6, h7, failure, serverError] at h
            cases h8 : findThesisById st.theses (initialThesis env req sup').id with
            | some d =>
              simp [uploadThesis, h1, h2, h3, h4, h5, h6, h7, h8, failure, serverError] at h
            | none =>
              simp [uploadThesis, h1, h2, h3, h4, h5, h6, h7, h8] at h9
              have h10 := congrArg Thesis.supervisorId h9
              simpa [initialThesis] using h10
          subst hsup
          by_cases h7 : validThesis (initialThesis env req sup') = true
          swap
          · simp [uploadThesis, h1, h2, h3, h4, h5, h6, h7, failure, serverError] at h
          cases h8 : findThesisById st.theses (initialThesis env req sup').id with
          | some d =>
            simp [uploadThesis, h1, h2, h3, h4, h5, h6, h7, h8, failure, serverError] at h
          | none => simp [uploadThesis, h1, h2, h3, h4, h5, h6, h7, h8]
  refine ⟨initialThesis env req sup, by rw [heq], hresp, rfl, rfl, rfl, rfl, rfl, rfl, rfl, rfl,
    by rw [heq], by rw [heq]⟩

/-- Witness of C22: the sample upload on the store without theses. -/
theorem uploadThesis_success_witness :
    ∃ t, (uploadThesis sampleEnv1 sampleStore0 sampleUpload).1.theses =
        sampleStore0.theses ++ [t] ∧
      (uploadThesis sampleEnv1 sampleStore0 sampleUpload).2.thesis = some t ∧
      t.version = 1 ∧ t.status = Status.underReview ∧ t.status.text = "Under Review" ∧
      t.isResubmission = false ∧ t.resubmissionRequested = false ∧
      t.parentThesisId = none ∧ t.originalSubmissionId = none ∧
      t.submissionHistory = [] ∧
      (uploadThesis sampleEnv1 sampleStore0 sampleUpload).1.notifications =
        sampleStore0.notifications ∧
      (uploadThesis sampleEnv1 sampleStore0 sampleUpload).1.users = sampleStore0.users :=
  uploadThesis_success sampleEnv1 sampleStore0 sampleUpload (by decide)

/-! ## The notification metadata and the stored student identifier -/

/-- C30: a `requestResubmission` that answers 200 stores one notification whose metadata
holds the supervisor's name and, as `originalStatus`, the status "Resubmit" that the
thesis has after the update; whenever the status before the call was another one, the
recorded value is not that earlier status. -/
theorem requestResubmission_originalStatus (env : Env) (st : State)
    (req : ResubmissionRequest) (h : (requestResubmission env st req).2.status = 200) :
    ∃ i tid thesis supervisor n,
      req.thesisId = some i ∧ castObjectId i = some tid ∧
      findThesisById st.theses tid = some thesis ∧
      findUserById st.users thesis.supervisorId = some supervisor ∧
      (requestResubmission env st req).1.notifications = st.notifications ++ [n] ∧
      n.metadata = NotificationMeta.request supervisor.fullName Status.resubmit ∧
      Status.resubmit.text = "Resubmit" ∧
      (thesis.status ≠ Status.resubmit →
        n.metadata ≠ NotificationMeta.request supervisor.fullName thesis.status) := by
  obtain ⟨i, r, f, tid, thesis, supervisor, hi, hr, hr', hf, hc, hfd, hp, hs, hv, hn⟩ :=
    requestResubmission_accepted h
  have heq := requestResubmission_of_conditions hi hr hr' hf hc hfd hp hs hv hn
  refine ⟨i, tid, thesis, supervisor,
    requestNotification env (markRequested env thesis r f) supervisor tid r, hi, hc, hfd, hp,
    by rw [heq], rfl, rfl, ?_⟩
  intro hne heq'
  simp only [requestNotification, markRequested, NotificationMeta.request.injEq,
    true_and] at heq'
  exact hne heq'.symm

/-- Witness of C30: the sample request, made on a thesis "Under Review". -/
theorem requestResubmission_originalStatus_witness :
    ∃ i tid thesis supervisor n,
      sampleRequest.thesisId = some i ∧ castObjectId i = some tid ∧
      findThesisById sampleStore1.theses tid = some thesis ∧
      findUserById sampleStore1.users thesis.supervisorId = some supervisor ∧
      (requestResubmission sampleEnv2 sampleStore1 sampleRequest).1.notifications =
        sampleStore1.notifications ++ [n] ∧
      n.metadata = NotificationMeta.request supervisor.fullName Status.resubmit ∧
      Status.resubmit.text = "Resubmit" ∧
      (thesis.status ≠ Status.resubmit →
        n.metadata ≠ NotificationMeta.request supervisor.fullName thesis.status) :=
  requestResubmission_originalStatus sampleEnv2 sampleStore1 sampleRequest (by decide)

theorem sampleStore2_reachable : Reachable sampleStore2 :=
  Reachable.request sampleEnv2 sampleStore1 sampleRequest
    (Reachable.upload sampleEnv1 sampleStore0 sampleUpload (Reachable.init [sampleFaculty]))

/-- C29: every `submitResubmission` that answers 201 stores the request's `studentId` as
sent on the created thesis; and on the reachable store `sampleStore2`, whose first thesis
belongs to student "s1", a resubmission sent with studentId "S1" (another letter case) and
one sent with "s12" (containing the original's) are both answered 201 and create a thesis
in the chain of the first thesis whose `studentId` is not the original's. -/
theorem submitResubmission_studentId_verbatim :
    (∀ (env : Env) (st : State) (req : SubmitRequest) (created : Thesis),
        (submitResubmission env st req).2.status = 201 →
        (submitResubmission env st req).2.thesis = some created →
        some created.studentId = req.studentId ∧
          created ∈ (submitResubmission env st req).1.theses) ∧
      Reachable sampleStore2 ∧
      findThesisById sampleStore2.theses sampleThesisId1 = some sampleOriginal ∧
      (∀ req ∈ [sampleSubmitUpper, sampleSubmitLonger],
        castObjectId (req.originalThesisId.getD "") = some sampleThesisId1 ∧
        (submitResubmission sampleEnv3 sampleStore2 req).2.status = 201 ∧
        ∃ created, (submitResubmission sampleEnv3 sampleStore2 req).2.thesis = some created ∧
          created ∈ (submitResubmission sampleEnv3 sampleStore2 req).1.theses ∧
          created.originalSubmissionId = some (chainIdOf sampleOriginal sampleThesisId1) ∧
          created.parentThesisId = some sampleThesisId1 ∧
          some created.studentId = req.studentId ∧
          created.studentId ≠ sampleOriginal.studentId) := by
  refine ⟨?_, sampleStore2_reachable, by decide, ?_⟩
  · intro env st req created hok hcreated
    obtain ⟨oid, original, supervisor, hacc⟩ := submitResubmission_accepted hok
    have heq := submitResubmission_of_accepted hacc
    rw [heq] at hcreated
    simp only [submitOutcome, Option.some.injEq] at hcreated
    subst hcreated
    constructor
    · have hs := hacc.hasStudent
      cases hq : req.studentId with
      | none => simp [truthy, hq] at hs
      | some s => simp [resubmittedThesis, hq]
    · rw [heq]
      simp only [submitOutcome]
      apply mem_replaceThesis_of_ne
      · exact List.mem_append_right _ (List.mem_singleton_self _)
      · intro hid
        have hfresh := hacc.fresh
        have hfound := hacc.found
        obtain ⟨_, hoid⟩ := findThesisById_some hfound
        have hmem := (findThesisById_some hfound).1
        have : (markResubmitted env original).id = env.newThesisId := hid.symm
        exact findThesisById_none hfresh original hmem (by simpa [markResubmitted] using this)
  · intro req hreq
    simp only [List.mem_cons, List.mem_singleton, List.not_mem_nil, or_false] at hreq
    rcases hreq with rfl | rfl
    · exact ⟨by decide, by decide, _, rfl, by decide, by decide, by decide, by decide,
        by decide⟩
    · exact ⟨by decide, by decide, _, rfl, by decide, by decide, by decide, by decide,
        by decide⟩

/-! ## Well-formed chains in reachable stores -/

/-- In a reachable store every resubmission record names a parent. -/
theorem reachable_parent_of_resubmission {st : State} (h : Reachable st) :
    ∀ t ∈ st.theses, t.isResubmission = true → t.parentThesisId ≠ none := by
  induction h with
  | init users => intro t ht; cases ht
  | upload env st req _ ih =>
    rcases uploadThesis_theses env st req with h | ⟨sup, _, _, h⟩
    · rw [h]
      exact ih
    · rw [h]
      intro t ht hres
      rcases List.mem_append.mp ht with ht | ht
      · exact ih t ht hres
      · rw [List.mem_singleton.mp ht] at hres
        simp [initialThesis] at hres
  | request env st req _ ih =>
    rcases requestResubmission_theses env st req with h | ⟨tid, thesis, hfound, _, h⟩
    · rw [h]
      exact ih
    · rw [h]
      intro t ht hres
      rcases mem_replaceThesis ht with ht | rfl
      · exact ih t ht hres
      · exact ih thesis (findThesisById_some hfound).1 hres
  | resubmit env st req _ ih =>
    have key : ∀ original, original ∈ st.theses →
        ∀ t ∈ st.theses ++ [resubmittedThesis env st.theses req original original.id],
          t.isResubmission = true → t.parentThesisId ≠ none := by
      intro original _ t ht hres
      rcases List.mem_append.mp ht with ht | ht
      · exact ih t ht hres
      · rw [List.mem_singleton.mp ht]
        simp [resubmittedThesis]
    rcases submitResubmission_theses env st req with h | ⟨original, hfound, _, _, h | ⟨_, h⟩⟩
    · rw [h]
      exact ih
    · rw [h]
      exact key original (findThesisById_some hfound).1
    · rw [h]
      intro t ht hres
      rcases mem_replaceThesis ht with ht | rfl
      · exact key original (findThesisById_some hfound).1 t ht hres
      · exact ih original (findThesisById_some hfound).1 hres
  | approve env st studentId _ ih =>
    unfold approveLatestThesis
    cases hl : latestThesisOf st.theses studentId with
    | none => exact ih
    | some t0 =>
      intro t ht hres
      rcases mem_replaceThesis ht with ht | rfl
      · exact ih t ht hres
      · exact ih t0 (latestThesisOf_mem hl) hres
  | usersWritten st users _ ih => exact ih

theorem mem_of_link_mem {l : List Thesis} {k : Link} (h : k ∈ l.map Thesis.link) :
    ∃ t ∈ l, t.link = k := by
  obtain ⟨t, ht, hk⟩ := List.mem_map.mp h
  exact ⟨t, ht, hk⟩

/-- C27: in every store reached from the empty thesis collection by the handlers in
sequence, a record with `isResubmission` true names a parent and an original submission
that are both stored; the parent belongs to the same chain and has a strictly smaller
version; the original submission has version 1, `isResubmission` false and neither
pointer.  A record with `isResubmission` false has neither pointer and version 1. -/
theorem reachable_chain_wellformed (st : State) (h : Reachable st) (t : Thesis)
    (ht : t ∈ st.theses) :
    (t.isResubmission = true →
      ∃ parent ∈ st.theses, ∃ root ∈ st.theses,
        t.parentThesisId = some parent.id ∧ t.originalSubmissionId = some root.id ∧
        parent.originalSubmissionId.getD parent.id = root.id ∧
        parent ∈ chainOf st.theses root.id ∧ t ∈ chainOf st.theses root.id ∧
        parent.version < t.version ∧
        root.version = 1 ∧ root.isResubmission = false ∧ root.parentThesisId = none ∧
        root.originalSubmissionId = none) ∧
      (t.isResubmission = false →
        t.parentThesisId = none ∧ t.originalSubmissionId = none ∧ t.version = 1) := by
  have hinv := (reachable_inv h).1
  have hk : t.link ∈ st.theses.map Thesis.link := List.mem_map_of_mem _ ht
  constructor
  · intro hres
    cases hp : t.parentThesisId with
    | none => exact absurd hp (reachable_parent_of_resubmission h t ht hres)
    | some p =>
      obtain ⟨q, hq, hqid, hqo, hqv⟩ := hinv.parentChain t.link hk p hp
      obtain ⟨parent, hpm, rfl⟩ := mem_of_link_mem hq
      obtain ⟨_, r, hr, hrid, hro⟩ := hinv.originalRoot t.link hk _ hqo
      obtain ⟨root, hrm, rfl⟩ := mem_of_link_mem hr
      obtain ⟨hv1, hpn, hrf⟩ := hinv.rootShape root.link hr hro
      have hto : t.originalSubmissionId = some root.id := by
        have h1 : t.originalSubmissionId =
            some (parent.originalSubmissionId.getD parent.id) := hqo
        have h2 : root.id = parent.originalSubmissionId.getD parent.id := hrid
        rw [h1, h2]
      have hpo : parent.originalSubmissionId.getD parent.id = root.id := hrid.symm
      refine ⟨parent, hpm, root, hrm, ?_, hto, hpo, ?_, ?_, hqv, hv1, hrf, hpn, hro⟩
      · exact congrArg some hqid.symm
      · apply List.mem_filter.mpr
        refine ⟨hpm, ?_⟩
        cases hpo' : parent.originalSubmissionId with
        | none =>
          rw [hpo'] at hpo
          simp [← hpo]
        | some c =>
          rw [hpo'] at hpo
          simp at hpo
          simp [hpo]
      · apply List.mem_filter.mpr
        exact ⟨ht, by simp [hto]⟩
  · intro hres
    cases ho : t.originalSubmissionId with
    | some c =>
      have := (hinv.originalRoot t.link hk c ho).1
      have e : t.isResubmission = true := this
      rw [hres] at e
      cases e
    | none =>
      obtain ⟨hv1, hpn, _⟩ := hinv.rootShape t.link hk ho
      exact ⟨hpn, rfl, hv1⟩

/-- Witness of C27: version 2 of the sample chain, stored after the sample resubmission. -/
theorem reachable_chain_wellformed_witness :
    ∃ parent ∈ sampleStore3.theses, ∃ root ∈ sampleStore3.theses,
      sampleCreated.parentThesisId = some parent.id ∧
      sampleCreated.originalSubmissionId = some root.id ∧
      parent.originalSubmissionId.getD parent.id = root.id ∧
      parent ∈ chainOf sampleStore3.theses root.id ∧
      sampleCreated ∈ chainOf sampleStore3.theses root.id ∧
      parent.version < sampleCreated.version ∧
      root.version = 1 ∧ root.isResubmission = false ∧ root.parentThesisId = none ∧
      root.originalSubmissionId = none :=
  (reachable_chain_wellformed sampleStore3 sampleStore3_reachable sampleCreated
    (by decide)).1 rfl

/-! ## No handler rewrites the identity of a stored thesis -/

theorem keptAs_refl (t : Thesis) : t.keptAs t :=
  ⟨rfl, rfl, rfl, rfl, rfl, List.prefix_refl _⟩

theorem forall2_keptAs_refl (l : List Thesis) : List.Forall₂ Thesis.keptAs l l := by
  induction l with
  | nil => exact List.Forall₂.nil
  | cons a r ih => exact List.Forall₂.cons (keptAs_refl a) ih

theorem frame_refl (l : List Thesis) : Frame l l :=
  ⟨l, [], (List.append_nil l).symm, forall2_keptAs_refl l⟩

theorem frame_append (l added : List Thesis) : Frame l (l ++ added) :=
  ⟨l, added, rfl, forall2_keptAs_refl l⟩

/-- Writing back a record that stands for the first stored record of its identifier. -/
theorem forall2_keptAs_replace {l : List Thesis} {t' : Thesis}
    (h : ∀ x, findThesisById l t'.id = some x → x.keptAs t') :
    List.Forall₂ Thesis.keptAs l (replaceThesis l t') := by
  induction l with
  | nil => exact List.Forall₂.nil
  | cons a r ih =>
    unfold replaceThesis
    by_cases ha : a.id = t'.id
    · rw [if_pos ha]
      refine List.Forall₂.cons (h a ?_) (forall2_keptAs_refl r)
      simp [findThesisById, ha]
    · rw [if_neg ha]
      refine List.Forall₂.cons (keptAs_refl a) (ih ?_)
      intro x hx
      apply h
      simpa [findThesisById, ha] using hx

theorem replaceThesis_append_of_found {l : List Thesis} {t' x : Thesis}
    (h : findThesisById l t'.id = some x) (r : List Thesis) :
    replaceThesis (l ++ r) t' = replaceThesis l t' ++ r := by
  induction l with
  | nil => simp [findThesisById] at h
  | cons a s ih =>
    by_cases ha : a.id = t'.id
    · simp [replaceThesis, ha]
    · have hs : findThesisById s t'.id = some x := by
        simpa [findThesisById, ha] using h
      simp [replaceThesis, ha, ih hs]

theorem frame_approve (env : Env) (st : State) (studentId : String)
    (hnd : (st.theses.map (fun x : Thesis => x.id)).Nodup) :
    Frame st.theses (approveLatestThesis env st studentId).theses := by
  unfold approveLatestThesis
  cases hl : latestThesisOf st.theses studentId with
  | none => exact frame_refl _
  | some t =>
    refine ⟨_, [], (List.append_nil _).symm, forall2_keptAs_replace ?_⟩
    intro x hx
    obtain ⟨hxm, hxid⟩ := findThesisById_some hx
    have hx' : x = t :=
      List.inj_on_of_nodup_map hnd hxm (latestThesisOf_mem hl) (by simpa [markApproved] using hxid)
    subst hx'
    exact ⟨rfl, rfl, rfl, rfl, rfl, List.prefix_refl _⟩

/-- C23: on a store whose theses have distinct identifiers, each operation of the thesis
engine (`uploadThesis`, `requestResubmission`, `submitResubmission`,
`getThesisVersionHistory`, `checkResubmissionStatus` and the approval made when a report
is sent) returns a thesis collection that holds, position by position, a record for every
record stored before, with the same `_id`, `studentId`, `version`, `parentThesisId` and
`originalSubmissionId` and a `submissionHistory` of which the earlier history is a prefix,
followed by the records the call added; so no record is deleted. -/
theorem handlers_frame (st : State)
    (hnd : (st.theses.map (fun x : Thesis => x.id)).Nodup) :
    (∀ (env : Env) (req : UploadRequest), Frame st.theses (uploadThesis env st req).1.theses) ∧
      (∀ (env : Env) (req : ResubmissionRequest),
        Frame st.theses (requestResubmission env st req).1.theses) ∧
      (∀ (env : Env) (req : SubmitRequest),
        Frame st.theses (submitResubmission env st req).1.theses) ∧
      (∀ (thesisId : String), Frame st.theses (getThesisVersionHistory st thesisId).1.theses) ∧
      (∀ (studentId : String),
        Frame st.theses (checkResubmissionStatus st studentId).1.theses) ∧
      (∀ (env : Env) (reports : List Report) (id : String),
        Frame st.theses (sendReportToStudent env st reports id).1.1.theses) := by
  refine ⟨?_, ?_, ?_, ?_, ?_, ?_⟩
  · intro env req
    rcases uploadThesis_theses env st req with h | ⟨sup, _, _, h⟩
    · rw [h]
      exact frame_refl _
    · rw [h]
      exact frame_append _ _
  · intro env req
    rcases requestResubmission_theses env st req with h | ⟨tid, thesis, hfound, _, h⟩
    · rw [h]
      exact frame_refl _
    · rw [h]
      refine ⟨_, [], (List.append_nil _).symm, forall2_keptAs_replace ?_⟩
      intro x hx
      have hid : (markRequested env thesis (req.reason.getD "") (req.facultyId.getD "")).id
          = tid := (findThesisById_some hfound).2
      rw [hid, hfound] at hx
      cases hx
      exact ⟨rfl, rfl, rfl, rfl, rfl, List.prefix_refl _⟩
  · intro env req
    rcases submitResubmission_theses env st req with h | ⟨original, hfound, _, _, h | ⟨_, h⟩⟩
    · rw [h]
      exact frame_refl _
    · rw [h]
      exact frame_append _ _
    · rw [h]
      have hfound' : findThesisById st.theses (markResubmitted env original).id =
          some original := hfound
      rw [replaceThesis_append_of_found hfound']
      refine ⟨_, _, rfl, forall2_keptAs_replace ?_⟩
      intro x hx
      rw [hfound'] at hx
      cases hx
      exact ⟨rfl, rfl, rfl, rfl, rfl, List.prefix_append _ _⟩
  · intro thesisId
    have : (getThesisVersionHistory st thesisId).1 = st := by
      unfold getThesisVersionHistory
      split
      · rfl
      · split <;> rfl
    rw [this]
    exact frame_refl _
  · intro studentId
    have : (checkResubmissionStatus st studentId).1 = st := by
      unfold checkResubmissionStatus
      split <;> rfl
    rw [this]
    exact frame_refl _
  · intro env reports id
    unfold sendReportToStudent
    split
    · exact frame_refl _
    · split
      · exact frame_refl _
      · split
        · exact frame_refl _
        · simp only
          split
          · exact frame_approve env st _ hnd
          · exact frame_refl _

/-- Witness of C23: the sample resubmission on the store holding the first thesis keeps
that thesis in place, with its history extended, and adds version 2 behind it. -/
theorem handlers_frame_witness :
    Frame sampleStore2.theses (submitResubmission sampleEnv3 sampleStore2 sampleSubmit).1.theses :=
  (handlers_frame sampleStore2 (by decide)).2.2.1 sampleEnv3 sampleSubmit

/-! ## Histories in executions that resubmit against the latest version -/

theorem latestReachable_reachable {st : State} (h : LatestReachable st) : Reachable st := by
  induction h with
  | init users => exact Reachable.init users
  | upload env st req _ ih => exact Reachable.upload env st req ih
  | request env st req _ ih => exact Reachable.request env st req ih
  | resubmit env st req _ _ ih => exact Reachable.resubmit env st req ih
  | approve env st studentId _ ih => exact Reachable.approve env st studentId ih
  | usersWritten st users _ ih => exact Reachable.usersWritten st users ih

theorem submitResubmission_theses_named (env : Env) (st : State) (req : SubmitRequest) :
    (submitResubmission env st req).1.theses = st.theses ∨
      ∃ original, castObjectId (req.originalThesisId.getD "") = some original.id ∧
        findThesisById st.theses original.id = some original ∧
        findThesisById st.theses env.newThesisId = none ∧
        ((submitResubmission env st req).1.theses =
            st.theses ++ [resubmittedThesis env st.theses req original original.id] ∨
          (submitResubmission env st req).1.theses =
              replaceThesis
                (st.theses ++ [resubmittedThesis env st.theses req original original.id])
                (markResubmitted env original)) := by
  by_cases h1 : (!truthy req.originalThesisId || !truthy req.studentId ||
      !truthy req.fileUrl) = true
  · exact Or.inl (by simp [submitResubmission, h1])
  cases h2 : castObjectId (req.originalThesisId.getD "") with
  | none => exact Or.inl (by simp [submitResubmission, h1, h2])
  | some oid =>
    cases h3 : findThesisById st.theses oid with
    | none => exact Or.inl (by simp [submitResubmission, h1, h2, h3])
    | some original =>
      have hid : original.id = oid := (findThesisById_some h3).2
      subst hid
      by_cases h4 : studentIdMatch env.lowerCase original.studentId (req.studentId.getD "") = true
      swap
      · exact Or.inl (by simp [submitResubmission, h1, h2, h3, h4])
      by_cases h5 : original.resubmissionRequested = true
      swap
      · exact Or.inl (by simp [submitResubmission, h1, h2, h3, h4, h5])
      cases h6 : findUserById st.users original.supervisorId with
      | none => exact Or.inl (by simp [submitResubmission, h1, h2, h3, h4, h5, h6])
      | some supervisor =>
        by_cases h7 : validThesis
            (resubmittedThesis env st.theses req original original.id) = true
        swap
        · exact Or.inl (by simp [submitResubmission, h1, h2, h3, h4, h5, h6, h7])
        cases h8 : findThesisById st.theses
            (resubmittedThesis env st.theses req original original.id).id with
        | some d => exact Or.inl (by simp [submitResubmission, h1, h2, h3, h4, h5, h6, h7, h8])
        | none =>
          refine Or.inr ⟨original, rfl, h3, h8, ?_⟩
          by_cases h9 : validThesis (markResubmitted env original) = true
          swap
          · exact Or.inl (by simp [submitResubmission, h1, h2, h3, h4, h5, h6, h7, h8, h9])
          refine Or.inr ?_
          by_cases h10 : env.notificationSaves = true
          · simp [submitResubmission, h1, h2, h3, h4, h5, h6, h7, h8, h9, h10]
          · simp [submitResubmission, h1, h2, h3, h4, h5, h6, h7, h8, h9, h10]

theorem foldr_max_eq_init {vs : List Nat} {init : Nat} (h : ∀ v ∈ vs, v ≤ init) :
    vs.foldr max init = init := by
  induction vs with
  | nil => rfl
  | cons v r ih =>
    rw [List.foldr_cons, ih (fun w hw => h w (List.mem_cons_of_mem _ hw))]
    exact max_eq_right (h v (List.mem_cons_self _ _))

/-- On a well-formed collection the scan of `submitResubmission` yields the version of the
target when the target has the highest version of its chain. -/
theorem highestVersion_of_latest {l : List Thesis} (hinv : ChainInv (l.map Thesis.link))
    {original : Thesis} (ho : original ∈ l)
    (hl : ∀ t ∈ chainOf l (chainIdOf original original.id), t.version ≤ original.version) :
    highestVersion l original original.id = original.version := by
  unfold highestVersion
  rw [foldl_highest_eq]
  apply foldr_max_eq_init
  intro v hv
  obtain ⟨t, ht, rfl⟩ := List.mem_map.mp hv
  obtain ⟨htl, hc⟩ := List.mem_filter.mp ht
  simp only [Bool.or_eq_true, decide_eq_true_eq] at hc
  apply hl t
  apply List.mem_filter.mpr
  refine ⟨htl, ?_⟩
  rcases hc with hp | hc
  · obtain ⟨q, hq, hqid, hqo, _⟩ :=
      hinv.parentChain t.link (List.mem_map_of_mem _ htl) original.id hp
    have hqe : q = original.link :=
      hinv.eq_of_id_eq hq (List.mem_map_of_mem _ ho) hqid
    subst hqe
    have : t.originalSubmissionId = some (chainIdOf original original.id) := hqo
    simp [this]
  · simp [hc]

/-- In a reachable store every version is at least 1. -/
theorem reachable_version_pos {st : State} (h : Reachable st) {t : Thesis}
    (ht : t ∈ st.theses) : 1 ≤ t.version := by
  have hinv := (reachable_inv h).1
  have hk : t.link ∈ st.theses.map Thesis.link := List.mem_map_of_mem _ ht
  cases ho : t.originalSubmissionId with
  | none =>
    have := (hinv.rootShape t.link hk ho).1
    have e : t.version = 1 := this
    omega
  | some c =>
    have hres : t.isResubmission = true := (hinv.originalRoot t.link hk c ho).1
    cases hp : t.parentThesisId with
    | none => exact absurd hp (reachable_parent_of_resubmission h t ht hres)
    | some p =>
      obtain ⟨q, _, _, _, hqv⟩ := hinv.parentChain t.link hk p hp
      have e : q.version < t.version := hqv
      omega

theorem range_succ_snoc (v : Nat) (hv : 1 ≤ v) :
    List.range' 1 (v - 1) ++ [v] = List.range' 1 v := by
  obtain ⟨k, rfl⟩ : ∃ k, v = k + 1 := ⟨v - 1, by omega⟩
  rw [Nat.add_sub_cancel, List.range'_concat]
  congr 2
  omega

theorem mem_replaceThesis_or_found {l : List Thesis} {t' u : Thesis} (hu : u ∈ l) :
    u ∈ replaceThesis l t' ∨ findThesisById l t'.id = some u := by
  induction l with
  | nil => cases hu
  | cons a r ih =>
    by_cases ha : a.id = t'.id
    · rcases List.mem_cons.mp hu with rfl | hr
      · exact Or.inr (by simp [findThesisById, ha])
      · exact Or.inl (by simp [replaceThesis, ha, hr])
    · rcases List.mem_cons.mp hu with rfl | hr
      · exact Or.inl (by simp [replaceThesis, ha])
      · rcases ih hr with h1 | h1
        · exact Or.inl (by simp [replaceThesis, ha, h1])
        · exact Or.inr (by simpa [findThesisById, ha] using h1)

/-- A record with the version, chain and history of a stored record has a history of the
same kind in a collection that keeps a record for every stored one. -/
theorem historyOk_transfer {l l' : List Thesis} {x x' : Thesis} (h : HistoryOk l x)
    (keep : ∀ u ∈ l, ∃ u' ∈ l', u'.originalSubmissionId = u.originalSubmissionId ∧
      u'.version = u.version)
    (hv : x'.version = x.version)
    (ho : x'.originalSubmissionId.getD x'.id = x.originalSubmissionId.getD x.id)
    (hh : x'.submissionHistory = x.submissionHistory) : HistoryOk l' x' := by
  have hhv : historyVersions x' = historyVersions x := by
    unfold historyVersions
    rw [hh]
  rcases h with h | ⟨h, u, hu, huo, huv⟩
  · exact Or.inl (by rw [hhv, hv, h])
  · obtain ⟨u', hu', huo', huv'⟩ := keep u hu
    exact Or.inr ⟨by rw [hhv, hv, h], u', hu', by rw [huo', huo, ho], by rw [huv', hv]; exact huv⟩

theorem historyOk_refl_append {l : List Thesis} (added : List Thesis) {x : Thesis}
    (h : HistoryOk l x) : HistoryOk (l ++ added) x :=
  historyOk_transfer h (fun u hu => ⟨u, List.mem_append_left _ hu, rfl, rfl⟩) rfl rfl rfl

/-- Writing back a record with the version, chain and history of the stored record keeps
the histories in order. -/
theorem historyInv_replace {l : List Thesis} (h : HistoryInv l) (t0 t1 : Thesis)
    (hf : findThesisById l t1.id = some t0) (hv : t1.version = t0.version)
    (ho : t1.originalSubmissionId = t0.originalSubmissionId)
    (hh : t1.submissionHistory = t0.submissionHistory) :
    HistoryInv (replaceThesis l t1) := by
  have hid : t0.id = t1.id := (findThesisById_some hf).2
  have h0 : t0 ∈ l := (findThesisById_some hf).1
  have h1 : t1 ∈ replaceThesis l t1 :=
    (findThesisById_some (findThesisById_replaceThesis hf)).1
  have keep : ∀ u ∈ l, ∃ u' ∈ replaceThesis l t1,
      u'.originalSubmissionId = u.originalSubmissionId ∧ u'.version = u.version := by
    intro u hu
    rcases mem_replaceThesis_or_found hu with hm | hfu
    · exact ⟨u, hm, rfl, rfl⟩
    · rw [hf] at hfu
      cases hfu
      exact ⟨t1, h1, ho, hv⟩
  intro x hx
  rcases mem_replaceThesis hx with hx | rfl
  · exact historyOk_transfer (h x hx) keep rfl rfl rfl
  · exact historyOk_transfer (h t0 h0) keep hv (by rw [ho, hid]) hh
/-- The history of the target of a resubmission sent against the latest version holds the
versions below its own. -/
theorem history_of_latest {l : List Thesis} (h : HistoryInv l) {original : Thesis}
    (ho : original ∈ l)
    (hl : ∀ t ∈ chainOf l (chainIdOf original original.id), t.version ≤ original.version) :
    historyVersions original = List.range' 1 (original.version - 1) := by
  rcases h original ho with h1 | ⟨_, u, hu, huo, huv⟩
  · exact h1
  · have hmem : u ∈ chainOf l (chainIdOf original original.id) := by
      apply List.mem_filter.mpr
      refine ⟨hu, ?_⟩
      have : u.originalSubmissionId = some (chainIdOf original original.id) := huo
      simp [this]
    have := hl u hmem
    omega

/-- The history of the record created by a resubmission sent against the latest version. -/
theorem created_history_of_latest {st : State} (hr : Reachable st)
    (h : HistoryInv st.theses) (env : Env) (req : SubmitRequest) {original : Thesis}
    (ho : original ∈ st.theses)
    (hl : ∀ t ∈ chainOf st.theses (chainIdOf original original.id),
      t.version ≤ original.version) :
    (resubmittedThesis env st.theses req original original.id).version =
        original.version + 1 ∧
      historyVersions (resubmittedThesis env st.theses req original original.id) =
        List.range' 1 original.version := by
  refine ⟨?_, ?_⟩
  · show highestVersion st.theses original original.id + 1 = _
    rw [highestVersion_of_latest (reachable_inv hr).1 ho hl]
  · show (original.submissionHistory ++ [snapshot original]).map (fun e => e.version) = _
    rw [List.map_append]
    have h1 := history_of_latest h ho hl
    unfold historyVersions at h1
    rw [h1]
    exact range_succ_snoc _ (reachable_version_pos hr ho)

/-- In an execution that resubmits against the latest version only, every stored history
is in order. -/
theorem latestReachable_historyInv {st : State} (h : LatestReachable st) :
    HistoryInv st.theses := by
  induction h with
  | init users => intro t ht; cases ht
  | upload env st req _ ih =>
    rcases uploadThesis_theses env st req with h | ⟨sup, _, _, h⟩
    · rw [h]
      exact ih
    · rw [h]
      intro t ht
      rcases List.mem_append.mp ht with ht | ht
      · exact historyOk_refl_append _ (ih t ht)
      · rw [List.mem_singleton.mp ht]
        exact Or.inl rfl
  | request env st req _ ih =>
    rcases requestResubmission_theses env st req with h | ⟨tid, thesis, hfound, _, h⟩
    · rw [h]
      exact ih
    · rw [h]
      have hid : (markRequested env thesis (req.reason.getD "") (req.facultyId.getD "")).id
          = tid := (findThesisById_some hfound).2
      exact historyInv_replace ih thesis
        (markRequested env thesis (req.reason.getD "") (req.facultyId.getD ""))
        (by rw [hid]; exact hfound) rfl rfl rfl
  | resubmit env st req hst htl ih =>
    have hr := latestReachable_reachable hst
    rcases submitResubmission_theses_named env st req with h | ⟨original, hc, hf, hfresh, h⟩
    · rw [h]
      exact ih
    · have ho : original ∈ st.theses := (findThesisById_some hf).1
      have hl := htl original.id original hc hf
      obtain ⟨hcv, hch⟩ := created_history_of_latest hr ih env req ho hl
      have hcreated : ∀ l', HistoryOk l'
          (resubmittedThesis env st.theses req original original.id) := by
        intro l'
        left
        rw [hch, hcv, Nat.add_sub_cancel]
      rcases h with h | h
      · rw [h]
        intro t ht
        rcases List.mem_append.mp ht with ht | ht
        · exact historyOk_refl_append _ (ih t ht)
        · rw [List.mem_singleton.mp ht]
          exact hcreated _
      · have hf' : findThesisById st.theses (markResubmitted env original).id =
            some original := hf
        rw [h, replaceThesis_append_of_found hf']
        have h1 : markResubmitted env original ∈
            replaceThesis st.theses (markResubmitted env original) :=
          (findThesisById_some (findThesisById_replaceThesis hf')).1
        have keep : ∀ u ∈ st.theses, ∃ u' ∈
            replaceThesis st.theses (markResubmitted env original) ++
              [resubmittedThesis env st.theses req original original.id],
            u'.originalSubmissionId = u.originalSubmissionId ∧ u'.version = u.version := by
          intro u hu
          rcases mem_replaceThesis_or_found hu with hm | hfu
          · exact ⟨u, List.mem_append_left _ hm, rfl, rfl⟩
          · rw [hf'] at hfu
            cases hfu
            exact ⟨_, List.mem_append_left _ h1, rfl, rfl⟩
        intro t ht
        rcases List.mem_append.mp ht with ht | ht
        · rcases mem_replaceThesis ht with ht | rfl
          · exact historyOk_transfer (ih t ht) keep rfl rfl rfl
          · right
            refine ⟨?_, resubmittedThesis env st.theses req original original.id,
              List.mem_append_right _ (List.mem_singleton_self _), rfl, ?_⟩
            · show (original.submissionHistory ++ [snapshot original]).map
                (fun e => e.version) = _
              exact hch
            · show original.version < _
              rw [hcv]
              omega
        · rw [List.mem_singleton.mp ht]
          exact hcreated _
  | approve env st studentId hst ih =>
    unfold approveLatestThesis
    cases hl : latestThesisOf st.theses studentId with
    | none => exact ih
    | some t0 =>
      have hinv := (reachable_inv (latestReachable_reachable hst)).1
      exact historyInv_replace ih t0 (markApproved env t0)
        (find_of_mem hinv (latestThesisOf_mem hl)) rfl rfl rfl
  | usersWritten st users _ ih => exact ih

theorem sampleStoreAgain_reachable : Reachable sampleStoreAgain :=
  Reachable.request sampleEnv4 sampleStore3 sampleRequest sampleStore3_reachable

/-- C28: in every execution in which each resubmission is sent against the record of the
highest version of its chain, a successful resubmission creates a record whose submission
history has as many entries as there are versions below its own, with the versions 1, 2,
... in order; and in the sample execution that resubmits twice against the first thesis
(the second time with version 2 stored), the record created by the second resubmission has
version 3 and a history of two entries that both carry version 1. -/
theorem resubmission_history_versions :
    (∀ (st : State), LatestReachable st →
      ∀ (env : Env) (req : SubmitRequest) (created : Thesis),
        targetsLatest st req →
        (submitResubmission env st req).2.status = 201 →
        (submitResubmission env st req).2.thesis = some created →
        created.submissionHistory.length = created.version - 1 ∧
          created.submissionHistory.map (fun e => e.version) =
            List.range' 1 (created.version - 1)) ∧
      (Reachable sampleStoreAgain ∧
        sampleStore3 = (submitResubmission sampleEnv3 sampleStore2 sampleSubmit).1 ∧
        (submitResubmission sampleEnv3 sampleStore2 sampleSubmit).2.status = 201 ∧
        (submitResubmission sampleEnv5 sampleStoreAgain sampleSubmit).2.status = 201 ∧
        ∃ created,
          (submitResubmission sampleEnv5 sampleStoreAgain sampleSubmit).2.thesis =
            some created ∧
          created.version = 3 ∧
          created.submissionHistory.map (fun e => e.version) = [1, 1]) := by
  constructor
  · intro st hst env req created htl hok hcreated
    obtain ⟨oid, original, supervisor, hacc⟩ := submitResubmission_accepted hok
    have hid : original.id = oid := (findThesisById_some hacc.found).2
    subst hid
    rw [submitResubmission_of_accepted hacc] at hcreated
    simp only [submitOutcome, Option.some.injEq] at hcreated
    subst hcreated
    have ho : original ∈ st.theses := (findThesisById_some hacc.found).1
    obtain ⟨hcv, hch⟩ := created_history_of_latest (latestReachable_reachable hst)
      (latestReachable_historyInv hst) env req ho
      (htl original.id original hacc.cast hacc.found)
    unfold historyVersions at hch
    have hlen := congrArg List.length hch
    rw [List.length_map, List.length_range'] at hlen
    rw [hcv, Nat.add_sub_cancel]
    exact ⟨hlen, hch⟩
  · exact ⟨sampleStoreAgain_reachable, rfl, by decide, by decide, _, rfl, by decide,
      by decide⟩
theorem sampleStore2_latestReachable : LatestReachable sampleStore2 :=
  LatestReachable.request sampleEnv2 sampleStore1 sampleRequest
    (LatestReachable.upload sampleEnv1 sampleStore0 sampleUpload
      (LatestReachable.init [sampleFaculty]))

theorem sampleSubmit_targetsLatest : targetsLatest sampleStore2 sampleSubmit := by
  intro oid original hc hf
  have hc' : castObjectId (sampleSubmit.originalThesisId.getD "") = some sampleThesisId1 := by
    decide
  rw [hc'] at hc
  cases hc
  have hf' : findThesisById sampleStore2.theses sampleThesisId1 = some sampleOriginal := by
    decide
  rw [hf'] at hf
  cases hf
  decide

/-- Witness of C28: the sample resubmission, sent against the only version of its chain,
creates version 2 with a history of one entry. -/
theorem resubmission_history_versions_witness :
    sampleCreated.submissionHistory.length = sampleCreated.version - 1 ∧
      sampleCreated.submissionHistory.map (fun e => e.version) =
        List.range' 1 (sampleCreated.version - 1) :=
  resubmission_history_versions.1 sampleStore2 sampleStore2_latestReachable sampleEnv3
    sampleSubmit sampleCreated sampleSubmit_targetsLatest (by decide) (by decide)

/-! # The folder service -/

theorem updateSchedule_eventIds (l : List FolderSchedule) (i : String)
    (f : FolderSchedule → FolderSchedule) (hf : ∀ s, (f s).eventId = s.eventId) :
    (updateSchedule l i f).map (fun s => s.eventId) = l.map (fun s => s.eventId) := by
  induction l with
  | nil => rfl
  | cons s r ih =>
    unfold updateSchedule
    by_cases hs : s.eventId = i
    · simp [hs, hf]
    · simp [hs, ih]

theorem mem_updateSchedule {l : List FolderSchedule} {i : String}
    {f : FolderSchedule → FolderSchedule} {x : FolderSchedule}
    (h : x ∈ updateSchedule l i f) : x ∈ l ∨ ∃ s ∈ l, s.eventId = i ∧ x = f s := by
  induction l with
  | nil => cases h
  | cons s r ih =>
    unfold updateSchedule at h
    by_cases hs : s.eventId = i
    · rw [if_pos hs] at h
      rcases List.mem_cons.mp h with rfl | hr
      · exact Or.inr ⟨s, List.mem_cons_self _ _, hs, rfl⟩
      · exact Or.inl (List.mem_cons_of_mem _ hr)
    · rw [if_neg hs] at h
      rcases List.mem_cons.mp h with rfl | hr
      · exact Or.inl (List.mem_cons_self _ _)
      · rcases ih hr with h1 | ⟨s', hs', hi, hx⟩
        · exact Or.inl (List.mem_cons_of_mem _ h1)
        · exact Or.inr ⟨s', List.mem_cons_of_mem _ hs', hi, hx⟩

/-- The schedule found for an event after `findOneAndUpdate` is the updated one. -/
theorem findSchedule_updateSchedule {l : List FolderSchedule} {i : String}
    (f : FolderSchedule → FolderSchedule) (hf : ∀ s, (f s).eventId = s.eventId)
    {s : FolderSchedule} (h : findSchedule l i = some s) :
    findSchedule (updateSchedule l i f) i = some (f s) := by
  induction l with
  | nil => simp [findSchedule] at h
  | cons a r ih =>
    unfold updateSchedule
    by_cases ha : a.eventId = i
    · have : a = s := by simpa [findSchedule, ha] using h
      subst this
      simp [findSchedule, ha, hf]
    · have hr : findSchedule r i = some s := by simpa [findSchedule, ha] using h
      have := ih hr
      simpa [findSchedule, ha] using this

theorem findEventById_replaceEvent_of_ne {l : List Event} {e' : Event} {i : ObjectId}
    (hne : i ≠ e'.id) : findEventById (replaceEvent l e') i = findEventById l i := by
  induction l with
  | nil => rfl
  | cons a r ih =>
    unfold replaceEvent
    by_cases ha : a.id = e'.id
    · have h1 : a.id ≠ i := fun e => hne (e.symm.trans ha)
      have h2 : e'.id ≠ i := fun e => hne e.symm
      simp [findEventById, ha, h2]
    · rw [if_neg ha]
      by_cases hai : a.id = i
      · simp [findEventById, hai]
      · have := ih
        simp only [findEventById] at this
        simp [findEventById, hai, this]

theorem findEventById_replaceEvent {l : List Event} {e e' : Event}
    (h : findEventById l e'.id = some e) :
    findEventById (replaceEvent l e') e'.id = some e' := by
  induction l with
  | nil => simp [findEventById] at h
  | cons a r ih =>
    unfold replaceEvent
    by_cases ha : a.id = e'.id
    · simp [ha, findEventById]
    · have hr : findEventById r e'.id = some e := by simpa [findEventById, ha] using h
      have := ih hr
      simp only [findEventById] at this
      simp [findEventById, ha, this]

theorem findEventById_some {l : List Event} {i : ObjectId} {e : Event}
    (h : findEventById l i = some e) : e ∈ l ∧ e.id = i := by
  unfold findEventById at h
  exact ⟨List.mem_of_find?_eq_some h, by simpa using List.find?_some h⟩

theorem findFolderByEvent_none {l : List ThesisFolder} {i : ObjectId}
    (h : findFolderByEvent l i = none) : ∀ f ∈ l, f.eventId ≠ i := by
  unfold findFolderByEvent at h
  intro f hf
  simpa using (List.find?_eq_none.mp h) f hf

theorem findSchedule_none {l : List FolderSchedule} {i : String}
    (h : findSchedule l i = none) : ∀ s ∈ l, s.eventId ≠ i := by
  unfold findSchedule at h
  intro s hs
  simpa using (List.find?_eq_none.mp h) s hs

/-- The outcomes of `createThesisFoldersForEvent`: the failure recorded by the `catch`
block, one of the two early refusals, the existing folder, or the folder provisioned. -/
theorem createThesisFoldersForEvent_outcome (env : FolderEnv) (st : FolderState)
    (eventId : String) :
    createThesisFoldersForEvent env st eventId = recordFailure env st eventId ∨
      (createThesisFoldersForEvent env st eventId =
          (st, { success := false, message := "Event not found", folder := none,
                 error := none }) ∨
        createThesisFoldersForEvent env st eventId =
          (st, { success := false,
                 message := "Folder creation only available for thesis events",
                 folder := none, error := none })) ∨
      (∃ eid existing, castObjectId eventId = some eid ∧
        findFolderByEvent st.folders eid = some existing ∧
        createThesisFoldersForEvent env st eventId =
          (st, { success := true, message := "Folders already exist for this event",
                 folder := some existing, error := none })) ∨
      (∃ eid event, castObjectId eventId = some eid ∧
        findEventById st.events eid = some event ∧ includes event.type "Thesis" = true ∧
        findFolderByEvent st.folders eid = none ∧
        createThesisFoldersForEvent env st eventId =
          (provisioned env st event eventId,
            { success := true, message := "Thesis folders created successfully",
              folder := some (newFolder env event eventId), error := none })) := by
  cases h1 : castObjectId eventId with
  | none => exact Or.inl (by simp [createThesisFoldersForEvent, h1])
  | some eid =>
    cases h2 : findEventById st.events eid with
    | none => exact Or.inr (Or.inl (Or.inl (by simp [createThesisFoldersForEvent, h1, h2])))
    | some event =>
      by_cases h3 : includes event.type "Thesis" = true
      swap
      · exact Or.inr (Or.inl (Or.inr (by simp [createThesisFoldersForEvent, h1, h2, h3])))
      cases h4 : findFolderByEvent st.folders eid with
      | some existing =>
        exact Or.inr (Or.inr (Or.inl ⟨eid, existing, rfl, h4,
          by simp [createThesisFoldersForEvent, h1, h2, h3, h4]⟩))
      | none =>
        by_cases h5 : (!validFolder (newFolder env event eventId) || !env.folderSaves) = true
        · exact Or.inl (by simp [createThesisFoldersForEvent, h1, h2, h3, h4, h5])
        · exact Or.inr (Or.inr (Or.inr ⟨eid, event, rfl, h2, h3, h4,
            by simp [createThesisFoldersForEvent, h1, h2, h3, h4, h5]⟩))

theorem updateSchedule_nodup {l : List FolderSchedule} {i : String}
    {f : FolderSchedule → FolderSchedule} (hf : ∀ s, (f s).eventId = s.eventId)
    (h : (l.map (fun s => s.eventId)).Nodup) :
    ((updateSchedule l i f).map (fun s => s.eventId)).Nodup := by
  rw [updateSchedule_eventIds _ _ _ hf]
  exact h

theorem folderInv_recordFailure {env : FolderEnv} {st : FolderState} (eventId : String)
    (h : FolderInv st) : FolderInv (recordFailure env st eventId).1 :=
  { foldersNodup := h.foldersNodup
    folderEvent := h.folderEvent
    schedulesNodup := updateSchedule_nodup (fun _ => rfl) h.schedulesNodup
    scheduleIds := by
      intro x hx
      rcases mem_updateSchedule hx with hx | ⟨s, hs, _, rfl⟩
      · exact h.scheduleIds x hx
      · exact h.scheduleIds s hs }

theorem folderInv_provisioned {env : FolderEnv} {st : FolderState} {event : Event}
    {eid : ObjectId} (eventId : String) (h : FolderInv st)
    (hfound : findEventById st.events eid = some event)
    (htype : includes event.type "Thesis" = true)
    (hnone : findFolderByEvent st.folders eid = none) :
    FolderInv (provisioned env st event eventId) := by
  have hid : event.id = eid := (findEventById_some hfound).2
  subst hid
  have hfresh := findFolderByEvent_none hnone
  refine
    { foldersNodup := ?_
      folderEvent := ?_
      schedulesNodup := ?_
      scheduleIds := ?_ }
  · show ((st.folders ++ [newFolder env event eventId]).map (fun f => f.eventId)).Nodup
    rw [List.map_append, List.nodup_append]
    refine ⟨h.foldersNodup, List.nodup_singleton _, ?_⟩
    intro a ha hb
    obtain ⟨f, hf, rfl⟩ := List.mem_map.mp ha
    simp only [List.map_cons, List.map_nil, List.mem_singleton] at hb
    exact hfresh f hf hb
  · intro f hf
    have hf' : f ∈ st.folders ++ [newFolder env event eventId] := hf
    show ∃ e, findEventById (replaceEvent st.events _) f.eventId = some e ∧ _
    rcases List.mem_append.mp hf' with hf' | hf'
    · obtain ⟨e, he, hty⟩ := h.folderEvent f hf'
      refine ⟨e, ?_, hty⟩
      rw [← he]
      exact findEventById_replaceEvent_of_ne (hfresh f hf')
    · rw [List.mem_singleton.mp hf']
      exact ⟨_, findEventById_replaceEvent hfound, htype⟩
  · exact updateSchedule_nodup (fun _ => rfl) h.schedulesNodup
  · intro x hx
    rcases mem_updateSchedule hx with hx | ⟨s, hs, _, rfl⟩
    · exact h.scheduleIds x hx
    · exact h.scheduleIds s hs

/-- The function `createThesisFoldersForEvent` keeps the store well formed. -/
theorem folderInv_create (env : FolderEnv) {st : FolderState} (eventId : String)
    (h : FolderInv st) : FolderInv (createThesisFoldersForEvent env st eventId).1 := by
  rcases createThesisFoldersForEvent_outcome env st eventId with
    he | (he | he) | ⟨_, _, _, _, he⟩ | ⟨eid, event, _, hfound, htype, hnone, he⟩
  · rw [he]
    exact folderInv_recordFailure eventId h
  · rw [he]
    exact h
  · rw [he]
    exact h
  · rw [he]
    exact h
  · rw [he]
    exact folderInv_provisioned eventId h hfound htype hnone

theorem folderInv_timers {st : FolderState} (timers : List Timer) (h : FolderInv st) :
    FolderInv { st with timers := timers } :=
  { foldersNodup := h.foldersNodup
    folderEvent := h.folderEvent
    schedulesNodup := h.schedulesNodup
    scheduleIds := h.scheduleIds }

theorem folderInv_createForEach (env : FolderEnv) (l : List Event) :
    ∀ (st : FolderState) (results : List EventResult), FolderInv st →
      FolderInv (createForEach env l st results).1 := by
  induction l with
  | nil => intro st results h; exact h
  | cons e r ih =>
    intro st results h
    exact ih _ _ (folderInv_create env e.id.hex h)

/-- The store of `scheduleFolderCreation` is the one it was given unless the request has
the four fields, the due date and the creation date are valid and the event has no
schedule. -/
theorem scheduleFolderCreation_outcome (env : FolderEnv) (st : FolderState)
    (data : ScheduleRequest) :
    (scheduleFolderCreation env st data).1 = st ∨
      ∃ i n t v due, data.eventId = some i ∧ i ≠ "" ∧ data.eventName = some n ∧ n ≠ "" ∧
        data.eventType = some t ∧ t ≠ "" ∧ data.dueDate = some v ∧
        dateGiven (some v) = true ∧ readDue env v = some due ∧
        validTime (daysBefore due 14) = true ∧ findSchedule st.schedules i = none := by
  cases hi : data.eventId with
  | none => exact Or.inl (by simp [scheduleFolderCreation, hi, truthy])
  | some i =>
    by_cases hi' : i = ""
    · exact Or.inl (by simp [scheduleFolderCreation, hi, truthy, hi'])
    cases hd : data.dueDate with
    | none => exact Or.inl (by simp [scheduleFolderCreation, hi, truthy, hi', hd, dateGiven])
    | some v =>
      by_cases hg : dateGiven (some v) = true
      swap
      · exact Or.inl (by simp [scheduleFolderCreation, hi, truthy, hi', hd, hg])
      cases hs : findSchedule st.schedules i with
      | some existing =>
        exact Or.inl (by simp [scheduleFolderCreation, hi, truthy, hi', hd, hg, hs])
      | none =>
        cases hr : readDue env v with
        | none =>
          exact Or.inl (by simp [scheduleFolderCreation, hi, truthy, hi', hd, hg, hs, hr])
        | some due =>
          cases hn : data.eventName with
          | none =>
            exact Or.inl
              (by simp [scheduleFolderCreation, hi, truthy, hi', hd, hg, hs, hr, hn])
          | some n =>
            by_cases hn' : n = ""
            · exact Or.inl
                (by simp [scheduleFolderCreation, hi, truthy, hi', hd, hg, hs, hr, hn, hn'])
            cases ht : data.eventType with
            | none =>
              exact Or.inl
                (by simp [scheduleFolderCreation, hi, truthy, hi', hd, hg, hs, hr, hn, hn',
                  ht])
            | some t =>
              by_cases ht' : t = ""
              · exact Or.inl
                  (by simp [scheduleFolderCreation, hi, truthy, hi', hd, hg, hs, hr, hn, hn',
                    ht, ht'])
              by_cases hv : validTime (daysBefore due 14) = true
              swap
              · exact Or.inl
                  (by simp [scheduleFolderCreation, hi, truthy, hi', hd, hg, hs, hr, hn, hn',
                    ht, ht', hv])
              exact Or.inr ⟨i, n, t, v, due, rfl, hi', rfl, hn', rfl, ht', rfl, hg, hr, hv, hs⟩

/-- The outcome of `scheduleFolderCreation` on a complete request for an event without a
schedule. -/
theorem scheduleFolderCreation_new (env : FolderEnv) (st : FolderState)
    (data : ScheduleRequest) {i n t : String} {v : DateValue} {due : Int}
    (hi : data.eventId = some i) (hi' : i ≠ "") (hn : data.eventName = some n)
    (hn' : n ≠ "") (ht : data.eventType = some t) (ht' : t ≠ "")
    (hd : data.dueDate = some v) (hg : dateGiven (some v) = true)
    (hr : readDue env v = some due) (hv : validTime (daysBefore due 14) = true)
    (hs : findSchedule st.schedules i = none) :
    scheduleFolderCreation env st data =
      (if daysBefore due 14 - env.now > 0 then
          { st with
            schedules := st.schedules ++ [newSchedule i n t due]
            timers := st.timers ++
              [{ eventId := i, delay := daysBefore due 14 - env.now,
                 fireAt := env.now + timeoutDelay (daysBefore due 14 - env.now) }] }
        else
          (createThesisFoldersForEvent env
            { st with schedules := st.schedules ++ [newSchedule i n t due] } i).1,
        { success := true, message := "Folder creation scheduled successfully",
          folderCreationDate := some (daysBefore due 14), eventId := some i }) := by
  by_cases h5 : daysBefore due 14 - env.now > 0
  · simp [scheduleFolderCreation, hi, truthy, hi', hd, hg, hr, hv, hs, hn, hn', ht, ht', h5,
      newSchedule]
  · simp [scheduleFolderCreation, hi, truthy, hi', hd, hg, hr, hv, hs, hn, hn', ht, ht', h5,
      newSchedule]

theorem folderInv_schedule (env : FolderEnv) {st : FolderState} (data : ScheduleRequest)
    (h : FolderInv st) : FolderInv (scheduleFolderCreation env st data).1 := by
  rcases scheduleFolderCreation_outcome env st data with he |
    ⟨i, n, t, v, due, hi, hi', hn, hn', ht, ht', hd, hg, hr, hv, hs⟩
  · rw [he]
    exact h
  · rw [scheduleFolderCreation_new env st data hi hi' hn hn' ht ht' hd hg hr hv hs]
    have hst1 : FolderInv { st with schedules := st.schedules ++ [newSchedule i n t due] } :=
      { foldersNodup := h.foldersNodup
        folderEvent := h.folderEvent
        schedulesNodup := by
          show ((st.schedules ++ [newSchedule i n t due]).map (fun s => s.eventId)).Nodup
          rw [List.map_append, List.nodup_append]
          refine ⟨h.schedulesNodup, List.nodup_singleton _, ?_⟩
          intro a ha hb
          obtain ⟨s, hs', rfl⟩ := List.mem_map.mp ha
          simp only [List.map_cons, List.map_nil, List.mem_singleton] at hb
          exact findSchedule_none hs s hs' hb
        scheduleIds := by
          intro x hx
          have hx' : x ∈ st.schedules ++ [newSchedule i n t due] := hx
          rcases List.mem_append.mp hx' with hx' | hx'
          · exact h.scheduleIds x hx'
          · rw [List.mem_singleton.mp hx']
            exact hi' }
    show FolderInv (if _ then _ else _)
    split
    · exact folderInv_timers _ hst1
    · exact folderInv_create env i hst1

/-- Every reachable store of the folder service is well formed. -/
theorem folderReachable_inv {st : FolderState} (h : FolderReachable st) : FolderInv st := by
  induction h with
  | init events =>
    exact
      { foldersNodup := List.nodup_nil
        folderEvent := fun f hf => by cases hf
        schedulesNodup := List.nodup_nil
        scheduleIds := fun s hs => by cases hs }
  | create env st eventId _ ih => exact folderInv_create env eventId ih
  | schedule env st data _ ih => exact folderInv_schedule env data ih
  | execute env st _ ih => exact folderInv_createForEach env _ st [] ih
  | manual env st eventId _ ih =>
    unfold manuallyCreateFoldersForEvent
    split
    · exact ih
    · exact folderInv_create env _ ih
  | fire env st n _ ih =>
    unfold fireTimer
    split
    · exact ih
    · split
      · exact ih
      · exact folderInv_create env _ (folderInv_timers _ ih)
theorem findFolderByEvent_of_mem {l : List ThesisFolder}
    (hnd : (l.map (fun f => f.eventId)).Nodup) {f : ThesisFolder} (hf : f ∈ l) :
    findFolderByEvent l f.eventId = some f := by
  cases hq : findFolderByEvent l f.eventId with
  | none => exact absurd rfl (findFolderByEvent_none hq f hf)
  | some x =>
    unfold findFolderByEvent at hq
    have hx := List.mem_of_find?_eq_some hq
    have hid : x.eventId = f.eventId := by simpa using List.find?_some hq
    rw [List.inj_on_of_nodup_map hnd hx hf hid]

theorem findSchedule_of_mem {l : List FolderSchedule}
    (hnd : (l.map (fun s => s.eventId)).Nodup) {s : FolderSchedule} (hs : s ∈ l) :
    findSchedule l s.eventId = some s := by
  cases hq : findSchedule l s.eventId with
  | none => exact absurd rfl (findSchedule_none hq s hs)
  | some x =>
    unfold findSchedule at hq
    have hx := List.mem_of_find?_eq_some hq
    have hid : x.eventId = s.eventId := by simpa using List.find?_some hq
    rw [List.inj_on_of_nodup_map hnd hx hs hid]

theorem sampleProvisionedStore_reachable : FolderReachable sampleProvisionedStore :=
  FolderReachable.create sampleFolderEnv sampleFolderStore0 "0000000000000000000000e1"
    (FolderReachable.init _)

theorem sampleAheadStore_reachable : FolderReachable sampleAheadStore :=
  FolderReachable.schedule sampleFolderEnv sampleFolderStore0 sampleScheduleAhead
    (FolderReachable.init _)

/-- C24: in every store reached from a store without folders and schedules by calls of
`createThesisFoldersForEvent`, `scheduleFolderCreation`, `executeThesisFolderCreation` and
`manuallyCreateFoldersForEvent` in sequence (and by timers firing), no two folder records
have the same event and no two schedules the same event text; a call of
`createThesisFoldersForEvent` for an event that has a folder record returns the store as it
was and answers success with that record; and a call of `scheduleFolderCreation` for an
event that has a schedule returns the store as it was (no second schedule, no timer, no
folder), answering that the creation is already scheduled when the due date given is not
falsy. -/
theorem folder_never_double_provisioned (st : FolderState) (h : FolderReachable st) :
    (st.folders.map (fun f => f.eventId)).Nodup ∧
      (st.schedules.map (fun s => s.eventId)).Nodup ∧
      (∀ (env : FolderEnv) (eventId : String) (f : ThesisFolder),
        f ∈ st.folders → castObjectId eventId = some f.eventId →
        createThesisFoldersForEvent env st eventId =
          (st, { success := true, message := "Folders already exist for this event",
                 folder := some f, error := none })) ∧
      (∀ (env : FolderEnv) (data : ScheduleRequest) (s : FolderSchedule),
        s ∈ st.schedules → data.eventId = some s.eventId →
        (scheduleFolderCreation env st data).1 = st ∧
          (dateGiven data.dueDate = true →
            (scheduleFolderCreation env st data).2 =
              { success := true, message := "Folder creation already scheduled",
                folderCreationDate := some s.folderCreationDate, eventId := none })) := by
  have hinv := folderReachable_inv h
  refine ⟨hinv.foldersNodup, hinv.schedulesNodup, ?_, ?_⟩
  · intro env eventId f hf hc
    obtain ⟨e, he, hty⟩ := hinv.folderEvent f hf
    have hfd := findFolderByEvent_of_mem hinv.foldersNodup hf
    simp [createThesisFoldersForEvent, hc, he, hty, hfd]
  · intro env data s hs hi
    have hfd := findSchedule_of_mem hinv.schedulesNodup hs
    have hne := hinv.scheduleIds s hs
    by_cases hg : dateGiven data.dueDate = true
    · simp [scheduleFolderCreation, hi, hg, truthy, hne, hfd]
    · simp [scheduleFolderCreation, hi, hg]

/-- Witness of C24: on the store that holds the folder of the sample thesis event, a
second call for that event returns the store and the stored folder. -/
theorem folder_never_double_provisioned_witness :
    (sampleProvisionedStore.folders.map (fun f => f.eventId)).Nodup ∧
      createThesisFoldersForEvent sampleFolderEnv sampleProvisionedStore
          "0000000000000000000000e1" =
        (sampleProvisionedStore,
          { success := true, message := "Folders already exist for this event",
            folder := some
              (newFolder sampleFolderEnv sampleThesisEvent "0000000000000000000000e1"),
            error := none }) :=
  ⟨(folder_never_double_provisioned sampleProvisionedStore
      sampleProvisionedStore_reachable).1,
    (folder_never_double_provisioned sampleProvisionedStore
      sampleProvisionedStore_reachable).2.2.1 sampleFolderEnv "0000000000000000000000e1"
      (newFolder sampleFolderEnv sampleThesisEvent "0000000000000000000000e1")
      (by decide) (by decide)⟩

/-! ## Scheduling -/

theorem mem_updateSchedule_kept {l : List FolderSchedule} (i : String)
    {f : FolderSchedule → FolderSchedule} {s : FolderSchedule} (hs : s ∈ l) :
    s ∈ updateSchedule l i f ∨ f s ∈ updateSchedule l i f := by
  induction l with
  | nil => cases hs
  | cons a r ih =>
    unfold updateSchedule
    by_cases ha : a.eventId = i
    · rw [if_pos ha]
      rcases List.mem_cons.mp hs with rfl | hr
      · exact Or.inr (List.mem_cons_self _ _)
      · exact Or.inl (List.mem_cons_of_mem _ hr)
    · rw [if_neg ha]
      rcases List.mem_cons.mp hs with rfl | hr
      · exact Or.inl (List.mem_cons_self _ _)
      · rcases ih hr with h1 | h1
        · exact Or.inl (List.mem_cons_of_mem _ h1)
        · exact Or.inr (List.mem_cons_of_mem _ h1)

/-- A call of `createThesisFoldersForEvent` keeps every schedule, with its event, due date
and creation date. -/
theorem createThesisFoldersForEvent_keeps_schedule (env : FolderEnv) (st : FolderState)
    (eventId : String) {s : FolderSchedule} (hs : s ∈ st.schedules) :
    ∃ s' ∈ (createThesisFoldersForEvent env st eventId).1.schedules,
      s'.eventId = s.eventId ∧ s'.dueDate = s.dueDate ∧
        s'.folderCreationDate = s.folderCreationDate := by
  rcases createThesisFoldersForEvent_outcome env st eventId with
    he | (he | he) | ⟨_, _, _, _, he⟩ | ⟨eid, event, _, _, _, _, he⟩
  · rw [he]
    rcases mem_updateSchedule_kept eventId hs with h1 | h1
    · exact ⟨s, h1, rfl, rfl, rfl⟩
    · exact ⟨_, h1, rfl, rfl, rfl⟩
  · rw [he]
    exact ⟨s, hs, rfl, rfl, rfl⟩
  · rw [he]
    exact ⟨s, hs, rfl, rfl, rfl⟩
  · rw [he]
    exact ⟨s, hs, rfl, rfl, rfl⟩
  · rw [he]
    rcases mem_updateSchedule_kept eventId hs with h1 | h1
    · exact ⟨s, h1, rfl, rfl, rfl⟩
    · exact ⟨_, h1, rfl, rfl, rfl⟩

/-- C25, counterexample: the request `sampleScheduleNoName` has an `eventId` and a
`dueDate` that reads as a date whose creation date has passed, and the event has no
schedule; the call answers "Internal server error" and returns the store as it was: no
schedule is recorded and `createThesisFoldersForEvent`, which would have created the
folder, is not invoked. -/
theorem scheduleFolderCreation_without_name :
    FolderReachable sampleFolderStore0 ∧
      sampleScheduleNoName.eventId = some "0000000000000000000000e1" ∧
      sampleScheduleNoName.dueDate = some (DateValue.text "1970-01-24T03:33:20.000Z") ∧
      dateGiven sampleScheduleNoName.dueDate = true ∧
      readDue sampleFolderEnv (DateValue.text "1970-01-24T03:33:20.000Z") =
        some 2000000000 ∧
      findSchedule sampleFolderStore0.schedules "0000000000000000000000e1" = none ∧
      daysBefore 2000000000 14 ≤ sampleFolderEnv.now ∧
      scheduleFolderCreation sampleFolderEnv sampleFolderStore0 sampleScheduleNoName =
        (sampleFolderStore0, scheduleError) ∧
      scheduleError.success = false ∧
      (createThesisFoldersForEvent sampleFolderEnv sampleFolderStore0
        "0000000000000000000000e1").1 ≠ sampleFolderStore0 :=
  ⟨FolderReachable.init _, rfl, rfl, by decide, by decide, by decide, by decide, by decide,
    rfl, by decide⟩

theorem timeoutDelay_of_le {d : Int} (h1 : 0 < d) (h2 : d ≤ 2147483647) :
    timeoutDelay d = d := by
  unfold timeoutDelay timeoutMax
  rw [if_pos ⟨by omega, h2⟩]

/-- A timer appended to the pending ones is left alone before its instant, and runs
`createThesisFoldersForEvent` for its event from that instant on. -/
theorem fireTimer_appended (env : FolderEnv) (st : FolderState) (timers : List Timer)
    (timer : Timer) (ht : st.timers = timers ++ [timer]) :
    (env.now < timer.fireAt → fireTimer env st timers.length = st) ∧
      (timer.fireAt ≤ env.now →
        fireTimer env st timers.length =
          (createThesisFoldersForEvent env { st with timers := timers } timer.eventId).1) := by
  have hget : st.timers.get? timers.length = some timer := by
    rw [ht]
    simp
  have herase : st.timers.eraseIdx timers.length = timers := by
    rw [ht, List.eraseIdx_append_of_length_le (le_refl _)]
    simp
  constructor
  · intro h
    unfold fireTimer
    rw [hget]
    simp [h]
  · intro h
    have h' : ¬ env.now < timer.fireAt := by omega
    unfold fireTimer
    rw [hget]
    simp [h', herase]

/-- C25: for a `scheduleFolderCreation` call with a non-empty `eventId`, `eventName` and
`eventType` and a `dueDate` that is not falsy and reads as a date, the date 14 days earlier
being a valid date, for an event without a schedule: the call answers success and the
schedule recorded for the event carries the due date moved back by 14 days of 86400000
milliseconds.  When that date is later than the clock, the call leaves folders and events
as they were and adds the schedule and one timer for the event, set with the time that
remains; when that time is at most 2147483647 ms the timer is due at the creation date: a
firing before it changes nothing, and from it on the timer invokes
`createThesisFoldersForEvent` for the event.  When the creation date is not later than the
clock, the store returned is the one `createThesisFoldersForEvent` returns for the event on
the store with the schedule added.  A call whose `eventId` or `dueDate` is missing or falsy
answers failure and returns the store as it was. -/
theorem scheduleFolderCreation_effect (env : FolderEnv) (st : FolderState)
    (data : ScheduleRequest) (i n t : String) (v : DateValue) (due : Int)
    (hi : data.eventId = some i) (hi' : i ≠ "") (hn : data.eventName = some n)
    (hn' : n ≠ "") (ht : data.eventType = some t) (ht' : t ≠ "")
    (hd : data.dueDate = some v) (hg : dateGiven (some v) = true)
    (hr : readDue env v = some due) (hv : validTime (due - 14 * 86400000) = true)
    (hs : findSchedule st.schedules i = none) :
    (scheduleFolderCreation env st data).2 =
        { success := true, message := "Folder creation scheduled successfully",
          folderCreationDate := some (due - 14 * 86400000), eventId := some i } ∧
      (∃ s ∈ (scheduleFolderCreation env st data).1.schedules,
        s.eventId = i ∧ s.dueDate = due ∧ s.folderCreationDate = due - 14 * 86400000) ∧
      (env.now < due - 14 * 86400000 →
        (scheduleFolderCreation env st data).1.folders = st.folders ∧
        (scheduleFolderCreation env st data).1.events = st.events ∧
        (scheduleFolderCreation env st data).1.schedules =
          st.schedules ++ [newSchedule i n t due] ∧
        ∃ timer, (scheduleFolderCreation env st data).1.timers = st.timers ++ [timer] ∧
          timer.eventId = i ∧ timer.delay = due - 14 * 86400000 - env.now ∧
          (timer.delay ≤ 2147483647 →
            timer.fireAt = due - 14 * 86400000 ∧
            (∀ env' : FolderEnv, env'.now < due - 14 * 86400000 →
              fireTimer env' (scheduleFolderCreation env st data).1 st.timers.length =
                (scheduleFolderCreation env st data).1) ∧
            (∀ env' : FolderEnv, due - 14 * 86400000 ≤ env'.now →
              fireTimer env' (scheduleFolderCreation env st data).1 st.timers.length =
                (createThesisFoldersForEvent env'
                  { (scheduleFolderCreation env st data).1 with timers := st.timers }
                  i).1))) ∧
      (due - 14 * 86400000 ≤ env.now →
        (scheduleFolderCreation env st data).1 =
          (createThesisFoldersForEvent env
            { st with schedules := st.schedules ++ [newSchedule i n t due] } i).1) ∧
      (∀ data' : ScheduleRequest,
        truthy data'.eventId = false ∨ dateGiven data'.dueDate = false →
        scheduleFolderCreation env st data' =
          (st, { success := false, message := "Event ID and due date are required",
                 folderCreationDate := none, eventId := none })) := by
  have hdate : daysBefore due 14 = due - 14 * 86400000 := rfl
  have heq := scheduleFolderCreation_new env st data hi hi' hn hn' ht ht' hd hg hr
    (by rw [hdate]; exact hv) hs
  rw [hdate] at heq
  refine ⟨by rw [heq], ?_, ?_, ?_, ?_⟩
  · rw [heq]
    by_cases h5 : due - 14 * 86400000 - env.now > 0
    · rw [if_pos h5]
      exact ⟨newSchedule i n t due, List.mem_append_right _ (List.mem_singleton_self _),
        rfl, rfl, rfl⟩
    · rw [if_neg h5]
      have hm : newSchedule i n t due ∈
          ({ st with schedules := st.schedules ++ [newSchedule i n t due] } :
            FolderState).schedules :=
        List.mem_append_right _ (List.mem_singleton_self _)
      exact createThesisFoldersForEvent_keeps_schedule env _ i hm
  · intro hlt
    have h5 : due - 14 * 86400000 - env.now > 0 := by omega
    rw [heq, if_pos h5]
    refine ⟨rfl, rfl, rfl, _, rfl, rfl, rfl, ?_⟩
    intro hle
    have hfire : env.now + timeoutDelay (due - 14 * 86400000 - env.now) =
        due - 14 * 86400000 := by
      rw [timeoutDelay_of_le h5 hle]
      omega
    have key := fun env' : FolderEnv => fireTimer_appended env'
      ({ st with
          schedules := st.schedules ++ [newSchedule i n t due]
          timers := st.timers ++
            [{ eventId := i, delay := due - 14 * 86400000 - env.now,
               fireAt := env.now + timeoutDelay (due - 14 * 86400000 - env.now) }] } :
        FolderState)
      st.timers
      { eventId := i, delay := due - 14 * 86400000 - env.now,
        fireAt := env.now + timeoutDelay (due - 14 * 86400000 - env.now) } rfl
    refine ⟨hfire, ?_, ?_⟩
    · intro env' hnow
      exact (key env').1 (by rw [hfire]; exact hnow)
    · intro env' hnow
      exact (key env').2 (by rw [hfire]; exact hnow)
  · intro hle
    have h5 : ¬ (due - 14 * 86400000 - env.now > 0) := by omega
    rw [heq, if_neg h5]
  · intro data' h'
    rcases h' with h' | h'
    · simp [scheduleFolderCreation, h']
    · simp [scheduleFolderCreation, h']

/-- Witness of C25: the sample request whose creation date has passed. -/
theorem scheduleFolderCreation_effect_witness :
    (scheduleFolderCreation sampleFolderEnv sampleFolderStore0 sampleSchedulePast).1 =
      (createThesisFoldersForEvent sampleFolderEnv
        { sampleFolderStore0 with
          schedules := sampleFolderStore0.schedules ++
            [newSchedule "0000000000000000000000e1" "Spring theses" "Thesis Submission"
              2000000000] }
        "0000000000000000000000e1").1 :=
  (scheduleFolderCreation_effect sampleFolderEnv sampleFolderStore0 sampleSchedulePast
    "0000000000000000000000e1" "Spring theses" "Thesis Submission"
    (DateValue.text "1970-01-24T03:33:20.000Z") 2000000000
    rfl (by decide) rfl (by decide) rfl (by decide) rfl (by decide) (by decide) (by decide)
    (by decide)).2.2.2.1 (by decide)

/-- On the sample store a request whose due date is the number 0 or the empty string is
refused like a request without due date, and a request whose creation date lies further
ahead than `setTimeout` honours gets a timer that is due one millisecond after the call,
not at the creation date 3790400000. -/
theorem scheduleFolderCreation_edge_cases :
    (∀ d ∈ [some (DateValue.number 0), some (DateValue.text ""), none],
      scheduleFolderCreation sampleFolderEnv sampleFolderStore0
          { sampleSchedulePast with dueDate := d } =
        (sampleFolderStore0,
          { success := false, message := "Event ID and due date are required",
            folderCreationDate := none, eventId := none })) ∧
      (scheduleFolderCreation sampleFolderEnv sampleFolderStore0
          sampleScheduleFarAhead).1.timers =
        [{ eventId := "0000000000000000000000e1", delay := 2790400000,
           fireAt := 1000000001 }] ∧
      (scheduleFolderCreation sampleFolderEnv sampleFolderStore0
          sampleScheduleFarAhead).1.schedules.map (fun s => s.folderCreationDate) =
        [3790400000] := by
  refine ⟨?_, by decide, by decide⟩
  intro d hd
  simp only [List.mem_cons, List.mem_singleton, List.not_mem_nil, or_false] at hd
  rcases hd with rfl | rfl | rfl <;> decide

/-! ## The record an invocation leaves on the schedule -/

theorem sampleMeetingStore_reachable : FolderReachable sampleMeetingStore :=
  FolderReachable.schedule sampleFolderEnv sampleFolderStore0 sampleScheduleMeeting
    (FolderReachable.init _)

theorem findSchedule_recordFailure (env : FolderEnv) {st : FolderState} {eventId : String}
    {s : FolderSchedule} (hs : findSchedule st.schedules eventId = some s) :
    findSchedule (recordFailure env st eventId).1.schedules eventId =
      some { s with
             status := ScheduleStatus.failed
             error := some env.errorText
             lastAttempt := some env.now } :=
  findSchedule_updateSchedule (fun s =>
    { s with
      status := ScheduleStatus.failed
      error := some env.errorText
      lastAttempt := some env.now }) (fun _ => rfl) hs

theorem findSchedule_provisioned (env : FolderEnv) {st : FolderState} (event : Event)
    {eventId : String} {s : FolderSchedule}
    (hs : findSchedule st.schedules eventId = some s) :
    findSchedule (provisioned env st event eventId).schedules eventId =
      some { s with
             status := ScheduleStatus.created
             folderPath := some (newFolder env event eventId).folderPath
             folderUrl := some (newFolder env event eventId).folderUrl
             lastAttempt := some env.now } :=
  findSchedule_updateSchedule (fun s =>
    { s with
      status := ScheduleStatus.created
      folderPath := some (newFolder env event eventId).folderPath
      folderUrl := some (newFolder env event eventId).folderUrl
      lastAttempt := some env.now }) (fun _ => rfl) hs

/-- C26, what the code does: for an event text with a schedule, an invocation of
`createThesisFoldersForEvent` that enters the `catch` block (answer "Failed to create
thesis folders") leaves the schedule failed with `lastAttempt` the time of the call, and
one that inserts a folder leaves it created with `lastAttempt` set; the only other
failures are the two early returns, which return the store as it was.  At the failing
input, the reachable store `sampleMeetingStore` with the event "Staff meeting" of type
"General" and its schedule, the invocation answers `success = false` and the schedule
still reads "scheduled" with no attempt recorded. -/
theorem createThesisFoldersForEvent_audit :
    (∀ (env : FolderEnv) (st : FolderState) (eventId : String) (s : FolderSchedule),
      findSchedule st.schedules eventId = some s →
      ((createThesisFoldersForEvent env st eventId).2.success = false →
        (∃ s', findSchedule (createThesisFoldersForEvent env st eventId).1.schedules eventId
              = some s' ∧
            s'.status = ScheduleStatus.failed ∧ s'.lastAttempt = some env.now) ∨
          ((createThesisFoldersForEvent env st eventId).1 = st ∧
            ((createThesisFoldersForEvent env st eventId).2.message = "Event not found" ∨
              (createThesisFoldersForEvent env st eventId).2.message =
                "Folder creation only available for thesis events"))) ∧
        ((createThesisFoldersForEvent env st eventId).1.folders ≠ st.folders →
          ∃ s', findSchedule (createThesisFoldersForEvent env st eventId).1.schedules eventId
              = some s' ∧
            s'.status = ScheduleStatus.created ∧ s'.lastAttempt = some env.now)) ∧
      (FolderReachable sampleMeetingStore ∧
        findEventById sampleMeetingStore.events sampleEventId2 = some sampleMeeting ∧
        (findSchedule sampleMeetingStore.schedules "0000000000000000000000e2").map
            (fun s => (s.status, s.lastAttempt)) = some (ScheduleStatus.scheduled, none) ∧
        createThesisFoldersForEvent sampleFolderEnv sampleMeetingStore
            "0000000000000000000000e2" =
          (sampleMeetingStore,
            { success := false,
              message := "Folder creation only available for thesis events",
              folder := none, error := none })) := by
  constructor
  · intro env st eventId s hs
    rcases createThesisFoldersForEvent_outcome env st eventId with
      he | (he | he) | ⟨_, _, _, _, he⟩ | ⟨eid, event, _, _, _, _, he⟩
    · rw [he]
      exact ⟨fun _ => Or.inl ⟨_, findSchedule_recordFailure env hs, rfl, rfl⟩,
        fun hne => absurd rfl hne⟩
    · rw [he]
      exact ⟨fun _ => Or.inr ⟨rfl, Or.inl rfl⟩, fun hne => absurd rfl hne⟩
    · rw [he]
      exact ⟨fun _ => Or.inr ⟨rfl, Or.inr rfl⟩, fun hne => absurd rfl hne⟩
    · rw [he]
      exact ⟨fun hf => by simp at hf, fun hne => absurd rfl hne⟩
    · rw [he]
      exact ⟨fun hf => by simp at hf, fun _ =>
        ⟨_, findSchedule_provisioned env event hs, rfl, rfl⟩⟩
  · exact ⟨sampleMeetingStore_reachable, by decide, by decide, by decide⟩

end DeskInspect
